import Mathlib

/-!
# BlueSCSI-v2: initiator scan / imaging controller and RAM disk

A shallow embedding of

* `src/BlueSCSI_usbbridge.cpp` (`g_initiator_state`, `scsiUsbBridgeInit`,
  `scsiUsbBridgeMainLoop`), in the build with the SD card
  (`LIB_FREERTOS_KERNEL` not defined), and
* `src/usb/msc_ram_disk.cpp` (`MscRamDisk`).

Machine integers are natural numbers (or integers, for `int`) that are wrapped
explicitly wherever the C code stores into a fixed-width object.  The answers of
the SCSI bus, of the SD card and of the clock within one call of the main loop
are collected in the record `Answers`; every theorem quantifies over them.
-/

namespace BlueSCSI

/-! ## Machine integers -/

/-- Store into a `uint8_t`. -/
def u8 (x : Nat) : Nat := x % 2 ^ 8

/-- Store into a `uint32_t`. -/
def u32 (x : Nat) : Nat := x % 2 ^ 32

/-- Store into a `uint64_t`. -/
def u64 (x : Nat) : Nat := x % 2 ^ 64

/-- Conversion of a `long` to `uint8_t`: reduction modulo 256. -/
def longToU8 (x : Int) : Nat := (x % 256).toNat

/-- The C expression `1 << id` for an `int id`.  It is defined by the language
for `0 <= id < 31`; the controller only evaluates it for `0 <= id <= 7`. -/
def shl1 (id : Int) : Nat := 1 <<< id.toNat

/-! ## Constants of headers that are not part of the sources -/

/-- Modelled from the spec: `DEVICE_TYPE_CD` of `BlueSCSI_initiator.h`, the SCSI
peripheral device type of a CD-ROM drive. -/
def DEVICE_TYPE_CD : Nat := 5

/-- Modelled from the spec: `DEVICE_TYPE_DIRECT_ACCESS` of `BlueSCSI_initiator.h`,
the SCSI peripheral device type of a direct-access device. -/
def DEVICE_TYPE_DIRECT_ACCESS : Nat := 0

/-! ## The controller state (`g_initiator_state`) -/

/-- The fields of `g_initiator_state`.  `target_file` is `some name` while the
image file `name` is open and `none` otherwise. -/
structure InitiatorState where
  drives_imaged : Nat
  initiator_id : Nat
  imaging : Bool
  target_id : Int
  sectorsize : Nat
  sectorcount : Nat
  sectorcount_all : Nat
  sectors_done : Nat
  max_sector_per_transfer : Nat
  badSectorCount : Nat
  ansiVersion : Nat
  maxRetryCount : Nat
  deviceType : Nat
  retrycount : Int
  failposition : Nat
  ejectWhenDone : Bool
  target_file : Option String
deriving DecidableEq, Repr

/-- The zero-filled static object `g_initiator_state` before `scsiUsbBridgeInit`
has run. -/
def staticState : InitiatorState :=
  { drives_imaged := 0, initiator_id := 0, imaging := false, target_id := 0,
    sectorsize := 0, sectorcount := 0, sectorcount_all := 0, sectors_done := 0,
    max_sector_per_transfer := 0, badSectorCount := 0, ansiVersion := 0,
    maxRetryCount := 0, deviceType := 0, retrycount := 0, failposition := 0,
    ejectWhenDone := false, target_file := none }

/-- `scsiUsbBridgeInit`: `cfgInitiatorID` and `cfgMaxRetry` are the values
`ini_getl` returns for `InitiatorID` and `InitiatorMaxRetry`. -/
def scsiUsbBridgeInit (cfgInitiatorID cfgMaxRetry : Int) (s : InitiatorState) :
    InitiatorState :=
  let id0 := longToU8 cfgInitiatorID
  let id := if id0 > 7 then 7 else id0
  { s with
    initiator_id := id
    maxRetryCount := longToU8 cfgMaxRetry
    drives_imaged := u32 (shl1 id)
    imaging := false
    target_id := -1
    sectorsize := 0
    sectorcount := 0
    sectors_done := 0
    retrycount := 0
    failposition := 0
    max_sector_per_transfer := 512
    ansiVersion := 0
    badSectorCount := 0
    deviceType := DEVICE_TYPE_DIRECT_ACCESS
    ejectWhenDone := false }

/-! ## What the collaborators answer during one call of the main loop -/

/-- The answers of the bus, the card and the clock to the calls one run of
`scsiUsbBridgeMainLoop` can make.  An answer is only looked at when the
corresponding call is made. -/
structure Answers where
  /-- The flag `g_scsiHostPhyReset` at the top of the call. -/
  g_scsiHostPhyReset : Bool
  /-- Result of `scsiTestUnitReady`. -/
  testUnitReady : Bool
  /-- Result of `scsiStartStopUnit(target_id, true)`. -/
  startStopUnit : Bool
  /-- Result of `scsiInitiatorReadCapacity`. -/
  readCapacity : Bool
  /-- Value left in `sectorcount` by `scsiInitiatorReadCapacity`. -/
  readCapacityCount : Nat
  /-- Value left in `sectorsize` by `scsiInitiatorReadCapacity`. -/
  readCapacitySize : Nat
  /-- Result of `scsiInquiry`. -/
  inquiry : Bool
  /-- Contents of `inquiry_data` after `scsiInquiry`; bytes that are not listed
  keep the zero they were set to. -/
  inquiry_data : List Nat
  /-- Whether `SD.fatType() == FAT_TYPE_EXFAT`. -/
  exfat : Bool
  /-- Result of `SD.vol()->freeClusterCount()`. -/
  freeClusterCount : Nat
  /-- Result of `SD.vol()->bytesPerCluster()`. -/
  bytesPerCluster : Nat
  /-- The names for which `SD.exists` answers true. -/
  files : List String
  /-- Whether the file returned by `SD.open` is open. -/
  openOk : Bool
  /-- Result of `scsiInitiatorReadDataToFile`. -/
  readOk : Bool
  /-- Value of `millis()` before the read. -/
  millisStart : Nat
  /-- Value of `millis()` after the read. -/
  millisEnd : Nat
deriving Repr

/-- Answers of an empty bus and an empty exFAT card. -/
def Answers.silent : Answers :=
  { g_scsiHostPhyReset := false, testUnitReady := false, startStopUnit := false,
    readCapacity := false, readCapacityCount := 0, readCapacitySize := 0,
    inquiry := false, inquiry_data := [], exfat := true,
    freeClusterCount := 2 ^ 24, bytesPerCluster := 2 ^ 15, files := [],
    openOk := true, readOk := true, millisStart := 0, millisEnd := 1 }

/-! ## Observable actions -/

/-- The log lines of `scsiUsbBridgeMainLoop`, one constructor per `log` call
site. -/
inductive LogMsg where
  | busReset
  | capacity
  | exfatNeeded
  | readCapacityFailed
  | noResponse
  | unhandledDeviceType
  | notEnoughSpace
  | imagingFilename
  | openFailed
  | preallocating
  | startCopy
  | finished
  | limited4GiB
  | badSectors
  | markImaged
  | transferFailed
  | retrying
  | multipleFailures
  | retryLimitExceeded
  /-- The success line with the `int speed_kbps` (`none` when the divisor is zero) and
  the percentage. -/
  | readSucceeded (speed : Option Int) (percent : Option Nat)
deriving DecidableEq, Repr

/-- The calls to the collaborators one run of the main loop makes, in order. -/
inductive Action where
  | log (m : LogMsg)
  | scsiHostPhyReset
  | delay_with_poll (ms : Nat)
  | scsiTestUnitReady (id : Int)
  | scsiStartStopUnit (id : Int) (start : Bool)
  | scsiInitiatorReadCapacity (id : Int)
  | scsiInquiry (id : Int)
  | sdOpen (name : String)
  | preAllocate (bytes : Nat)
  | scsiInitiatorReadDataToFile (id : Int) (start_sector sectorcount sectorsize : Nat)
  | seek (pos : Nat)
  | flush
  | close
deriving DecidableEq, Repr

/-! ## Inquiry data and `strncmp` -/

/-- Byte `i` of the 36-byte array `inquiry_data`. -/
def inquiryByte (d : List Nat) (i : Nat) : Nat := u8 (d.getD i 0)

/-- The bytes of a string literal (its terminating NUL is not listed). -/
def cstr (s : String) : List Nat := s.toList.map Char.toNat

/-- The test `strncmp(&d[off], lit, n) == 0`: the first `n` characters are compared
one by one, and the comparison stops with equality at a NUL that both strings
share.  `lit` lists the characters of the literal before its NUL. -/
def strncmpEq (d : List Nat) (off : Nat) (lit : List Nat) : Nat → Bool
  | 0 => true
  | n + 1 =>
    let a := inquiryByte d off
    let b := lit.headD 0
    if a ≠ b then false
    else if a = 0 then true
    else strncmpEq d (off + 1) lit.tail n

/-! ## Image file names -/

/-- The decimal digit character of `d % 10`. -/
def digitChar (d : Nat) : Char := Char.ofNat (48 + d % 10)

/-- The decimal digits of `n`, most significant first; `fuel` bounds the number
of digits. -/
def decimal : Nat → Nat → List Char
  | 0, _ => []
  | fuel + 1, n =>
    if n < 10 then [digitChar n] else decimal fuel (n / 10) ++ [digitChar n]

/-- The conversion `%d` of `sprintf` for an `int`. -/
def fmt_d (x : Int) : List Char :=
  if x < 0 then '-' :: decimal (x.natAbs + 1) x.natAbs
  else decimal (x.toNat + 1) x.toNat

/-- The conversion `%03d` of `sprintf` for a non-negative `int`: at least three
digits, padded with zeros on the left. -/
def fmt_03d (n : Nat) : List Char :=
  let ds := decimal (n + 1) n
  List.replicate (3 - ds.length) '0' ++ ds

/-- The characters `sprintf(filename, "%s%d_imaged-%03d.%s", ...)` formats, without
the terminating NUL. The array `filename` they are stored in is not part of this
definition: `sprintfFilename` is the call with the array. -/
def imageFilename (deviceType : Nat) (target_id : Int) (image_num : Nat) : String :=
  String.mk
    ((if deviceType = DEVICE_TYPE_CD then "CD" else "HD").toList ++ fmt_d target_id ++
      "_imaged-".toList ++ fmt_03d image_num ++ ['.'] ++
      (if deviceType = DEVICE_TYPE_CD then "iso" else "hda").toList)

/-- The loop `do ... while (SD.exists(filename))` on the formatted characters
alone, as it runs if every name is stored whole, entered with `image_num` already
incremented; the result is the `image_num` the loop ends with.  `fuel` bounds the
number of iterations; `files.length + 1` iterations are enough.  The loop with the
18-byte array `filename` is `searchImageNumBuf`. -/
def searchImageNum (files : List String) (deviceType : Nat) (target_id : Int) :
    Nat → Nat → Nat
  | 0, image_num => image_num
  | fuel + 1, image_num =>
    if files.contains (imageFilename deviceType target_id image_num) then
      searchImageNum files deviceType target_id fuel (image_num + 1)
    else image_num

/-! ## The main loop -/

/-- A step of the main loop: the state it leaves and the calls it made. -/
abbrev Step := InitiatorState × List Action

/-- Sequencing: `f` runs on the state `r` left, after the calls of `r`. -/
def andThen (r : Step) (f : InitiatorState → Step) : Step :=
  ((f r.1).1, r.2 ++ (f r.1).2)

/-- Lines 149-154: the next target ID, and the fields reset for it. -/
def scanReset (s : InitiatorState) : InitiatorState :=
  { s with
    target_id := Int.tmod (s.target_id + 1) 8
    sectors_done := 0
    retrycount := 0
    max_sector_per_transfer := 512
    badSectorCount := 0
    ejectWhenDone := false }

/-- The local `startstopok` (lines 163-165). -/
def startstopok (e : Answers) : Bool := e.testUnitReady && e.startStopUnit

/-- The local `readcapok` (lines 167-170). -/
def readcapok (e : Answers) : Bool := startstopok e && e.readCapacity

/-- The local `inquiryok` (lines 172-173). -/
def inquiryok (e : Answers) : Bool := startstopok e && e.inquiry

/-- The local array `inquiry_data` after line 173: all zero unless `scsiInquiry`
was called. -/
def inquiryData (e : Answers) : List Nat := if startstopok e then e.inquiry_data else []

/-- Lines 158-175: the four commands of a probe.  `scsiInitiatorReadCapacity`
stores through its two pointers when it is called. -/
def probe (e : Answers) (s : InitiatorState) : Step :=
  let s1 : InitiatorState :=
    if startstopok e then
      { s with sectorcount := u32 e.readCapacityCount, sectorsize := u32 e.readCapacitySize }
    else s
  ({ s1 with ansiVersion := inquiryByte (inquiryData e) 2 &&& 0x7 },
    [Action.delay_with_poll 1000, Action.scsiTestUnitReady s.target_id] ++
    (if e.testUnitReady then [Action.scsiStartStopUnit s.target_id true] else []) ++
    (if startstopok e then
      [Action.scsiInitiatorReadCapacity s.target_id, Action.scsiInquiry s.target_id]
     else []))

/-- The local `total_bytes` (lines 177 and 197), from the state the probe left. -/
def total_bytes (e : Answers) (s : InitiatorState) : Nat :=
  if readcapok e then u64 (s.sectorcount * s.sectorsize) else 0

/-- Lines 190-194: the well known ejectable media. -/
def checkEjectable (e : Answers) (s : InitiatorState) : InitiatorState :=
  if strncmpEq (inquiryData e) 8 (cstr "IOMEGA") 6 && strncmpEq (inquiryData e) 16 (cstr "ZIP") 3
  then { s with ejectWhenDone := true } else s

/-- Lines 201-208: an image of 4 GiB or more needs exFAT. -/
def checkFat32Limit (e : Answers) (total : Nat) (s : InitiatorState) : Step :=
  if decide (total ≥ 0xFFFFFFFF) && !e.exfat then
    ({ s with sectorsize := 0, sectorcount := 0, sectorcount_all := 0 },
      [Action.log LogMsg.exfatNeeded])
  else (s, [])

/-- Lines 210-214: a SCSI-1 drive. -/
def checkScsi1 (s : InitiatorState) : InitiatorState :=
  if s.ansiVersion < 0x02 then { s with max_sector_per_transfer := 256 } else s

/-- Lines 177-229: what the answers to the probe say about the drive. -/
def classify (e : Answers) (s : InitiatorState) : Step :=
  if readcapok e then
    let s1 := checkEjectable e s
    let s2 : InitiatorState := { s1 with sectorcount_all := s1.sectorcount }
    let r := checkFat32Limit e (total_bytes e s) s2
    (checkScsi1 r.1, [Action.log LogMsg.capacity] ++ r.2)
  else if startstopok e then
    ({ s with sectorsize := 512, sectorcount := 2097152, sectorcount_all := 2097152,
              max_sector_per_transfer := 128 },
      [Action.log LogMsg.readCapacityFailed])
  else
    ({ s with sectorsize := 0, sectorcount := 0, sectorcount_all := 0 },
      [Action.log LogMsg.noResponse])

/-- Lines 231-242: the device type. -/
def applyInquiry (e : Answers) (s : InitiatorState) : Step :=
  if inquiryok e then
    let s1 : InitiatorState := { s with deviceType := inquiryByte (inquiryData e) 0 &&& 0x1F }
    if s1.deviceType = DEVICE_TYPE_CD then ({ s1 with ejectWhenDone := true }, [])
    else if s1.deviceType ≠ DEVICE_TYPE_DIRECT_ACCESS then
      (s1, [Action.log LogMsg.unhandledDeviceType])
    else (s1, [])
  else (s, [])

/-- Lines 244-283: the image file is chosen and opened, and imaging starts. -/
def startImaging (e : Answers) (total : Nat) (s : InitiatorState) : Step :=
  if s.sectorcount > 0 then
    let sd_card_free_bytes := u64 (e.freeClusterCount * e.bytesPerCluster)
    if sd_card_free_bytes < total then
      ({ s with imaging := false }, [Action.log LogMsg.notEnoughSpace])
    else
      let image_num := searchImageNum e.files s.deviceType s.target_id (e.files.length + 1) 1
      let filename := imageFilename s.deviceType s.target_id image_num
      if !e.openOk then
        ({ s with target_file := none },
          [Action.log LogMsg.imagingFilename, Action.sdOpen filename,
           Action.log LogMsg.openFailed])
      else
        ({ s with target_file := some filename, imaging := true },
          [Action.log LogMsg.imagingFilename, Action.sdOpen filename] ++
          (if e.exfat then
            [Action.log LogMsg.preallocating,
             Action.preAllocate (u64 (s.sectorcount * s.sectorsize))]
           else []) ++
          [Action.log LogMsg.startCopy])
  else (s, [])

/-- The block of lines 148-284: one scan step. -/
def scanStep (e : Answers) (s0 : InitiatorState) : Step :=
  let s := scanReset s0
  if s.drives_imaged &&& shl1 s.target_id ≠ 0 then (s, [])
  else
    let p := probe e s
    andThen (andThen (andThen p (classify e)) (applyInquiry e))
      (startImaging e (total_bytes e p.1))

/-- The block of lines 289-316: the session is complete. -/
def finishStep (s : InitiatorState) : InitiatorState × List Action :=
  let a : List Action :=
    [Action.scsiStartStopUnit s.target_id false, Action.log LogMsg.finished] ++
    (if s.sectorcount ≠ s.sectorcount_all then [Action.log LogMsg.limited4GiB] else []) ++
    (if s.badSectorCount ≠ 0 then [Action.log LogMsg.badSectors] else []) ++
    (if !s.ejectWhenDone then [Action.log LogMsg.markImaged] else []) ++
    [Action.close]
  let s : InitiatorState :=
    if !s.ejectWhenDone then
      { s with drives_imaged := u32 (s.drives_imaged ||| shl1 s.target_id) }
    else s
  ({ s with imaging := false, target_file := none }, a)

/-- Lines 320-327: how many sectors to read in one batch. -/
def numtoread (s : InitiatorState) : Nat :=
  let n := u32 (s.sectorcount + 2 ^ 32 - s.sectors_done)
  let n := if n > s.max_sector_per_transfer then s.max_sector_per_transfer else n
  if s.sectors_done < s.failposition then 1 else n

/-- Conversion of a `uint32_t` value to `int`: values from `2 ^ 31` on become
negative. -/
def u32ToInt (x : Nat) : Int :=
  if u32 x < 2 ^ 31 then (u32 x : Int) else (u32 x : Int) - 2 ^ 32

/-- Line 376: `int speed_kbps = numtoread * sectorsize / (millis() - time_start)`:
product and quotient in `uint32_t` arithmetic, the quotient stored into an `int`;
`none` when the divisor is zero. -/
def speed_kbps (numtoread sectorsize millisStart millisEnd : Nat) : Option Int :=
  let elapsed := u32 (u32 millisEnd + 2 ^ 32 - u32 millisStart)
  if elapsed = 0 then none else some (u32ToInt (u32 (numtoread * sectorsize) / elapsed))

/-- Line 380: `100 * (int64_t)sectors_done / sectorcount`; `none` when the
divisor is zero. -/
def percentDone (sectors_done sectorcount : Nat) : Option Nat :=
  if sectorcount = 0 then none else some (100 * sectors_done / sectorcount)

/-- The block of lines 318-381: one batch of the transfer. -/
def transferStep (e : Answers) (s : InitiatorState) : InitiatorState × List Action :=
  let n := numtoread s
  let rd := Action.scsiInitiatorReadDataToFile s.target_id s.sectors_done n s.sectorsize
  if !e.readOk then
    if s.retrycount < (s.maxRetryCount : Int) then
      let s1 : InitiatorState := { s with retrycount := s.retrycount + 1 }
      let multi := decide (s1.retrycount > 1) && decide (n > 1)
      let s2 : InitiatorState :=
        if multi then { s1 with failposition := u32 (s1.sectors_done + n) } else s1
      (s2,
        [rd, Action.log LogMsg.transferFailed, Action.log LogMsg.retrying,
         Action.delay_with_poll 200, Action.delay_with_poll 200,
         Action.seek (u64 (s1.sectors_done * s1.sectorsize))] ++
        (if multi then [Action.log LogMsg.multipleFailures] else []))
    else
      let s1 : InitiatorState :=
        { s with
          retrycount := 0
          sectors_done := u32 (s.sectors_done + 1)
          badSectorCount := u32 (s.badSectorCount + 1) }
      (s1,
        [rd, Action.log LogMsg.transferFailed, Action.log LogMsg.retryLimitExceeded,
         Action.seek (u64 (s1.sectors_done * s1.sectorsize))])
  else
    let s1 : InitiatorState :=
      { s with retrycount := 0, sectors_done := u32 (s.sectors_done + n) }
    (s1,
      [rd, Action.flush,
       Action.log (LogMsg.readSucceeded
         (speed_kbps n s1.sectorsize e.millisStart e.millisEnd)
         (percentDone s1.sectors_done s1.sectorcount))])

/-- The function `scsiUsbBridgeMainLoop`: the state it leaves and the calls it makes. -/
def scsiUsbBridgeMainLoop (e : Answers) (s : InitiatorState) :
    InitiatorState × List Action :=
  let a0 : List Action :=
    if e.g_scsiHostPhyReset then [Action.log LogMsg.busReset, Action.scsiHostPhyReset] else []
  let r :=
    if !s.imaging then scanStep e s
    else if s.sectors_done ≥ s.sectorcount then finishStep s
    else transferStep e s
  (r.1, a0 ++ r.2)

/-- The state after one poll. -/
def poll (e : Answers) (s : InitiatorState) : InitiatorState := (scsiUsbBridgeMainLoop e s).1

/-- The state after the polls answered by `es`, first answer first. -/
def run : List Answers → InitiatorState → InitiatorState
  | [], s => s
  | e :: es, s => run es (poll e s)

/-- The states the controller can be in: `scsiUsbBridgeInit` run once on the
static object, with any configured values, followed by any number of polls with
any answers. -/
inductive Reachable : InitiatorState → Prop where
  | init (cfgInitiatorID cfgMaxRetry : Int) :
      Reachable (scsiUsbBridgeInit cfgInitiatorID cfgMaxRetry staticState)
  | step (e : Answers) (s : InitiatorState) : Reachable s → Reachable (poll e s)

/-! ## The RAM disk (`src/usb/msc_ram_disk.cpp`) -/

namespace USB

/-- Modelled from the spec: `DISK_BLOCK_SIZE` of `msc_ram_disk.h`, which is not
part of the sources; the RAM disk has 512-byte sectors, and the initialiser of
block 0 lists 512 bytes. -/
def DISK_BLOCK_SIZE : Nat := 512

/-- Modelled from the spec: `DISK_BLOCK_COUNT` of `msc_ram_disk.h`, which is not
part of the sources; the RAM disk has a handful of sectors, and the boot sector
of its image declares 16 of them. -/
def DISK_BLOCK_COUNT : Nat := 16

/-- Modelled from the spec: `S2S_CFG_FIXED` of `scsi2sd.h`, the device type of a
fixed direct-access disk. -/
def S2S_CFG_FIXED : Int := 0

/-- The constant `MscDisk::RAM_DISK`. -/
def RAM_DISK : Int := -2

/-- Conversion of an `int` to `uint32_t`: reduction modulo `2 ^ 32`. -/
def intToU32 (x : Int) : Nat := (x % 2 ^ 32).toNat

/-- The value a function returning `uint32_t` yields for `return -1`. -/
def ERROR_SENTINEL : Nat := intToU32 (-1)

/-- The string literal `BLUESCSI_README_CONTENTS`. -/
def BLUESCSI_README_CONTENTS : String :=
  "Welcome to BlueSCSI!\n\r\n\rIf you\x27re seeing this message, your " ++
  "BlueSCSI didn\x27t detect any SCSI drives.\n\r\n\rPlease visit the following " ++
  "URL for more info:\n\r       https://bluescsi.com/docs/Troubleshooting"

/-- The code of a character constant. -/
def ch (c : Char) : Nat := c.toNat

/-- One row of the two-dimensional initialiser: the listed bytes, followed by
zeros up to `DISK_BLOCK_SIZE`. -/
def blockInit (bytes : List Nat) : List Nat :=
  bytes ++ List.replicate (DISK_BLOCK_SIZE - bytes.length) 0

/-- Block 0 of `readme_disk_`: the boot sector. -/
def bootSector : List Nat :=
  [0xEB, 0x3C, 0x90, 0x4D, 0x53, 0x44, 0x4F, 0x53, 0x35, 0x2E, 0x30, 0x00, 0x02, 0x01, 0x01, 0x00,
   0x01, 0x10, 0x00, 0x10, 0x00, 0xF8, 0x01, 0x00, 0x01, 0x00, 0x01, 0x00, 0x00, 0x00, 0x00, 0x00,
   0x00, 0x00, 0x00, 0x00, 0x80, 0x00, 0x29, 0x34, 0x12, 0x00, 0x00, ch 'B', ch 'l', ch 'u', ch 'e', ch 'S',
   ch 'C', ch 'S', ch 'I', ch ' ', ch ' ', ch ' ', 0x46, 0x41, 0x54, 0x31, 0x32, 0x20, 0x20, 0x20, 0x00, 0x00] ++
  List.replicate 446 0x00 ++ [0x55, 0xAA]

/-- Block 1 of `readme_disk_`: the FAT12 table. -/
def fatTable : List Nat := [0xF8, 0xFF, 0xFF, 0xFF, 0x0F]

/-- Block 2 of `readme_disk_`: the root directory. -/
def rootDirectory : List Nat :=
  [ch 'B', ch 'l', ch 'u', ch 'e', ch 'S', ch 'C', ch 'S', ch 'I', ch ' ', ch ' ', ch ' ', 0x08, 0x00, 0x00, 0x00, 0x00,
   0x00, 0x00, 0x00, 0x00, 0x00, 0x00, 0x4F, 0x6D, 0x65, 0x43, 0x00, 0x00, 0x00, 0x00, 0x00, 0x00,
   ch 'R', ch 'E', ch 'A', ch 'D', ch '_', ch 'M', ch 'E', ch ' ', ch 'T', ch 'X', ch 'T', 0x20, 0x00, 0xC6, 0x52, 0x6D,
   0x65, 0x43, 0x65, 0x43, 0x00, 0x00, 0x88, 0x6D, 0x65, 0x43, 0x02, 0x00,
   u8 (BLUESCSI_README_CONTENTS.length + 1 - 1), 0x00, 0x00, 0x00]

/-- The constant array `readme_disk_[DISK_BLOCK_COUNT][DISK_BLOCK_SIZE]`, row after
row; the rows the initialiser does not list are zero. -/
def readme_disk_ : List Nat :=
  blockInit bootSector ++ blockInit fatTable ++ blockInit rootDirectory ++
  blockInit (cstr BLUESCSI_README_CONTENTS) ++
  List.replicate ((DISK_BLOCK_COUNT - 4) * DISK_BLOCK_SIZE) 0

/-- The fields of a `MscRamDisk` object the code of `msc_ram_disk.cpp` uses;
`ram_disk_` is the two-dimensional array, row after row. -/
structure MscRamDisk where
  target_id : Int
  sectorsize : Nat
  sectorcount : Nat
  ansiVersion : Nat
  deviceType : Int
  is_writable_ : Bool
  ram_disk_ : List Nat
deriving DecidableEq, Repr

/-- The constructor `MscRamDisk::MscRamDisk(bool is_writable)`. -/
def MscRamDisk.new (is_writable : Bool) : MscRamDisk :=
  { target_id := RAM_DISK
    sectorsize := DISK_BLOCK_SIZE
    sectorcount := DISK_BLOCK_COUNT
    ansiVersion := 0
    deviceType := S2S_CFG_FIXED
    is_writable_ := is_writable
    ram_disk_ := readme_disk_ }

/-- The call `memcpy(dst, src + srcOff, n)` on byte arrays: `none` when the `n`
bytes are not all inside `src`, or do not all fit in `dst` (the behaviour is then
undefined). -/
def memcpyFrom (dst src : List Nat) (srcOff n : Nat) : Option (List Nat) :=
  if srcOff + n ≤ src.length ∧ n ≤ dst.length then
    some ((src.drop srcOff).take n ++ dst.drop n)
  else none

/-- The call `memcpy(dst + dstOff, src, n)` on byte arrays: `none` when the `n`
bytes are not all inside `dst`, or `src` has fewer than `n` bytes. -/
def memcpyTo (dst : List Nat) (dstOff : Nat) (src : List Nat) (n : Nat) : Option (List Nat) :=
  if dstOff + n ≤ dst.length ∧ n ≤ src.length then
    some (dst.take dstOff ++ src.take n ++ dst.drop (dstOff + n))
  else none

/-- The method `MscRamDisk::IsWritable`. -/
def MscRamDisk.IsWritable (d : MscRamDisk) : Bool := d.is_writable_

/-- The method `MscRamDisk::Read10`: the value returned and the caller's buffer
after the call; `none` when `memcpy` leaves the arrays. -/
def MscRamDisk.Read10 (d : MscRamDisk) (lba offset : Nat) (buffer : List Nat)
    (buffersize : Nat) : Option (Nat × List Nat) :=
  if lba ≥ DISK_BLOCK_COUNT then some (ERROR_SENTINEL, buffer)
  else
    match memcpyFrom buffer d.ram_disk_ (lba * DISK_BLOCK_SIZE + offset) buffersize with
    | none => none
    | some b => some (u32 buffersize, b)

/-- The method `MscRamDisk::Write10`: the value returned and the disk after the
call; `none` when `memcpy` leaves the arrays. -/
def MscRamDisk.Write10 (d : MscRamDisk) (lba offset : Nat) (buffer : List Nat)
    (buffersize : Nat) : Option (Nat × MscRamDisk) :=
  if lba ≥ DISK_BLOCK_COUNT then some (ERROR_SENTINEL, d)
  else
    match memcpyTo d.ram_disk_ (lba * DISK_BLOCK_SIZE + offset) buffer buffersize with
    | none => none
    | some r => some (u32 buffersize, { d with ram_disk_ := r })

end USB

/-! ## Predicates and sample data used in the statements -/

/-- The test of line 156 on the state line 149 leaves: the bit of the next target
ID is set in `drives_imaged`, so the target is not probed. -/
def alreadyImaged (s : InitiatorState) : Prop :=
  (scanReset s).drives_imaged &&& shl1 (scanReset s).target_id ≠ 0

instance (s : InitiatorState) : Decidable (alreadyImaged s) := by
  unfold alreadyImaged; infer_instance

/-- Facts that hold in every state the controller can be in. -/
structure Inv (s : InitiatorState) : Prop where
  drives_lt : s.drives_imaged < 2 ^ 32
  count_lt : s.sectorcount < 2 ^ 32
  done_le : s.sectors_done ≤ s.sectorcount
  bad_le : s.badSectorCount ≤ s.sectors_done
  target_lo : -1 ≤ s.target_id
  target_hi : s.target_id ≤ 7
  target_imaging : s.imaging = true → 0 ≤ s.target_id
  retry_lo : 0 ≤ s.retrycount
  retry_hi : s.retrycount ≤ (s.maxRetryCount : Int)
  batch_pos : 0 < s.max_sector_per_transfer

/-- The state after `scsiUsbBridgeInit` with `InitiatorID = 7` and
`InitiatorMaxRetry = 5`, the defaults. -/
def initDefault : InitiatorState := scsiUsbBridgeInit 7 5 staticState

/-- A drive that answers every command: `count` sectors of `size` bytes, and the
given inquiry data. -/
def Answers.drive (count size : Nat) (inquiry_data : List Nat) : Answers :=
  { Answers.silent with
    testUnitReady := true, startStopUnit := true, readCapacity := true,
    readCapacityCount := count, readCapacitySize := size,
    inquiry := true, inquiry_data := inquiry_data }

/-- A failed read. -/
def Answers.readFails : Answers := { Answers.silent with readOk := false }

/-- Inquiry data of a SCSI-2 direct-access drive with the given vendor and
product. -/
def inquiryOf (vendor product : String) : List Nat :=
  [0x00, 0x80, 0x02, 0x02, 0x1F, 0x00, 0x00, 0x00] ++ cstr vendor ++ cstr product ++ cstr "1.00"

/-- The drive of the scenario: 2048 sectors of 512 bytes, vendor `IOMEGA`,
product `ZIP100`. -/
def zipDrive : Answers := Answers.drive 2048 512 (inquiryOf "IOMEGA  " "ZIP100          ")

/-- The controller after it found `zipDrive` at target ID 0: a session that has
just started. -/
def zipSession0 : InitiatorState := run [zipDrive] initDefault

/-- The controller after it found nothing at the IDs 0, 1 and 2, found `zipDrive`
at ID 3 and read its 2048 sectors in four batches. -/
def zipDone3 : InitiatorState :=
  run [Answers.silent, Answers.silent, Answers.silent, zipDrive,
       Answers.silent, Answers.silent, Answers.silent, Answers.silent] initDefault

/-- A direct-access drive of 1000 sectors, and the controller after it found
that drive at ID 0 and read the sectors in two batches. -/
def plainDone0 : InitiatorState :=
  run [Answers.drive 1000 512 (inquiryOf "QUANTUM " "FIREBALL        "),
       Answers.silent, Answers.silent] initDefault

/-- The reads a list of calls contains: start sector and number of sectors of
every `scsiInitiatorReadDataToFile`. -/
def readsIssued : List Action → List (Nat × Nat)
  | [] => []
  | Action.scsiInitiatorReadDataToFile _ start n _ :: as => (start, n) :: readsIssued as
  | _ :: as => readsIssued as

/-- Every poll answered by `es` is taken while a session is imaging: the polls
belong to the session `s` is in. -/
def sessionPolls : List Answers → InitiatorState → Prop
  | [], _ => True
  | e :: es, s => s.imaging = true ∧ sessionPolls es (poll e s)

instance sessionPollsDecidable :
    (es : List Answers) → (s : InitiatorState) → Decidable (sessionPolls es s)
  | [], _ => isTrue trivial
  | e :: es, s =>
    @instDecidableAnd (s.imaging = true) (sessionPolls es (poll e s)) inferInstance
      (sessionPollsDecidable es (poll e s))

/-- How often the line "Retry limit exceeded, skipping one sector" (line 359)
occurs among the calls. -/
def skipsLogged (as : List Action) : Nat := as.count (Action.log LogMsg.retryLimitExceeded)

/-- The number of polls answered by `es`, starting in `s`, that took the
retry-limit-exceeded branch. -/
def skipsInRun : List Answers → InitiatorState → Nat
  | [], _ => 0
  | e :: es, s => skipsLogged (scsiUsbBridgeMainLoop e s).2 + skipsInRun es (poll e s)

/-- The state after `k` polls, poll `i` being answered by `env i`. -/
def runStream (env : Nat → Answers) : Nat → InitiatorState → InitiatorState
  | 0, s => s
  | k + 1, s => runStream (fun i => env (i + 1)) k (poll (env 0) s)

/-- The quantity `(S - sectors_done) * (N + 1) - retrycount` of a session with
`S` sectors and `maxRetryCount = N`. -/
def progressMeasure (s : InitiatorState) : Int :=
  ((s.sectorcount : Int) - s.sectors_done) * ((s.maxRetryCount : Int) + 1) - s.retrycount

/-- A session on `zipDrive` with `InitiatorMaxRetry = 1`. -/
def zipSessionRetry1 : InitiatorState := run [zipDrive] (scsiUsbBridgeInit 7 1 staticState)

/-- A removable drive of 100 sectors. -/
def smallZip : Answers := Answers.drive 100 512 (inquiryOf "IOMEGA  " "ZIP100          ")

/-- A direct-access drive of 164 sectors. -/
def drive164 : Answers := Answers.drive 164 512 (inquiryOf "QUANTUM " "FIREBALL        ")

/-- The state of the scenario with `sectors_done = 100` and a batch of 64 sectors:
`smallZip` at ID 0 fails twice on its first batch and is then read sector by
sector; `drive164` is found at ID 1 and its first 100 sectors are read. -/
def scenario100 : InitiatorState :=
  run ([smallZip, Answers.readFails, Answers.readFails] ++ List.replicate 100 Answers.silent ++
       [Answers.silent, drive164] ++ List.replicate 100 Answers.silent) initDefault

/-- The `n` bytes of `inquiry_data` from index `off` on. -/
def inquiryBytes (d : List Nat) (off n : Nat) : List Nat :=
  (List.range n).map (fun i => inquiryByte d (off + i))

/-- Inquiry data of a SCSI-2 CD-ROM drive. -/
def cdInquiry : List Nat :=
  [0x05, 0x80, 0x02, 0x02, 0x1F, 0x00, 0x00, 0x00] ++ cstr "TOSHIBA " ++
    cstr "CD-ROM XM-3401TA" ++ cstr "0283"

/-- The number a string of decimal digits denotes. -/
def decimalValue (cs : List Char) : Nat :=
  cs.foldl (fun acc c => acc * 10 + (c.toNat - 48)) 0

/-- The sequence number the loop of lines 257-263 ends with on a card holding
`files`. -/
def chosenImageNum (files : List String) (deviceType : Nat) (target_id : Int) : Nat :=
  searchImageNum files deviceType target_id (files.length + 1) 1

/-- Whether `c` is one of the characters `0` .. `9`. -/
def isDecDigit (c : Char) : Bool := decide (48 ≤ c.toNat) && decide (c.toNat ≤ 57)

/-- The grammar of generated file names,
`^(HD|CD)<target_id>_imaged-<3-digit-sequence>\.(hda|iso)$`, as a test on a
name. -/
def matchesImageName (target_id : Int) (name : String) : Bool :=
  let cs := name.toList
  let id := fmt_d target_id
  let rest := cs.drop (2 + id.length + 8)
  (cs.take 2 == "HD".toList || cs.take 2 == "CD".toList) &&
  ((cs.drop 2).take id.length == id) &&
  ((cs.drop (2 + id.length)).take 8 == "_imaged-".toList) &&
  (rest.length == 7) && (rest.take 3).all isDecDigit &&
  ((rest.drop 3).take 1 == ['.']) &&
  (rest.drop 4 == "hda".toList || rest.drop 4 == "iso".toList)

/-- A card that already holds the 999 images `HD0_imaged-001.hda` ..
`HD0_imaged-999.hda`. -/
def files999 : List String :=
  (List.range 999).map (fun i => imageFilename DEVICE_TYPE_DIRECT_ACCESS 0 (i + 1))

/-- A direct-access drive of 1000 sectors, found while the card holds `files999`. -/
def driveOnFullCard : Answers :=
  { Answers.drive 1000 512 (inquiryOf "QUANTUM " "FIREBALL        ") with files := files999 }

/-- Whether the calls include an `SD.open`. -/
def opensFile : List Action → Bool
  | [] => false
  | Action.sdOpen _ :: _ => true
  | _ :: as => opensFile as

/-- Whether a call is a SCSI command sent to a target. -/
def isScsiCommand : Action → Bool
  | Action.scsiTestUnitReady _ => true
  | Action.scsiStartStopUnit _ _ => true
  | Action.scsiInitiatorReadCapacity _ => true
  | Action.scsiInquiry _ => true
  | Action.scsiInitiatorReadDataToFile _ _ _ _ => true
  | _ => false

/-- A drive that answers TEST UNIT READY and START STOP UNIT but not READ
CAPACITY, found while the card has no free cluster. -/
def oldDriveFullCard : Answers :=
  { Answers.silent with testUnitReady := true, startStopUnit := true, freeClusterCount := 0 }

/-- A drive of `0xFFFFFFFF` sectors of one byte, found while the card is FAT32. -/
def driveAtFat32Limit : Answers :=
  { Answers.drive 0xFFFFFFFF 1 (inquiryOf "QUANTUM " "FIREBALL        ") with exfat := false }

/-- Every poll answered by `es` is taken while the controller is scanning. -/
def scanningPolls : List Answers → InitiatorState → Prop
  | [], _ => True
  | e :: es, s => s.imaging = false ∧ scanningPolls es (poll e s)

instance scanningPollsDecidable :
    (es : List Answers) → (s : InitiatorState) → Decidable (scanningPolls es s)
  | [], _ => isTrue trivial
  | e :: es, s =>
    @instDecidableAnd (s.imaging = false) (scanningPolls es (poll e s)) inferInstance
      (scanningPollsDecidable es (poll e s))

/-- The values of `target_id` after each of the polls answered by `es`. -/
def targetsVisited : List Answers → InitiatorState → List Int
  | [], _ => []
  | e :: es, s => (poll e s).target_id :: targetsVisited es (poll e s)

/-- More facts that hold in every state the controller can be in. -/
structure Inv2 (s : InitiatorState) : Prop where
  id_le : s.initiator_id ≤ 7
  own_bit : s.drives_imaged.testBit s.initiator_id = true
  imaging_not_own : s.imaging = true → s.target_id ≠ (s.initiator_id : Int)
  imaging_count_pos : s.imaging = true → 0 < s.sectorcount
  count_all_eq : s.sectorcount_all = s.sectorcount
  batch_values : s.max_sector_per_transfer = 128 ∨ s.max_sector_per_transfer = 256 ∨
    s.max_sector_per_transfer = 512

/-- The target a SCSI command is sent to. -/
def actionTarget : Action → Option Int
  | Action.scsiTestUnitReady id => some id
  | Action.scsiStartStopUnit id _ => some id
  | Action.scsiInitiatorReadCapacity id => some id
  | Action.scsiInquiry id => some id
  | Action.scsiInitiatorReadDataToFile id _ _ _ => some id
  | _ => none

/-- The answers `e` with the flag `g_scsiHostPhyReset` set to `b`. -/
def Answers.withReset (e : Answers) (b : Bool) : Answers := { e with g_scsiHostPhyReset := b }

/-- A drive of two sectors. -/
def drive2 : Answers := Answers.drive 2 512 (inquiryOf "QUANTUM " "FIREBALL        ")

/-- The controller after it found `drive2` at ID 0, failed twice to read its two
sectors in one batch, and then read them one by one. -/
def passedFailposition : InitiatorState :=
  run [drive2, Answers.readFails, Answers.readFails, Answers.silent, Answers.silent] initDefault

/-- A CD-ROM drive of 1000 sectors of 2048 bytes. -/
def cdDrive : Answers := Answers.drive 1000 2048 cdInquiry

/-- A drive that answers READ CAPACITY but not INQUIRY. -/
def driveNoInquiry : Answers :=
  { Answers.drive 164 512 [] with inquiry := false }

/-- The controller after it imaged `cdDrive` at ID 0 in two batches and completed
that session. -/
def afterCd : InitiatorState :=
  run [cdDrive, Answers.silent, Answers.silent, Answers.silent] initDefault

namespace USB

/-- Modelled from the spec: the enumeration `status_byte_t` of a header that is
not among the sources.  `msc_ram_disk.cpp` only names `eGood`; the other values
are further SCSI status bytes. -/
inductive status_byte_t where
  | eGood
  | eCheckCondition
  | eBusy
deriving DecidableEq, Repr

/-- Modelled from the spec: the enumeration `sense_key_type` of a header that is
not among the sources.  `msc_ram_disk.cpp` only names `eNoSense`; the other
values are further SCSI sense keys. -/
inductive sense_key_type where
  | eNoSense
  | eNotReady
  | eMediumError
  | eIllegalRequest
deriving DecidableEq, Repr

/-- The statement `if (sense_key != nullptr) *sense_key = eNoSense;`.  The
argument is `none` for a null pointer, and otherwise the value the pointer points
to; the result is that value after the statement. -/
def storeNoSense : Option sense_key_type → Option sense_key_type
  | none => none
  | some _ => some sense_key_type.eNoSense

/-- What a status query returns and leaves: the status byte, the variable
`sense_key` points to (`none` for a null pointer) and the disk. -/
structure StatusResult where
  status : status_byte_t
  sense_key : Option sense_key_type
  disk : MscRamDisk
deriving DecidableEq, Repr

/-- What `ReadCapacity` returns and leaves. -/
structure CapacityResult where
  status : status_byte_t
  sectorcount : Nat
  sectorsize : Nat
  sense_key : Option sense_key_type
  disk : MscRamDisk
deriving DecidableEq, Repr

/-- The method `MscRamDisk::ReadCapacity`. -/
def MscRamDisk.ReadCapacity (d : MscRamDisk) (sense_key : Option sense_key_type) :
    CapacityResult :=
  { status := status_byte_t.eGood
    sectorcount := DISK_BLOCK_COUNT
    sectorsize := DISK_BLOCK_SIZE
    sense_key := storeNoSense sense_key
    disk := d }

/-- The method `MscRamDisk::TestUnitReady`. -/
def MscRamDisk.TestUnitReady (d : MscRamDisk) (sense_key : Option sense_key_type) :
    StatusResult :=
  { status := status_byte_t.eGood, sense_key := storeNoSense sense_key, disk := d }

/-- The method `MscRamDisk::RequestSense`. -/
def MscRamDisk.RequestSense (d : MscRamDisk) (sense_key : Option sense_key_type) :
    StatusResult :=
  { status := status_byte_t.eGood, sense_key := storeNoSense sense_key, disk := d }

/-- The method `MscRamDisk::StartStopUnit`; its first three arguments are not
used. -/
def MscRamDisk.StartStopUnit (d : MscRamDisk) (_power_condition : Nat)
    (_start _load_eject : Bool) (sense_key : Option sense_key_type) : StatusResult :=
  { status := status_byte_t.eGood, sense_key := storeNoSense sense_key, disk := d }

end USB

/-! ## The CD-ROM extension (`src/BlueSCSI_cdrom.h`) -/

/-- Modelled from the spec: the CD image set inside `image_config_t`, whose
declaration (`BlueSCSI_disk.h`) is not among the sources: the ordered sequence of
images, the index of the current one and the ejected flag. -/
structure CDImageSet where
  images : List String
  current_index : Nat
  ejected : Bool
deriving DecidableEq, Repr

/-- Modelled from the spec: `cdromSwitchNextImage`, which `BlueSCSI_cdrom.h` only
declares.  It advances to the next image of the configured set, wrapping to the
first after the last, and only when more than one image is configured; the
result says whether it switched. -/
def cdromSwitchNextImage (img : CDImageSet) : Bool × CDImageSet :=
  if img.images.length > 1 then
    (true,
      { img with
        current_index :=
          if img.current_index + 1 < img.images.length then img.current_index + 1 else 0 })
  else (false, img)

/-- Whether every SCSI command among the calls is sent to target `id`. -/
def addressedOnlyTo (id : Int) (as : List Action) : Bool :=
  as.all (fun a => decide (actionTarget a = none ∨ actionTarget a = some id))


/-! ## Sample data for the later sessions, the throughput and the file name -/

/-- The controller after the session on `drive2` (which failed twice on its first
batch) was completed, and `drive164` was found at the next ID: a session that has
just started. -/
def staleSession : InitiatorState := run [Answers.silent, drive164] passedFailposition

/-- A successful read that starts and ends in the same millisecond. -/
def sameMillisecond : Answers := { Answers.silent with millisStart := 1000, millisEnd := 1000 }

/-- A drive that reports 512 sectors of `2 ^ 23` bytes, and the session on it
(the card is exFAT and has room for the image). -/
def bigSectorDrive : Answers :=
  Answers.drive 512 (2 ^ 23) (inquiryOf "QUANTUM " "FIREBALL        ")

/-- The session on `bigSectorDrive` at target 0, right after the probe. -/
def bigSectorSession : InitiatorState := run [bigSectorDrive] initDefault

/-- The size of the local array `char filename[18]` (line 247). -/
def FILENAME_SIZE : Nat := 18

/-- The number of bytes `sprintf` stores for a result with the given text: its
characters and the terminating NUL. -/
def sprintfBytes (text : String) : Nat := text.length + 1

/-- The call `sprintf(filename, "%s%d_imaged-%03d.%s", ...)` of line 258 with the
array `char filename[18]`: the text left in `filename`; `none` when the characters
and the terminating NUL do not all fit, so that `sprintf` stores past the end of
the array (the behaviour is then undefined). -/
def sprintfFilename (deviceType : Nat) (target_id : Int) (image_num : Nat) : Option String :=
  if sprintfBytes (imageFilename deviceType target_id image_num) ≤ FILENAME_SIZE then
    some (imageFilename deviceType target_id image_num)
  else none

/-- How the loop of lines 257-263 ends: with the `image_num` of a name that is not
on the card, or in a `sprintf` that stores past the end of `filename` (for the
given `image_num`), or not within the iterations allowed. -/
inductive SearchResult where
  | found (image_num : Nat)
  | overrun (image_num : Nat)
  | outOfFuel
deriving DecidableEq, Repr

/-- The loop `do ... while (SD.exists(filename))` of lines 257-263 with the array
`char filename[18]`, entered with `image_num` already incremented: `sprintf` is
called before `SD.exists` is asked.  `fuel` bounds the number of iterations. -/
def searchImageNumBuf (files : List String) (deviceType : Nat) (target_id : Int) :
    Nat → Nat → SearchResult
  | 0, _ => SearchResult.outOfFuel
  | fuel + 1, image_num =>
    match sprintfFilename deviceType target_id image_num with
    | none => SearchResult.overrun image_num
    | some filename =>
      if files.contains filename then
        searchImageNumBuf files deviceType target_id fuel (image_num + 1)
      else SearchResult.found image_num

namespace USB

/-! ## Reading the image of the RAM disk as a FAT12 volume -/

/-- Row `k` of a two-dimensional array of `DISK_BLOCK_SIZE`-byte rows. -/
def block (d : List Nat) (k : Nat) : List Nat :=
  (d.drop (k * DISK_BLOCK_SIZE)).take DISK_BLOCK_SIZE

/-- The 16-bit little-endian number at offset `off`. -/
def le16 (d : List Nat) (off : Nat) : Nat := d.getD off 0 + 256 * d.getD (off + 1) 0

/-- The 32-bit little-endian number at offset `off`. -/
def le32 (d : List Nat) (off : Nat) : Nat := le16 d off + 65536 * le16 d (off + 2)

/-- Boot sector field `byte_per_sector` (offset 11). -/
def byte_per_sector (boot : List Nat) : Nat := le16 boot 11

/-- Boot sector field `sector_per_cluster` (offset 13). -/
def sector_per_cluster (boot : List Nat) : Nat := boot.getD 13 0

/-- Boot sector field `reserved_sectors` (offset 14). -/
def reserved_sectors (boot : List Nat) : Nat := le16 boot 14

/-- Boot sector field `fat_num` (offset 16). -/
def fat_num (boot : List Nat) : Nat := boot.getD 16 0

/-- Boot sector field `fat12_root_entry_num` (offset 17). -/
def fat12_root_entry_num (boot : List Nat) : Nat := le16 boot 17

/-- Boot sector field `fat12_sector_num_16` (offset 19). -/
def fat12_sector_num_16 (boot : List Nat) : Nat := le16 boot 19

/-- Boot sector field `sector_per_fat` (offset 22). -/
def sector_per_fat (boot : List Nat) : Nat := le16 boot 22

/-- The first block of the (first) FAT: it follows the reserved sectors. -/
def fatStart (boot : List Nat) : Nat := reserved_sectors boot

/-- The first block of the root directory: it follows the FATs. -/
def rootDirStart (boot : List Nat) : Nat := fatStart boot + fat_num boot * sector_per_fat boot

/-- The first block of the data area: it follows the root directory, whose
entries have 32 bytes each. -/
def dataStart (boot : List Nat) : Nat :=
  rootDirStart boot +
    (fat12_root_entry_num boot * 32 + byte_per_sector boot - 1) / byte_per_sector boot

/-- The first block of cluster `c`; the data area starts with cluster 2. -/
def clusterBlock (boot : List Nat) (c : Nat) : Nat :=
  dataStart boot + (c - 2) * sector_per_cluster boot

/-- The 32 bytes of directory entry `i` of a directory block. -/
def dirEntry (dir : List Nat) (i : Nat) : List Nat := (dir.drop (32 * i)).take 32

/-- The name and extension of a directory entry (offset 0, 11 bytes). -/
def dirEntryName (entry : List Nat) : List Nat := entry.take 11

/-- The start cluster of a directory entry (offset 26). -/
def dirEntryCluster (entry : List Nat) : Nat := le16 entry 26

/-- The file size of a directory entry (offset 28). -/
def dirEntrySize (entry : List Nat) : Nat := le32 entry 28

/-- Entry `n` of a FAT12 table: 12 bits at bit offset `12 * n`. -/
def fat12Entry (fat : List Nat) (n : Nat) : Nat :=
  if n % 2 = 0 then le16 fat (n + n / 2) % 4096 else le16 fat (n + n / 2) / 16

/-- The end-of-chain mark of FAT12. -/
def FAT12_END_OF_CHAIN : Nat := 0xFFF

end USB

/-! ## The PLL wait of `ClockSetup` (`cyfitter_cfg.c`) -/
namespace PSoC5

/-- The constant `CYCLOCKSTART_PLL_ERROR`. -/
def CYCLOCKSTART_PLL_ERROR : Nat := 3

/-- Line 209: the new value of `pllLock`, from the old one and the value read from
`CYREG_FASTCLK_PLL_SR`:
`0x03u & ((uint8)((uint8)pllLock << 1) | ((sr & 0x01u) >> 0))`. -/
def pllShift (pllLock sr : Nat) : Nat :=
  0x03 &&& (u8 (u8 pllLock <<< 1) ||| ((u8 sr &&& 0x01) >>> 0))

/-- The variables of the wait loop, and the number of reads of
`CYREG_FASTCLK_PLL_SR` made so far. -/
structure PllWait where
  timeout : Nat
  pllLock : Nat
  reads : Nat
deriving DecidableEq, Repr

/-- The loop of lines 207-211, entered with the given `timeout`, `pllLock` and
number of reads made so far; `sr k` is the value read number `k` returns, counted
from 0. The loop ends: `timeout` decreases in every round. -/
def pllWaitLoop (sr : Nat → Nat) : Nat → Nat → Nat → PllWait
  | 0, pllLock, reads => { timeout := 0, pllLock := pllLock, reads := reads }
  | timeout + 1, pllLock, reads =>
    if pllLock ≠ 0x03 then pllWaitLoop sr timeout (pllShift pllLock (sr reads)) (reads + 1)
    else { timeout := timeout + 1, pllLock := pllLock, reads := reads }

/-- What lines 205-216 of `ClockSetup` do: the variables the wait loop ends with,
and the argument of `CyClockStartupError` when it is called (it does not
return). -/
structure PllOutcome where
  wait : PllWait
  error : Option Nat
deriving DecidableEq, Repr

/-- Lines 205-216 of `ClockSetup`. -/
def ClockSetup (sr : Nat → Nat) : PllOutcome :=
  let w := pllWaitLoop sr (250 / 10) 0 0
  { wait := w, error := if w.timeout = 0 then some CYCLOCKSTART_PLL_ERROR else none }

/-- The value `pllLock` has after `n` reads in a loop that is not left. -/
def pllAfter (sr : Nat → Nat) : Nat → Nat
  | 0 => 0
  | n + 1 => pllShift (pllAfter sr n) (sr n)

/-- Reads number `k` and `k + 1` both return the lock bit set: two consecutive
locked readings. -/
def lockedAt (sr : Nat → Nat) (k : Nat) : Bool := sr k % 2 == 1 && sr (k + 1) % 2 == 1

/-- Two consecutive locked readings occur among the first `n` reads. -/
def lockedWithin (sr : Nat → Nat) (n : Nat) : Bool := (List.range (n - 1)).any (lockedAt sr)

/-- Readings of a PLL that locks late: reads number 23 and 24, the last two of
25, are the first to return the lock bit. -/
def lateLock (k : Nat) : Nat := if 23 ≤ k then 1 else 0

/-- Readings of a PLL that locks at once. -/
def promptLock (_k : Nat) : Nat := 1

end PSoC5
/-! # Theorems -/

set_option maxRecDepth 100000

theorem andThen_fst (r : Step) (f : InitiatorState → Step) : (andThen r f).1 = (f r.1).1 := rfl

theorem andThen_snd (r : Step) (f : InitiatorState → Step) :
    (andThen r f).2 = r.2 ++ (f r.1).2 := rfl

theorem probe_state (e : Answers) (s : InitiatorState) :
    (probe e s).1 =
      { s with
        sectorcount := if startstopok e then u32 e.readCapacityCount else s.sectorcount
        sectorsize := if startstopok e then u32 e.readCapacitySize else s.sectorsize
        ansiVersion := inquiryByte (inquiryData e) 2 &&& 0x7 } := by
  unfold probe
  split_ifs <;> rfl

/-- The test of lines 190-191. -/
theorem checkEjectable_state (e : Answers) (s : InitiatorState) :
    checkEjectable e s =
      { s with
        ejectWhenDone :=
          if strncmpEq (inquiryData e) 8 (cstr "IOMEGA") 6 &&
              strncmpEq (inquiryData e) 16 (cstr "ZIP") 3 then true
          else s.ejectWhenDone } := by
  unfold checkEjectable
  split_ifs <;> rfl

theorem checkFat32Limit_state (e : Answers) (total : Nat) (s : InitiatorState) :
    (checkFat32Limit e total s).1 =
      { s with
        sectorsize := if decide (total ≥ 0xFFFFFFFF) && !e.exfat then 0 else s.sectorsize
        sectorcount := if decide (total ≥ 0xFFFFFFFF) && !e.exfat then 0 else s.sectorcount
        sectorcount_all :=
          if decide (total ≥ 0xFFFFFFFF) && !e.exfat then 0 else s.sectorcount_all } := by
  unfold checkFat32Limit
  split_ifs <;> rfl

theorem checkScsi1_state (s : InitiatorState) :
    checkScsi1 s =
      { s with
        max_sector_per_transfer :=
          if s.ansiVersion < 0x02 then 256 else s.max_sector_per_transfer } := by
  unfold checkScsi1
  split_ifs <;> rfl

theorem classify_state (e : Answers) (s : InitiatorState) :
    (classify e s).1 =
      { s with
        ejectWhenDone :=
          if readcapok e then
            if strncmpEq (inquiryData e) 8 (cstr "IOMEGA") 6 &&
                strncmpEq (inquiryData e) 16 (cstr "ZIP") 3 then true
            else s.ejectWhenDone
          else s.ejectWhenDone
        sectorsize :=
          if readcapok e then
            if decide (total_bytes e s ≥ 0xFFFFFFFF) && !e.exfat then 0 else s.sectorsize
          else if startstopok e then 512 else 0
        sectorcount :=
          if readcapok e then
            if decide (total_bytes e s ≥ 0xFFFFFFFF) && !e.exfat then 0 else s.sectorcount
          else if startstopok e then 2097152 else 0
        sectorcount_all :=
          if readcapok e then
            if decide (total_bytes e s ≥ 0xFFFFFFFF) && !e.exfat then 0 else s.sectorcount
          else if startstopok e then 2097152 else 0
        max_sector_per_transfer :=
          if readcapok e then
            if s.ansiVersion < 0x02 then 256 else s.max_sector_per_transfer
          else if startstopok e then 128 else s.max_sector_per_transfer } := by
  unfold classify
  by_cases h1 : readcapok e = true
  · simp only [if_pos h1, checkScsi1_state, checkFat32Limit_state, checkEjectable_state]
  · by_cases h2 : startstopok e = true
    · simp only [if_neg h1, if_pos h2]
    · simp only [if_neg h1, if_neg h2]

theorem applyInquiry_state (e : Answers) (s : InitiatorState) :
    (applyInquiry e s).1 =
      { s with
        deviceType :=
          if inquiryok e then inquiryByte (inquiryData e) 0 &&& 0x1F else s.deviceType
        ejectWhenDone :=
          if inquiryok e = true ∧ inquiryByte (inquiryData e) 0 &&& 0x1F = DEVICE_TYPE_CD
          then true else s.ejectWhenDone } := by
  unfold applyInquiry
  by_cases h1 : inquiryok e = true
  · by_cases h2 : inquiryByte (inquiryData e) 0 &&& 0x1F = DEVICE_TYPE_CD
    · simp only [if_pos h1, if_pos h2, if_pos (And.intro h1 h2)]
    · have h4 : ¬ (inquiryok e = true ∧ inquiryByte (inquiryData e) 0 &&& 0x1F = DEVICE_TYPE_CD) :=
        fun h => h2 h.2
      by_cases h3 : inquiryByte (inquiryData e) 0 &&& 0x1F ≠ DEVICE_TYPE_DIRECT_ACCESS
      · simp only [if_pos h1, if_neg h2, if_pos h3, if_neg h4]
      · simp only [if_pos h1, if_neg h2, if_neg h3, if_neg h4]
  · have h4 : ¬ (inquiryok e = true ∧ inquiryByte (inquiryData e) 0 &&& 0x1F = DEVICE_TYPE_CD) :=
      fun h => h1 h.1
    simp only [if_neg h1, if_neg h4]

theorem startImaging_state (e : Answers) (total : Nat) (s : InitiatorState) :
    (startImaging e total s).1 =
      { s with
        imaging :=
          if s.sectorcount > 0 then
            if u64 (e.freeClusterCount * e.bytesPerCluster) < total then false
            else if e.openOk = true then true else s.imaging
          else s.imaging
        target_file :=
          if s.sectorcount > 0 then
            if u64 (e.freeClusterCount * e.bytesPerCluster) < total then s.target_file
            else if e.openOk = true then
              some (imageFilename s.deviceType s.target_id
                (searchImageNum e.files s.deviceType s.target_id (e.files.length + 1) 1))
            else none
          else s.target_file } := by
  unfold startImaging
  by_cases h1 : s.sectorcount > 0
  · by_cases h2 : u64 (e.freeClusterCount * e.bytesPerCluster) < total
    · simp only [if_pos h1, if_pos h2]
    · by_cases h3 : e.openOk = true
      · simp only [if_pos h1, if_neg h2, h3, Bool.not_true, Bool.false_eq_true, if_false,
          if_true]
      · simp only [Bool.not_eq_true] at h3
        simp only [if_pos h1, if_neg h2, h3, Bool.not_false, Bool.false_eq_true, if_false,
          if_true]
  · simp only [if_neg h1]

theorem scanStep_skip (e : Answers) (s : InitiatorState) (h : alreadyImaged s) :
    scanStep e s = (scanReset s, []) := by
  unfold scanStep
  exact if_pos h

theorem scanStep_probe (e : Answers) (s : InitiatorState) (h : ¬ alreadyImaged s) :
    scanStep e s =
      andThen (andThen (andThen (probe e (scanReset s)) (classify e)) (applyInquiry e))
        (startImaging e (total_bytes e (probe e (scanReset s)).1)) := by
  unfold scanStep
  exact if_neg h

theorem scanStep_fields (e : Answers) (s : InitiatorState) :
    (scanStep e s).1.drives_imaged = s.drives_imaged ∧
    (scanStep e s).1.initiator_id = s.initiator_id ∧
    (scanStep e s).1.maxRetryCount = s.maxRetryCount ∧
    (scanStep e s).1.failposition = s.failposition ∧
    (scanStep e s).1.target_id = Int.tmod (s.target_id + 1) 8 ∧
    (scanStep e s).1.sectors_done = 0 ∧
    (scanStep e s).1.retrycount = 0 ∧
    (scanStep e s).1.badSectorCount = 0 := by
  by_cases h : alreadyImaged s
  · rw [scanStep_skip e s h]
    simp [scanReset]
  · rw [scanStep_probe e s h]
    simp only [andThen_fst, startImaging_state, applyInquiry_state, classify_state, probe_state,
      scanReset]
    simp

/-! ### The three kinds of poll -/

theorem poll_scan (e : Answers) (s : InitiatorState) (h : s.imaging = false) :
    poll e s = (scanStep e s).1 := by
  simp [poll, scsiUsbBridgeMainLoop, h]

theorem poll_finish (e : Answers) (s : InitiatorState) (h : s.imaging = true)
    (hd : s.sectorcount ≤ s.sectors_done) : poll e s = (finishStep s).1 := by
  simp [poll, scsiUsbBridgeMainLoop, h, hd]

theorem poll_transfer (e : Answers) (s : InitiatorState) (h : s.imaging = true)
    (hd : s.sectors_done < s.sectorcount) : poll e s = (transferStep e s).1 := by
  simp [poll, scsiUsbBridgeMainLoop, h, Nat.not_le.mpr hd]

theorem finishStep_state (s : InitiatorState) :
    (finishStep s).1 =
      { s with
        drives_imaged :=
          if s.ejectWhenDone = true then s.drives_imaged
          else u32 (s.drives_imaged ||| shl1 s.target_id)
        imaging := false
        target_file := none } := by
  unfold finishStep
  by_cases h : s.ejectWhenDone = true
  · simp [h]
  · simp only [Bool.not_eq_true] at h
    simp [h]

theorem transferStep_success (e : Answers) (s : InitiatorState) (h : e.readOk = true) :
    (transferStep e s).1 =
      { s with retrycount := 0, sectors_done := u32 (s.sectors_done + numtoread s) } := by
  simp [transferStep, h]

theorem transferStep_retry (e : Answers) (s : InitiatorState) (h : e.readOk = false)
    (hr : s.retrycount < (s.maxRetryCount : Int)) :
    (transferStep e s).1 =
      { s with
        retrycount := s.retrycount + 1
        failposition :=
          if s.retrycount + 1 > 1 ∧ numtoread s > 1 then u32 (s.sectors_done + numtoread s)
          else s.failposition } := by
  unfold transferStep
  simp only [h, Bool.not_false, if_true, if_pos hr]
  by_cases h1 : s.retrycount + 1 > 1 ∧ numtoread s > 1
  · simp [h1.1, h1.2]
  · rw [if_neg h1]
    have : (decide (s.retrycount + 1 > 1) && decide (numtoread s > 1)) = false := by
      simpa using h1
    simp only [this, Bool.false_eq_true, if_false]

theorem transferStep_skip (e : Answers) (s : InitiatorState) (h : e.readOk = false)
    (hr : ¬ s.retrycount < (s.maxRetryCount : Int)) :
    (transferStep e s).1 =
      { s with
        retrycount := 0
        sectors_done := u32 (s.sectors_done + 1)
        badSectorCount := u32 (s.badSectorCount + 1) } := by
  unfold transferStep
  simp only [h, Bool.not_false, if_true, if_neg hr]

/-! ### The batch size -/

theorem u32_of_lt {x : Nat} (h : x < 2 ^ 32) : u32 x = x := Nat.mod_eq_of_lt h

theorem u32_lt (x : Nat) : u32 x < 2 ^ 32 := Nat.mod_lt _ (by norm_num)

theorem u32_sub {a b : Nat} (ha : a < 2 ^ 32) (hb : b ≤ a) : u32 (a + 2 ^ 32 - b) = a - b := by
  unfold u32
  have : a + 2 ^ 32 - b = (a - b) + 2 ^ 32 := by omega
  rw [this, Nat.add_mod_right]
  exact Nat.mod_eq_of_lt (by omega)

theorem numtoread_le (s : InitiatorState) (hc : s.sectorcount < 2 ^ 32)
    (hd : s.sectors_done < s.sectorcount) : numtoread s ≤ s.sectorcount - s.sectors_done := by
  unfold numtoread
  simp only [u32_sub hc (Nat.le_of_lt hd)]
  split_ifs <;> omega

theorem numtoread_pos (s : InitiatorState) (hc : s.sectorcount < 2 ^ 32)
    (hd : s.sectors_done < s.sectorcount) (hm : 0 < s.max_sector_per_transfer) :
    1 ≤ numtoread s := by
  unfold numtoread
  simp only [u32_sub hc (Nat.le_of_lt hd)]
  split_ifs <;> omega

theorem numtoread_degraded (s : InitiatorState) (h : s.sectors_done < s.failposition) :
    numtoread s = 1 := by
  unfold numtoread
  simp only [if_pos h]

theorem numtoread_normal (s : InitiatorState) (hc : s.sectorcount < 2 ^ 32)
    (hd : s.sectors_done ≤ s.sectorcount) (h : ¬ s.sectors_done < s.failposition) :
    numtoread s = min (s.sectorcount - s.sectors_done) s.max_sector_per_transfer := by
  unfold numtoread
  simp only [u32_sub hc hd, if_neg h]
  split_ifs <;> omega

/-! ### The invariant -/

theorem shl1_lt (id : Int) (h : id ≤ 7) : shl1 id < 2 ^ 8 := by
  unfold shl1
  have h7 : id.toNat ≤ 7 := by omega
  rw [Nat.one_shiftLeft]
  exact Nat.pow_lt_pow_right (by norm_num) (by omega)

theorem tmod8_range (t : Int) (h : -1 ≤ t) : 0 ≤ Int.tmod (t + 1) 8 ∧ Int.tmod (t + 1) 8 ≤ 7 := by
  have h0 : 0 ≤ t + 1 := by omega
  rw [Int.tmod_eq_emod h0 (by norm_num)]
  omega

theorem inv_init (a b : Int) : Inv (scsiUsbBridgeInit a b staticState) := by
  have hid : (if longToU8 a > 7 then 7 else longToU8 a) ≤ 7 := by split_ifs <;> omega
  constructor <;> simp only [scsiUsbBridgeInit, staticState]
  · apply u32_lt
  all_goals first | omega | simp

theorem scanStep_batch (e : Answers) (s : InitiatorState) :
    (scanStep e s).1.max_sector_per_transfer = 128 ∨
    (scanStep e s).1.max_sector_per_transfer = 256 ∨
    (scanStep e s).1.max_sector_per_transfer = 512 := by
  by_cases h : alreadyImaged s
  · rw [scanStep_skip e s h]
    simp [scanReset]
  · rw [scanStep_probe e s h]
    simp only [andThen_fst, startImaging_state, applyInquiry_state, classify_state, probe_state,
      scanReset]
    split_ifs <;> simp

theorem scanStep_count_lt (e : Answers) (s : InitiatorState) (hc : s.sectorcount < 2 ^ 32) :
    (scanStep e s).1.sectorcount < 2 ^ 32 := by
  by_cases h : alreadyImaged s
  · rw [scanStep_skip e s h]
    simpa [scanReset] using hc
  · rw [scanStep_probe e s h]
    simp only [andThen_fst, startImaging_state, applyInquiry_state, classify_state, probe_state,
      scanReset]
    have := u32_lt e.readCapacityCount
    split_ifs <;> first | assumption | norm_num

theorem scanStep_imaging (e : Answers) (s : InitiatorState) (hi : s.imaging = false)
    (h : (scanStep e s).1.imaging = true) :
    ¬ alreadyImaged s ∧ 0 < (scanStep e s).1.sectorcount := by
  by_cases ha : alreadyImaged s
  · rw [scanStep_skip e s ha] at h
    simp [scanReset, hi] at h
  · refine ⟨ha, ?_⟩
    rw [scanStep_probe e s ha] at h ⊢
    simp only [andThen_fst, startImaging_state, applyInquiry_state, classify_state, probe_state,
      scanReset] at h ⊢
    by_contra hz
    rw [if_neg hz] at h
    simp [hi] at h

theorem inv_poll (e : Answers) (s : InitiatorState) (h : Inv s) : Inv (poll e s) := by
  by_cases hi : s.imaging = true
  · by_cases hd : s.sectors_done < s.sectorcount
    · rw [poll_transfer e s hi hd]
      have hn := numtoread_le s h.count_lt hd
      have hnp := numtoread_pos s h.count_lt hd h.batch_pos
      have hb := h.bad_le
      have hc := h.count_lt
      by_cases hr : e.readOk = true
      · rw [transferStep_success e s hr]
        have hu : u32 (s.sectors_done + numtoread s) = s.sectors_done + numtoread s :=
          u32_of_lt (by omega)
        constructor <;> simp only [hu]
        · exact h.drives_lt
        · exact hc
        · omega
        · omega
        · exact h.target_lo
        · exact h.target_hi
        · exact h.target_imaging
        · exact le_refl _
        · exact Int.natCast_nonneg _
        · exact h.batch_pos
      · simp only [Bool.not_eq_true] at hr
        by_cases hlt : s.retrycount < (s.maxRetryCount : Int)
        · rw [transferStep_retry e s hr hlt]
          have := h.retry_lo
          constructor <;> simp only
          · exact h.drives_lt
          · exact hc
          · exact h.done_le
          · exact hb
          · exact h.target_lo
          · exact h.target_hi
          · exact h.target_imaging
          · omega
          · omega
          · exact h.batch_pos
        · rw [transferStep_skip e s hr hlt]
          have hu : u32 (s.sectors_done + 1) = s.sectors_done + 1 := u32_of_lt (by omega)
          have hu2 : u32 (s.badSectorCount + 1) = s.badSectorCount + 1 := u32_of_lt (by omega)
          constructor <;> simp only [hu, hu2]
          · exact h.drives_lt
          · exact hc
          · omega
          · omega
          · exact h.target_lo
          · exact h.target_hi
          · exact h.target_imaging
          · exact le_refl _
          · exact Int.natCast_nonneg _
          · exact h.batch_pos
    · rw [poll_finish e s hi (Nat.le_of_not_lt hd), finishStep_state]
      constructor <;> simp only
      · split_ifs
        · exact h.drives_lt
        · exact u32_lt _
      · exact h.count_lt
      · exact h.done_le
      · exact h.bad_le
      · exact h.target_lo
      · exact h.target_hi
      · intro hf
        exact absurd hf (by simp)
      · exact h.retry_lo
      · exact h.retry_hi
      · exact h.batch_pos
  · simp only [Bool.not_eq_true] at hi
    rw [poll_scan e s hi]
    obtain ⟨f1, _, f3, _, f5, f6, f7, f8⟩ := scanStep_fields e s
    have ht := tmod8_range s.target_id h.target_lo
    constructor
    · rw [f1]; exact h.drives_lt
    · exact scanStep_count_lt e s h.count_lt
    · rw [f6]; exact Nat.zero_le _
    · rw [f8, f6]
    · rw [f5]; omega
    · rw [f5]; omega
    · intro _; rw [f5]; omega
    · rw [f7]
    · rw [f7]; exact Int.natCast_nonneg _
    · rcases scanStep_batch e s with hb | hb | hb <;> rw [hb] <;> norm_num

theorem inv_reachable (s : InitiatorState) (h : Reachable s) : Inv s := by
  induction h with
  | init a b => exact inv_init a b
  | step e s _ ih => exact inv_poll e s ih

theorem reachable_run (es : List Answers) (s : InitiatorState) (h : Reachable s) :
    Reachable (run es s) := by
  induction es generalizing s with
  | nil => exact h
  | cons e es ih => exact ih (poll e s) (Reachable.step e s h)

theorem reachable_initDefault : Reachable initDefault := Reachable.init 7 5

/-! ### C1: `sectors_done` -/

theorem poll_sectors_done_mono (e : Answers) (s : InitiatorState) (h : Inv s)
    (hi : s.imaging = true) : s.sectors_done ≤ (poll e s).sectors_done := by
  by_cases hd : s.sectors_done < s.sectorcount
  · rw [poll_transfer e s hi hd]
    have hn := numtoread_le s h.count_lt hd
    have hc := h.count_lt
    by_cases hr : e.readOk = true
    · rw [transferStep_success e s hr]
      have hu : u32 (s.sectors_done + numtoread s) = s.sectors_done + numtoread s :=
        u32_of_lt (by omega)
      simp only [hu]
      omega
    · simp only [Bool.not_eq_true] at hr
      by_cases hlt : s.retrycount < (s.maxRetryCount : Int)
      · rw [transferStep_retry e s hr hlt]
      · rw [transferStep_skip e s hr hlt]
        have hu : u32 (s.sectors_done + 1) = s.sectors_done + 1 := u32_of_lt (by omega)
        simp only [hu]
        omega
  · rw [poll_finish e s hi (Nat.le_of_not_lt hd), finishStep_state]

/-- C1: in every state reachable from `scsiUsbBridgeInit` by any number of polls,
whatever the bus and the card answer, `sectors_done <= sectorcount`; and a poll
taken while a session is imaging never decreases `sectors_done`. -/
theorem sectors_done_bounded_and_monotone (s : InitiatorState) (h : Reachable s) :
    s.sectors_done ≤ s.sectorcount ∧
    ∀ e : Answers, s.imaging = true →
      s.sectors_done ≤ (scsiUsbBridgeMainLoop e s).1.sectors_done :=
  ⟨(inv_reachable s h).done_le, fun e hi => poll_sectors_done_mono e s (inv_reachable s h) hi⟩

/-- Witness of C1: the session on `zipDrive` after its first batch, polled once more. -/
theorem sectors_done_bounded_and_monotone_witness :
    Reachable (run [Answers.silent] zipSession0) ∧
    (run [Answers.silent] zipSession0).imaging = true ∧
    (run [Answers.silent] zipSession0).sectors_done = 512 ∧
    (run [Answers.silent] zipSession0).sectors_done ≤
      (run [Answers.silent] zipSession0).sectorcount ∧
    (run [Answers.silent] zipSession0).sectors_done ≤
      (scsiUsbBridgeMainLoop Answers.readFails (run [Answers.silent] zipSession0)).1.sectors_done :=
  have hr : Reachable (run [Answers.silent] zipSession0) :=
    reachable_run _ _ (reachable_run _ _ reachable_initDefault)
  ⟨hr, by decide, by decide,
    (sectors_done_bounded_and_monotone _ hr).1,
    (sectors_done_bounded_and_monotone _ hr).2 Answers.readFails (by decide)⟩

/-! ### C2: completion of a session -/

theorem lor_bit_lt (x : Nat) (id : Int) (hx : x < 2 ^ 32) (h : id ≤ 7) :
    x ||| shl1 id < 2 ^ 32 :=
  Nat.or_lt_two_pow hx (lt_trans (shl1_lt id h) (by norm_num))

/-- C2: a poll taken while imaging with `sectors_done >= sectorcount` ends the
session: afterwards `imaging` is false; when `ejectWhenDone` is false the new
bitmap is the old one with bit `target_id` added, and when `ejectWhenDone` is
true the bitmap is unchanged. -/
theorem completion_marks_unless_ejectable (s : InitiatorState) (e : Answers)
    (hr : Reachable s) (hi : s.imaging = true) (hd : s.sectors_done ≥ s.sectorcount) :
    (scsiUsbBridgeMainLoop e s).1.imaging = false ∧
    (s.ejectWhenDone = false →
      ∀ i : Nat, (scsiUsbBridgeMainLoop e s).1.drives_imaged.testBit i =
        (s.drives_imaged.testBit i || decide ((i : Int) = s.target_id))) ∧
    (s.ejectWhenDone = true →
      (scsiUsbBridgeMainLoop e s).1.drives_imaged = s.drives_imaged) := by
  have hinv := inv_reachable s hr
  have hp : (scsiUsbBridgeMainLoop e s).1 = (finishStep s).1 := poll_finish e s hi hd
  rw [hp, finishStep_state]
  refine ⟨rfl, ?_, ?_⟩
  · intro he i
    have h0 := hinv.target_imaging hi
    simp only [he, Bool.false_eq_true, if_false]
    rw [u32_of_lt (lor_bit_lt _ _ hinv.drives_lt hinv.target_hi)]
    unfold shl1
    rw [Nat.one_shiftLeft, Nat.testBit_or, Nat.testBit_two_pow]
    congr 1
    have : (s.target_id.toNat = i) ↔ ((i : Int) = s.target_id) := by omega
    exact decide_eq_decide.mpr this
  · intro he
    simp only [he, if_true]

/-- Witness of C2: target 3 is the `IOMEGA` `ZIP100` drive, so `ejectWhenDone` is
true and bit 3 stays clear when its session completes; the direct-access drive at
target 0 gets its bit set. -/
theorem completion_marks_unless_ejectable_witness :
    (zipDone3.imaging = true ∧ zipDone3.sectors_done ≥ zipDone3.sectorcount ∧
      zipDone3.target_id = 3 ∧ zipDone3.ejectWhenDone = true) ∧
    ((scsiUsbBridgeMainLoop Answers.silent zipDone3).1.imaging = false ∧
      (scsiUsbBridgeMainLoop Answers.silent zipDone3).1.drives_imaged = zipDone3.drives_imaged ∧
      (scsiUsbBridgeMainLoop Answers.silent zipDone3).1.drives_imaged.testBit 3 = false) ∧
    (plainDone0.imaging = true ∧ plainDone0.target_id = 0 ∧ plainDone0.ejectWhenDone = false ∧
      (scsiUsbBridgeMainLoop Answers.silent plainDone0).1.drives_imaged.testBit 0 = true) :=
  have h3 := completion_marks_unless_ejectable zipDone3 Answers.silent
    (reachable_run _ _ reachable_initDefault) (by decide) (by decide)
  have h0 := completion_marks_unless_ejectable plainDone0 Answers.silent
    (reachable_run _ _ reachable_initDefault) (by decide) (by decide)
  ⟨by decide, ⟨h3.1, h3.2.2 (by decide), by decide⟩, by decide, by decide, by decide,
    by rw [h0.2.1 (by decide) 0]; decide⟩

/-! ### C3: a sector that always fails -/

theorem run_append (es fs : List Answers) (s : InitiatorState) :
    run (es ++ fs) s = run fs (run es s) := by
  induction es generalizing s with
  | nil => rfl
  | cons e es ih => exact ih (poll e s)

/-- Failed polls below the retry limit: only `retrycount` and `failposition` change. -/
theorem run_retries (es : List Answers) (s : InitiatorState) (hi : s.imaging = true)
    (hd : s.sectors_done < s.sectorcount) (hf : ∀ e ∈ es, e.readOk = false)
    (hn : s.retrycount + es.length ≤ (s.maxRetryCount : Int)) :
    (run es s).imaging = true ∧ (run es s).sectors_done = s.sectors_done ∧
    (run es s).sectorcount = s.sectorcount ∧ (run es s).badSectorCount = s.badSectorCount ∧
    (run es s).maxRetryCount = s.maxRetryCount ∧
    (run es s).retrycount = s.retrycount + es.length := by
  induction es generalizing s with
  | nil => simp [run, hi]
  | cons e es ih =>
    have he : e.readOk = false := hf e (List.mem_cons_self _ _)
    have hlen : ((e :: es).length : Int) = es.length + 1 := by simp
    have hlt : s.retrycount < (s.maxRetryCount : Int) := by omega
    have hp : poll e s = _ := (poll_transfer e s hi hd).trans (transferStep_retry e s he hlt)
    have := ih (poll e s) (by rw [hp]; exact hi) (by rw [hp]; exact hd)
      (fun x hx => hf x (List.mem_cons_of_mem _ hx)) (by rw [hp]; simp only; omega)
    simp only [run]
    rw [hp] at this ⊢
    simp only at this ⊢
    refine ⟨this.1, this.2.1, this.2.2.1, this.2.2.2.1, this.2.2.2.2.1, ?_⟩
    rw [this.2.2.2.2.2]
    omega

/-- C3: with `maxRetryCount = N`, in an imaging state with `retrycount = 0` and
`sectors_done < sectorcount`, when every read fails, each of the first `N` polls
leaves `sectors_done` and `badSectorCount` unchanged and raises `retrycount` by
one, and poll `N + 1` advances `sectors_done` by exactly one sector, raises
`badSectorCount` by one and resets `retrycount` to 0. -/
theorem failing_sector_retried_then_skipped (s : InitiatorState) (es : List Answers)
    (hr : Reachable s) (hi : s.imaging = true) (h0 : s.retrycount = 0)
    (hd : s.sectors_done < s.sectorcount) (hf : ∀ e ∈ es, e.readOk = false)
    (hlen : es.length = s.maxRetryCount + 1) :
    (∀ k : Nat, k ≤ s.maxRetryCount →
      (run (es.take k) s).sectors_done = s.sectors_done ∧
      (run (es.take k) s).badSectorCount = s.badSectorCount ∧
      (run (es.take k) s).retrycount = k) ∧
    (run es s).sectors_done = s.sectors_done + 1 ∧
    (run es s).badSectorCount = s.badSectorCount + 1 ∧
    (run es s).retrycount = 0 := by
  have key : ∀ k : Nat, k ≤ s.maxRetryCount →
      (run (es.take k) s).imaging = true ∧ (run (es.take k) s).sectors_done = s.sectors_done ∧
      (run (es.take k) s).sectorcount = s.sectorcount ∧
      (run (es.take k) s).badSectorCount = s.badSectorCount ∧
      (run (es.take k) s).maxRetryCount = s.maxRetryCount ∧
      (run (es.take k) s).retrycount = k := by
    intro k hk
    have hl : (es.take k).length = k := by
      rw [List.length_take]; omega
    have := run_retries (es.take k) s hi hd (fun e he => hf e (List.mem_of_mem_take he))
      (by rw [hl, h0]; omega)
    rw [hl, h0] at this
    simpa using this
  refine ⟨fun k hk => ⟨(key k hk).2.1, (key k hk).2.2.2.1, (key k hk).2.2.2.2.2⟩, ?_⟩
  obtain ⟨ki, kd, kc, kb, km, kr⟩ := key s.maxRetryCount (le_refl _)
  obtain ⟨e, hdrop⟩ : ∃ e, es.drop s.maxRetryCount = [e] := by
    have hl : (es.drop s.maxRetryCount).length = 1 := by
      rw [List.length_drop]; omega
    match hm : es.drop s.maxRetryCount, hl with
    | [e], _ => exact ⟨e, rfl⟩
  have he : e.readOk = false :=
    hf e (List.mem_of_mem_drop (by rw [hdrop]; exact List.mem_singleton_self e))
  have hsplit : run es s = poll e (run (es.take s.maxRetryCount) s) := by
    conv_lhs => rw [← List.take_append_drop s.maxRetryCount es, run_append, hdrop]
    rfl
  have hinv : Inv (run (es.take s.maxRetryCount) s) :=
    inv_reachable _ (reachable_run _ _ hr)
  have hnot : ¬ (run (es.take s.maxRetryCount) s).retrycount <
      ((run (es.take s.maxRetryCount) s).maxRetryCount : Int) := by
    rw [kr, km]; omega
  have hc := hinv.count_lt
  have hb := hinv.bad_le
  rw [hsplit, poll_transfer e _ ki (by rw [kd, kc]; exact hd), transferStep_skip e _ he hnot]
  simp only
  rw [kd, kc] at *
  rw [kb] at hb ⊢
  rw [u32_of_lt (by omega), u32_of_lt (by omega)]
  exact ⟨rfl, rfl, trivial⟩

/-- Witness of C3: the session on `zipDrive` with `maxRetryCount = 5` and six
failed reads. -/
theorem failing_sector_retried_then_skipped_witness :
    (zipSession0.imaging = true ∧ zipSession0.retrycount = 0 ∧ zipSession0.maxRetryCount = 5 ∧
      zipSession0.sectors_done < zipSession0.sectorcount) ∧
    (∀ k : Nat, k ≤ zipSession0.maxRetryCount →
      (run ((List.replicate 6 Answers.readFails).take k) zipSession0).sectors_done =
        zipSession0.sectors_done ∧
      (run ((List.replicate 6 Answers.readFails).take k) zipSession0).badSectorCount =
        zipSession0.badSectorCount ∧
      (run ((List.replicate 6 Answers.readFails).take k) zipSession0).retrycount = k) ∧
    (run (List.replicate 6 Answers.readFails) zipSession0).sectors_done =
      zipSession0.sectors_done + 1 ∧
    (run (List.replicate 6 Answers.readFails) zipSession0).badSectorCount =
      zipSession0.badSectorCount + 1 ∧
    (run (List.replicate 6 Answers.readFails) zipSession0).retrycount = 0 :=
  ⟨by decide,
    failing_sector_retried_then_skipped zipSession0 (List.replicate 6 Answers.readFails)
      (reachable_run _ _ reachable_initDefault) (by decide) (by decide) (by decide)
      (fun e he => by rw [List.eq_of_mem_replicate he]; rfl) (by decide)⟩

/-! ### C4, C5: the second failure of a multi-sector batch -/

theorem readsIssued_append (as bs : List Action) :
    readsIssued (as ++ bs) = readsIssued as ++ readsIssued bs := by
  induction as with
  | nil => rfl
  | cons a as ih => cases a <;> simp [readsIssued, ih]

/-- A transfer poll issues exactly one read: `numtoread` sectors from `sectors_done`. -/
theorem transfer_reads (e : Answers) (s : InitiatorState) (hi : s.imaging = true)
    (hd : s.sectors_done < s.sectorcount) :
    readsIssued (scsiUsbBridgeMainLoop e s).2 = [(s.sectors_done, numtoread s)] := by
  have h0 : readsIssued (if e.g_scsiHostPhyReset = true then
      [Action.log LogMsg.busReset, Action.scsiHostPhyReset] else []) = [] := by
    split_ifs <;> rfl
  have h1 : readsIssued (transferStep e s).2 = [(s.sectors_done, numtoread s)] := by
    unfold transferStep
    by_cases hr : e.readOk = true
    · simp [hr, readsIssued]
    · simp only [Bool.not_eq_true] at hr
      by_cases hlt : s.retrycount < (s.maxRetryCount : Int)
      · simp only [hr, Bool.not_false, if_true, if_pos hlt, readsIssued_append]
        split_ifs <;> simp [readsIssued]
      · simp [hr, hlt, readsIssued]
  simp only [scsiUsbBridgeMainLoop, hi, Bool.not_true, Bool.false_eq_true, if_false,
    if_neg (Nat.not_le.mpr hd), readsIssued_append, h0, h1, List.nil_append]

/-- While the polls stay in the session and `sectors_done` is below a
`failposition` that lies inside the drive, `failposition` is kept. -/
theorem degraded_region_kept (F : Nat) (es : List Answers) (s : InitiatorState) (hinv : Inv s)
    (hF : F ≤ s.sectorcount)
    (hk : s.sectors_done < F → s.imaging = true ∧ s.failposition = F)
    (hs : sessionPolls es s) :
    (run es s).sectorcount = s.sectorcount ∧
    ((run es s).sectors_done < F → (run es s).imaging = true ∧ (run es s).failposition = F) := by
  induction es generalizing s with
  | nil => exact ⟨rfl, hk⟩
  | cons e es ih =>
    obtain ⟨hi, hs'⟩ := hs
    have hc := hinv.count_lt
    have step : (poll e s).sectorcount = s.sectorcount ∧
        ((poll e s).sectors_done < F → (poll e s).imaging = true ∧ (poll e s).failposition = F) := by
      by_cases hd : s.sectors_done < s.sectorcount
      · have hn := numtoread_le s hc hd
        rw [poll_transfer e s hi hd]
        by_cases hr : e.readOk = true
        · rw [transferStep_success e s hr]
          simp only [u32_of_lt (show s.sectors_done + numtoread s < 2 ^ 32 by omega)]
          exact ⟨trivial, fun h => hk (by omega)⟩
        · simp only [Bool.not_eq_true] at hr
          by_cases hlt : s.retrycount < (s.maxRetryCount : Int)
          · rw [transferStep_retry e s hr hlt]
            simp only
            refine ⟨trivial, fun h => ?_⟩
            obtain ⟨h1, h2⟩ := hk h
            have hone : numtoread s = 1 := numtoread_degraded s (by omega)
            refine ⟨h1, ?_⟩
            rw [if_neg (by omega)]
            exact h2
          · rw [transferStep_skip e s hr hlt]
            simp only [u32_of_lt (show s.sectors_done + 1 < 2 ^ 32 by omega)]
            exact ⟨trivial, fun h => hk (by omega)⟩
      · rw [poll_finish e s hi (Nat.le_of_not_lt hd), finishStep_state]
        simp only
        exact ⟨trivial, fun h => absurd h (by omega)⟩
    have := ih (poll e s) (inv_poll e s hinv) (by rw [step.1]; exact hF) step.2 hs'
    simp only [run]
    exact ⟨this.1.trans step.1, this.2⟩

/-- The field `failposition` never decreases: it is only written by a failed
multi-sector batch, which starts at or after the old position. -/
theorem failposition_mono (e : Answers) (s : InitiatorState) (hinv : Inv s) :
    s.failposition ≤ (poll e s).failposition := by
  by_cases hi : s.imaging = true
  · by_cases hd : s.sectors_done < s.sectorcount
    · rw [poll_transfer e s hi hd]
      by_cases hr : e.readOk = true
      · rw [transferStep_success e s hr]
      · simp only [Bool.not_eq_true] at hr
        by_cases hlt : s.retrycount < (s.maxRetryCount : Int)
        · rw [transferStep_retry e s hr hlt]
          simp only
          split_ifs with h
          · have hn := numtoread_le s hinv.count_lt hd
            have hc := hinv.count_lt
            rw [u32_of_lt (by omega)]
            by_contra hcon
            have := numtoread_degraded s (by omega)
            omega
          · exact le_refl _
        · rw [transferStep_skip e s hr hlt]
    · rw [poll_finish e s hi (Nat.le_of_not_lt hd), finishStep_state]
  · simp only [Bool.not_eq_true] at hi
    rw [poll_scan e s hi, (scanStep_fields e s).2.2.2.1]

theorem failposition_mono_run (es : List Answers) (s : InitiatorState) (hinv : Inv s) :
    s.failposition ≤ (run es s).failposition := by
  induction es generalizing s with
  | nil => exact le_refl _
  | cons e es ih =>
    exact le_trans (failposition_mono e s hinv) (ih (poll e s) (inv_poll e s hinv))

/-- The state after two failed reads of a batch of more than one sector, when
`maxRetryCount` is at least 2. -/
theorem two_failures_state (s : InitiatorState) (e1 e2 : Answers) (hinv : Inv s)
    (hi : s.imaging = true) (h0 : s.retrycount = 0) (hd : s.sectors_done < s.sectorcount)
    (hb : 1 < numtoread s) (hN : 2 ≤ s.maxRetryCount)
    (h1 : e1.readOk = false) (h2 : e2.readOk = false) :
    run [e1, e2] s =
      { s with retrycount := 2, failposition := s.sectors_done + numtoread s } := by
  have hn := numtoread_le s hinv.count_lt hd
  have hc := hinv.count_lt
  have p1 : poll e1 s = { s with retrycount := 1 } := by
    rw [poll_transfer e1 s hi hd, transferStep_retry e1 s h1 (by omega), h0]
    simp
  have hnum : numtoread { s with retrycount := 1 } = numtoread s := rfl
  have p2 : poll e2 { s with retrycount := 1 } =
      { s with retrycount := 2, failposition := s.sectors_done + numtoread s } := by
    rw [poll_transfer e2 { s with retrycount := 1 } hi hd,
      transferStep_retry e2 { s with retrycount := 1 } h2 (by simp only; omega)]
    simp only [hnum]
    rw [if_pos ⟨by norm_num, hb⟩, u32_of_lt (by omega)]
    norm_num
  simp only [run, p1, p2]

/-- C4 (amended): for every `maxRetryCount >= 2` and every imaging state with
`retrycount = 0` whose batch size `b` is larger than one sector, when the read of
that batch fails on two consecutive polls, `failposition` equals
`sectors_done + b` after the second failure.  Every later poll of the session
taken while `sectors_done` is below that position finds `failposition` unchanged
and reads exactly one sector; and after any later polls `failposition` is still
at least that position, and a transfer poll taken while
`sectors_done < failposition` reads exactly one sector. -/
theorem second_failure_sets_failposition (s : InitiatorState) (e1 e2 : Answers)
    (hr : Reachable s) (hi : s.imaging = true) (h0 : s.retrycount = 0)
    (hd : s.sectors_done < s.sectorcount) (hb : 1 < numtoread s) (hN : 2 ≤ s.maxRetryCount)
    (h1 : e1.readOk = false) (h2 : e2.readOk = false) :
    (run [e1, e2] s).failposition = s.sectors_done + numtoread s ∧
    (run [e1, e2] s).sectors_done = s.sectors_done ∧
    (∀ es : List Answers, sessionPolls es (run [e1, e2] s) →
      (run es (run [e1, e2] s)).sectors_done < s.sectors_done + numtoread s →
      (run es (run [e1, e2] s)).imaging = true ∧
      (run es (run [e1, e2] s)).failposition = s.sectors_done + numtoread s ∧
      ∀ e : Answers, readsIssued (scsiUsbBridgeMainLoop e (run es (run [e1, e2] s))).2 =
        [((run es (run [e1, e2] s)).sectors_done, 1)]) ∧
    (∀ es : List Answers,
      s.sectors_done + numtoread s ≤ (run es (run [e1, e2] s)).failposition ∧
      ((run es (run [e1, e2] s)).imaging = true →
        (run es (run [e1, e2] s)).sectors_done < (run es (run [e1, e2] s)).sectorcount →
        (run es (run [e1, e2] s)).sectors_done < (run es (run [e1, e2] s)).failposition →
        ∀ e : Answers, readsIssued (scsiUsbBridgeMainLoop e (run es (run [e1, e2] s))).2 =
          [((run es (run [e1, e2] s)).sectors_done, 1)])) := by
  have hinv := inv_reachable s hr
  have hn := numtoread_le s hinv.count_lt hd
  have hs2 := two_failures_state s e1 e2 hinv hi h0 hd hb hN h1 h2
  have hinv2 : Inv (run [e1, e2] s) := inv_reachable _ (reachable_run _ _ hr)
  have hfp : (run [e1, e2] s).failposition = s.sectors_done + numtoread s := by rw [hs2]
  have last : ∀ (t : InitiatorState) (e : Answers), t.imaging = true →
      t.sectors_done < t.sectorcount → t.sectors_done < t.failposition →
      readsIssued (scsiUsbBridgeMainLoop e t).2 = [(t.sectors_done, 1)] := by
    intro t e ti td tf
    rw [transfer_reads e t ti td, numtoread_degraded t tf]
  refine ⟨hfp, by rw [hs2], ?_, ?_⟩
  · intro es hs hlt
    have hF : s.sectors_done + numtoread s ≤ (run [e1, e2] s).sectorcount := by
      rw [hs2]; simp only; omega
    have hk : (run [e1, e2] s).sectors_done < s.sectors_done + numtoread s →
        (run [e1, e2] s).imaging = true ∧
        (run [e1, e2] s).failposition = s.sectors_done + numtoread s := by
      intro _; rw [hs2]; exact ⟨hi, rfl⟩
    obtain ⟨hc, hkeep⟩ := degraded_region_kept _ es _ hinv2 hF hk hs
    obtain ⟨ti, tf⟩ := hkeep hlt
    refine ⟨ti, tf, fun e => ?_⟩
    apply last _ e ti
    · rw [hc]; omega
    · rw [tf]; exact hlt
  · intro es
    refine ⟨?_, fun ti td tf e => last _ e ti td tf⟩
    rw [← hfp]
    exact failposition_mono_run es _ hinv2

/-- Witness of C4 (amended): the session on `zipDrive` with `maxRetryCount = 5`;
its first batch of 512 sectors fails twice, and a third poll follows. -/
theorem second_failure_sets_failposition_witness :
    (zipSession0.imaging = true ∧ zipSession0.retrycount = 0 ∧ numtoread zipSession0 = 512 ∧
      zipSession0.maxRetryCount = 5) ∧
    (run [Answers.readFails, Answers.readFails] zipSession0).failposition = 512 ∧
    readsIssued (scsiUsbBridgeMainLoop Answers.silent
      (run [Answers.silent] (run [Answers.readFails, Answers.readFails] zipSession0))).2 =
        [(1, 1)] :=
  have h := second_failure_sets_failposition zipSession0 Answers.readFails Answers.readFails
    (reachable_run _ _ reachable_initDefault) (by decide) (by decide) (by decide) (by decide)
    (by decide) rfl rfl
  ⟨by decide, h.1, (h.2.2.1 [Answers.silent] (by decide) (by decide)).2.2 Answers.silent⟩

/-- Counterexample to C4 as stated: with `maxRetryCount = 1` the second failure of
a batch of 512 sectors hits the retry limit; one sector is skipped and
`failposition` stays 0. -/
theorem second_failure_counterexample :
    Reachable zipSessionRetry1 ∧
    zipSessionRetry1.imaging = true ∧ zipSessionRetry1.retrycount = 0 ∧
    zipSessionRetry1.maxRetryCount = 1 ∧ zipSessionRetry1.sectors_done = 0 ∧
    numtoread zipSessionRetry1 = 512 ∧
    (run [Answers.readFails, Answers.readFails] zipSessionRetry1).failposition = 0 ∧
    (run [Answers.readFails, Answers.readFails] zipSessionRetry1).failposition ≠
      zipSessionRetry1.sectors_done + numtoread zipSessionRetry1 ∧
    (run [Answers.readFails, Answers.readFails] zipSessionRetry1).sectors_done = 1 :=
  ⟨reachable_run _ _ (Reachable.init 7 1), by decide, by decide, by decide, by decide,
    by decide, by decide, by decide, by decide⟩

/-- C5: with `maxRetryCount = 5`, `retrycount = 0`, `sectors_done = 100` and a
batch of 64 sectors (the 64 sectors that remain), two consecutive failed polls
leave `sectors_done = 100`, `retrycount = 2` and `failposition = 164`; from then
on every poll of the session taken while `sectors_done < 164` issues a read of
exactly one sector, and so does every transfer poll taken later, in any session,
while `sectors_done < 164`. -/
theorem scenario_fail_twice_at_100 (s : InitiatorState) (e1 e2 : Answers)
    (hr : Reachable s) (hi : s.imaging = true) (hN : s.maxRetryCount = 5)
    (h0 : s.retrycount = 0) (hd : s.sectors_done = 100) (hc : s.sectorcount = 164)
    (hb : numtoread s = 64) (h1 : e1.readOk = false) (h2 : e2.readOk = false) :
    (run [e1, e2] s).sectors_done = 100 ∧
    (run [e1, e2] s).retrycount = 2 ∧
    (run [e1, e2] s).failposition = 164 ∧
    (∀ es : List Answers, sessionPolls es (run [e1, e2] s) →
      (run es (run [e1, e2] s)).sectors_done < 164 →
      ∀ e : Answers, readsIssued (scsiUsbBridgeMainLoop e (run es (run [e1, e2] s))).2 =
        [((run es (run [e1, e2] s)).sectors_done, 1)]) ∧
    (∀ es : List Answers, (run es (run [e1, e2] s)).imaging = true →
      (run es (run [e1, e2] s)).sectors_done < (run es (run [e1, e2] s)).sectorcount →
      (run es (run [e1, e2] s)).sectors_done < 164 →
      ∀ e : Answers, readsIssued (scsiUsbBridgeMainLoop e (run es (run [e1, e2] s))).2 =
        [((run es (run [e1, e2] s)).sectors_done, 1)]) := by
  have hinv := inv_reachable s hr
  have hlt : s.sectors_done < s.sectorcount := by omega
  have hs2 := two_failures_state s e1 e2 hinv hi h0 hlt (by omega) (by omega) h1 h2
  have hinv2 : Inv (run [e1, e2] s) := inv_reachable _ (reachable_run _ _ hr)
  have hfp : (run [e1, e2] s).failposition = 164 := by rw [hs2]; simp only; omega
  refine ⟨by rw [hs2]; exact hd, by rw [hs2], hfp, ?_, ?_⟩
  · intro es hs hl e
    have hk : (run [e1, e2] s).sectors_done < 164 →
        (run [e1, e2] s).imaging = true ∧ (run [e1, e2] s).failposition = 164 := by
      intro _; exact ⟨by rw [hs2]; exact hi, hfp⟩
    obtain ⟨hcc, hkeep⟩ :=
      degraded_region_kept 164 es _ hinv2 (by rw [hs2]; simp only; omega) hk hs
    obtain ⟨ti, tf⟩ := hkeep hl
    have hsc : (run [e1, e2] s).sectorcount = 164 := by rw [hs2]; exact hc
    rw [transfer_reads e _ ti (by rw [hcc, hsc]; exact hl),
      numtoread_degraded _ (by rw [tf]; exact hl)]
  · intro es ti td hl e
    have hm := failposition_mono_run es _ hinv2
    rw [hfp] at hm
    rw [transfer_reads e _ ti td, numtoread_degraded _ (by omega)]

/-- Witness of C5: `scenario100` is a state of the controller with
`sectors_done = 100` and a batch of 64 sectors; after two failed polls and three
more polls of the session one sector is read. -/
theorem scenario_fail_twice_at_100_witness :
    (scenario100.imaging = true ∧ scenario100.maxRetryCount = 5 ∧ scenario100.retrycount = 0 ∧
      scenario100.sectors_done = 100 ∧ scenario100.sectorcount = 164 ∧
      numtoread scenario100 = 64) ∧
    (run [Answers.readFails, Answers.readFails] scenario100).sectors_done = 100 ∧
    (run [Answers.readFails, Answers.readFails] scenario100).retrycount = 2 ∧
    (run [Answers.readFails, Answers.readFails] scenario100).failposition = 164 ∧
    readsIssued (scsiUsbBridgeMainLoop Answers.silent
      (run [Answers.silent, Answers.readFails, Answers.silent]
        (run [Answers.readFails, Answers.readFails] scenario100))).2 = [(102, 1)] :=
  have h := scenario_fail_twice_at_100 scenario100 Answers.readFails Answers.readFails
    (reachable_run _ _ reachable_initDefault) (by decide) (by decide) (by decide) (by decide)
    (by decide) (by decide) rfl rfl
  ⟨by decide, h.1, h.2.1, h.2.2.1,
    h.2.2.2.1 [Answers.silent, Answers.readFails, Answers.silent] (by decide) (by decide)
      Answers.silent⟩

/-! ### C6: `badSectorCount` -/

theorem skipsLogged_append (as bs : List Action) :
    skipsLogged (as ++ bs) = skipsLogged as + skipsLogged bs := by
  unfold skipsLogged
  exact List.count_append _ _ _

theorem skipsLogged_reset (b : Bool) :
    skipsLogged (if b = true then [Action.log LogMsg.busReset, Action.scsiHostPhyReset]
      else []) = 0 := by
  cases b <;> decide

theorem skipsLogged_probe (e : Answers) (s : InitiatorState) :
    skipsLogged (probe e s).2 = 0 := by
  unfold probe
  simp only [skipsLogged_append]
  split_ifs <;> simp [skipsLogged]

theorem skipsLogged_classify (e : Answers) (s : InitiatorState) :
    skipsLogged (classify e s).2 = 0 := by
  unfold classify checkFat32Limit
  simp only [apply_ite Prod.snd, skipsLogged_append]
  split_ifs <;> simp [skipsLogged]

theorem skipsLogged_applyInquiry (e : Answers) (s : InitiatorState) :
    skipsLogged (applyInquiry e s).2 = 0 := by
  unfold applyInquiry
  simp only [apply_ite Prod.snd]
  split_ifs <;> simp [skipsLogged]

theorem skipsLogged_startImaging (e : Answers) (total : Nat) (s : InitiatorState) :
    skipsLogged (startImaging e total s).2 = 0 := by
  unfold startImaging
  simp only [apply_ite Prod.snd, skipsLogged_append]
  split_ifs <;> simp [skipsLogged]

theorem skipsLogged_scanStep (e : Answers) (s : InitiatorState) :
    skipsLogged (scanStep e s).2 = 0 := by
  by_cases h : alreadyImaged s
  · rw [scanStep_skip e s h]
    rfl
  · rw [scanStep_probe e s h]
    simp only [andThen_snd, skipsLogged_append, skipsLogged_probe, skipsLogged_classify,
      skipsLogged_applyInquiry, skipsLogged_startImaging]

theorem skipsLogged_finishStep (s : InitiatorState) : skipsLogged (finishStep s).2 = 0 := by
  unfold finishStep
  simp only [skipsLogged_append]
  split_ifs <;> simp [skipsLogged]

theorem skipsLogged_transferStep (e : Answers) (s : InitiatorState) :
    skipsLogged (transferStep e s).2 =
      if e.readOk = false ∧ ¬ s.retrycount < (s.maxRetryCount : Int) then 1 else 0 := by
  unfold transferStep
  by_cases hr : e.readOk = true
  · simp [hr, skipsLogged]
  · simp only [Bool.not_eq_true] at hr
    by_cases hlt : s.retrycount < (s.maxRetryCount : Int)
    · have hrhs : (if e.readOk = false ∧ ¬ s.retrycount < (s.maxRetryCount : Int)
          then 1 else 0) = 0 := if_neg (fun h => h.2 hlt)
      rw [hrhs]
      simp only [hr, Bool.not_false, if_true, if_pos hlt, skipsLogged_append]
      split_ifs <;> simp [skipsLogged]
    · simp [hr, hlt, skipsLogged]

/-- The line of the retry-limit branch is logged by exactly the polls that take
that branch: a transfer poll whose read fails with `retrycount >= maxRetryCount`. -/
theorem skipsLogged_poll (e : Answers) (s : InitiatorState) :
    skipsLogged (scsiUsbBridgeMainLoop e s).2 =
      if s.imaging = true ∧ s.sectors_done < s.sectorcount ∧ e.readOk = false ∧
          (s.maxRetryCount : Int) ≤ s.retrycount then 1 else 0 := by
  unfold scsiUsbBridgeMainLoop
  simp only [skipsLogged_append, skipsLogged_reset, Nat.zero_add]
  by_cases hi : s.imaging = true
  · by_cases hd : s.sectors_done < s.sectorcount
    · simp only [hi, Bool.not_true, Bool.false_eq_true, if_false, if_neg (Nat.not_le.mpr hd),
        skipsLogged_transferStep, hd, true_and, not_lt]
    · simp only [hi, Bool.not_true, Bool.false_eq_true, if_false, if_pos (Nat.le_of_not_lt hd),
        skipsLogged_finishStep, hd, false_and, and_false, if_false]
  · simp only [Bool.not_eq_true] at hi
    simp only [hi, Bool.not_false, if_true, skipsLogged_scanStep, Bool.false_eq_true, false_and,
      if_false]

theorem poll_bad_skips (e : Answers) (s : InitiatorState) (hinv : Inv s)
    (hi : s.imaging = true) :
    (poll e s).badSectorCount = s.badSectorCount + skipsLogged (scsiUsbBridgeMainLoop e s).2 := by
  rw [skipsLogged_poll]
  by_cases hd : s.sectors_done < s.sectorcount
  · by_cases hr : e.readOk = true
    · rw [if_neg (fun h => by simp [hr] at h), poll_transfer e s hi hd,
        transferStep_success e s hr]
      rfl
    · simp only [Bool.not_eq_true] at hr
      by_cases hlt : s.retrycount < (s.maxRetryCount : Int)
      · rw [if_neg (fun h => absurd h.2.2.2 (not_le.mpr hlt)), poll_transfer e s hi hd,
          transferStep_retry e s hr hlt]
        rfl
      · rw [if_pos ⟨hi, hd, hr, not_lt.mp hlt⟩, poll_transfer e s hi hd,
          transferStep_skip e s hr hlt]
        have h1 := hinv.bad_le
        have h2 := hinv.count_lt
        simp only
        exact u32_of_lt (by omega)
  · rw [if_neg (fun h => hd h.2.1), poll_finish e s hi (Nat.le_of_not_lt hd), finishStep_state]
    rfl

theorem run_bad_skips (es : List Answers) (s : InitiatorState) (hinv : Inv s)
    (hs : sessionPolls es s) :
    (run es s).badSectorCount = s.badSectorCount + skipsInRun es s := by
  induction es generalizing s with
  | nil => rfl
  | cons e es ih =>
    obtain ⟨hi, hs'⟩ := hs
    simp only [run, skipsInRun]
    rw [ih (poll e s) (inv_poll e s hinv) hs', poll_bad_skips e s hinv hi]
    omega

/-- C6: `badSectorCount` is 0 when a session starts (the scanning poll that sets
`imaging`), and at every later point of the session it equals the number of polls
of the session that took the retry-limit-exceeded branch; a poll takes that
branch exactly when it is a transfer poll whose read fails with
`retrycount >= maxRetryCount`. -/
theorem badSectorCount_counts_skips (s : InitiatorState) (e0 : Answers) (es : List Answers)
    (hr : Reachable s) (hi : s.imaging = false)
    (_hstart : (scsiUsbBridgeMainLoop e0 s).1.imaging = true)
    (hs : sessionPolls es (scsiUsbBridgeMainLoop e0 s).1) :
    (scsiUsbBridgeMainLoop e0 s).1.badSectorCount = 0 ∧
    (run es (scsiUsbBridgeMainLoop e0 s).1).badSectorCount =
      skipsInRun es (scsiUsbBridgeMainLoop e0 s).1 ∧
    ∀ (t : InitiatorState) (e : Answers),
      skipsLogged (scsiUsbBridgeMainLoop e t).2 =
        if t.imaging = true ∧ t.sectors_done < t.sectorcount ∧ e.readOk = false ∧
            (t.maxRetryCount : Int) ≤ t.retrycount then 1 else 0 := by
  have hz : (scsiUsbBridgeMainLoop e0 s).1.badSectorCount = 0 := by
    have hp : (scsiUsbBridgeMainLoop e0 s).1 = (scanStep e0 s).1 := poll_scan e0 s hi
    rw [hp]
    exact (scanStep_fields e0 s).2.2.2.2.2.2.2
  refine ⟨hz, ?_, fun t e => skipsLogged_poll e t⟩
  have hinv : Inv (poll e0 s) := inv_poll e0 s (inv_reachable s hr)
  have := run_bad_skips es (poll e0 s) hinv hs
  rw [show (poll e0 s).badSectorCount = 0 from hz, Nat.zero_add] at this
  exact this

/-- Witness of C6: a session on `zipDrive` with `maxRetryCount = 1` in which two
sectors are skipped. -/
theorem badSectorCount_counts_skips_witness :
    (scsiUsbBridgeMainLoop zipDrive (scsiUsbBridgeInit 7 1 staticState)).1.badSectorCount = 0 ∧
    skipsInRun [Answers.readFails, Answers.readFails, Answers.silent, Answers.readFails,
        Answers.readFails, Answers.silent]
      (scsiUsbBridgeMainLoop zipDrive (scsiUsbBridgeInit 7 1 staticState)).1 = 2 ∧
    (run [Answers.readFails, Answers.readFails, Answers.silent, Answers.readFails,
        Answers.readFails, Answers.silent]
      (scsiUsbBridgeMainLoop zipDrive (scsiUsbBridgeInit 7 1 staticState)).1).badSectorCount =
      skipsInRun [Answers.readFails, Answers.readFails, Answers.silent, Answers.readFails,
          Answers.readFails, Answers.silent]
        (scsiUsbBridgeMainLoop zipDrive (scsiUsbBridgeInit 7 1 staticState)).1 :=
  have h := badSectorCount_counts_skips (scsiUsbBridgeInit 7 1 staticState) zipDrive
    [Answers.readFails, Answers.readFails, Answers.silent, Answers.readFails,
      Answers.readFails, Answers.silent]
    (Reachable.init 7 1) (by decide) (by decide) (by decide)
  ⟨h.1, by decide, h.2.1⟩

/-! ### C7: forward progress -/

/-- What a transfer poll does to the fields of the measure. -/
theorem transfer_poll_progress (e : Answers) (s : InitiatorState) (hinv : Inv s)
    (hi : s.imaging = true) (hd : s.sectors_done < s.sectorcount) :
    (poll e s).imaging = true ∧ (poll e s).sectorcount = s.sectorcount ∧
    (poll e s).maxRetryCount = s.maxRetryCount ∧
    progressMeasure (poll e s) < progressMeasure s ∧ 0 ≤ progressMeasure (poll e s) := by
  have hn := numtoread_le s hinv.count_lt hd
  have hnp := numtoread_pos s hinv.count_lt hd hinv.batch_pos
  have hc := hinv.count_lt
  have hr0 := hinv.retry_lo
  have hr1 := hinv.retry_hi
  rw [poll_transfer e s hi hd]
  unfold progressMeasure
  by_cases hr : e.readOk = true
  · rw [transferStep_success e s hr]
    simp only [u32_of_lt (show s.sectors_done + numtoread s < 2 ^ 32 by omega)]
    refine ⟨hi, trivial, trivial, ?_, ?_⟩
    · have h1 : ((s.sectorcount : Int) - ((s.sectors_done + numtoread s : Nat) : Int)) + 1 ≤
          (s.sectorcount : Int) - s.sectors_done := by
        push_cast; omega
      have h2 : (0 : Int) ≤ (s.maxRetryCount : Int) + 1 := by omega
      nlinarith [mul_le_mul_of_nonneg_right h1 h2]
    · have h1 : (0 : Int) ≤ (s.sectorcount : Int) - ((s.sectors_done + numtoread s : Nat) : Int) := by
        push_cast; omega
      have h2 : (0 : Int) ≤ (s.maxRetryCount : Int) + 1 := by omega
      nlinarith [mul_nonneg h1 h2]
  · simp only [Bool.not_eq_true] at hr
    by_cases hlt : s.retrycount < (s.maxRetryCount : Int)
    · rw [transferStep_retry e s hr hlt]
      simp only
      refine ⟨hi, trivial, trivial, by omega, ?_⟩
      have h1 : (1 : Int) ≤ (s.sectorcount : Int) - s.sectors_done := by omega
      have h2 : (0 : Int) ≤ (s.maxRetryCount : Int) + 1 := by omega
      nlinarith [mul_le_mul_of_nonneg_right h1 h2]
    · rw [transferStep_skip e s hr hlt]
      simp only [u32_of_lt (show s.sectors_done + 1 < 2 ^ 32 by omega)]
      refine ⟨hi, trivial, trivial, ?_, ?_⟩
      · have h3 : s.retrycount = (s.maxRetryCount : Int) := by omega
        rw [h3]
        push_cast
        nlinarith
      · have h1 : (0 : Int) ≤ (s.sectorcount : Int) - ((s.sectors_done + 1 : Nat) : Int) := by
          push_cast; omega
        have h2 : (0 : Int) ≤ (s.maxRetryCount : Int) + 1 := by omega
        nlinarith [mul_nonneg h1 h2]

/-- A session whose measure is at most `m` is completed within `m` transfer polls. -/
theorem session_completes_within (m : Nat) (s : InitiatorState) (env : Nat → Answers)
    (hinv : Inv s) (hi : s.imaging = true) (hm : progressMeasure s ≤ m) :
    ∃ k : Nat, k ≤ m ∧
      (∀ j : Nat, j < k → (runStream env j s).imaging = true ∧
        (runStream env j s).sectors_done < s.sectorcount) ∧
      (runStream env k s).imaging = true ∧
      (runStream env k s).sectors_done = s.sectorcount ∧
      (runStream env k s).sectorcount = s.sectorcount ∧
      (runStream env (k + 1) s).imaging = false := by
  induction m generalizing s env with
  | zero =>
    have hd : ¬ s.sectors_done < s.sectorcount := by
      intro hd
      have hr1 := hinv.retry_hi
      have h1 : (1 : Int) ≤ (s.sectorcount : Int) - s.sectors_done := by omega
      have h2 : (0 : Int) ≤ (s.maxRetryCount : Int) + 1 := by omega
      unfold progressMeasure at hm
      push_cast at hm
      nlinarith [mul_le_mul_of_nonneg_right h1 h2]
    refine ⟨0, le_refl _, fun j hj => absurd hj (Nat.not_lt_zero j), hi, ?_, rfl, ?_⟩
    · exact Nat.le_antisymm hinv.done_le (Nat.le_of_not_lt hd)
    · show (poll (env 0) s).imaging = false
      rw [poll_finish (env 0) s hi (Nat.le_of_not_lt hd), finishStep_state]
  | succ m ih =>
    by_cases hd : s.sectors_done < s.sectorcount
    · obtain ⟨pi, pc, _, plt, _⟩ := transfer_poll_progress (env 0) s hinv hi hd
      obtain ⟨k, hk, hall, ki, kd, kc, kf⟩ :=
        ih (poll (env 0) s) (fun i => env (i + 1)) (inv_poll (env 0) s hinv) pi (by push_cast at hm; omega)
      refine ⟨k + 1, Nat.succ_le_succ hk, ?_, ki, by rw [← pc]; exact kd, by rw [← pc]; exact kc, kf⟩
      intro j hj
      cases j with
      | zero => exact ⟨hi, hd⟩
      | succ j =>
        have := hall j (Nat.lt_of_succ_lt_succ hj)
        rw [pc] at this
        exact this
    · refine ⟨0, Nat.zero_le _, fun j hj => absurd hj (Nat.not_lt_zero j), hi, ?_, rfl, ?_⟩
      · exact Nat.le_antisymm hinv.done_le (Nat.le_of_not_lt hd)
      · show (poll (env 0) s).imaging = false
        rw [poll_finish (env 0) s hi (Nat.le_of_not_lt hd), finishStep_state]

/-- C7: forward progress.  In a session the quantity
`(S - sectors_done) * (N + 1) - retrycount` strictly decreases on every transfer
poll and stays non-negative; and for every session with `S` sectors and
`maxRetryCount = N`, whatever the reads answer, `sectors_done` reaches `S` after
at most `S * (N + 1)` transfer polls, and the next poll completes the session. -/
theorem forward_progress (s : InitiatorState) (hr : Reachable s) (hi : s.imaging = true) :
    (∀ e : Answers, s.sectors_done < s.sectorcount →
      progressMeasure (scsiUsbBridgeMainLoop e s).1 < progressMeasure s ∧
      0 ≤ progressMeasure (scsiUsbBridgeMainLoop e s).1) ∧
    (s.sectors_done = 0 → s.retrycount = 0 → ∀ env : Nat → Answers,
      ∃ k : Nat, k ≤ s.sectorcount * (s.maxRetryCount + 1) ∧
        (∀ j : Nat, j < k → (runStream env j s).imaging = true ∧
          (runStream env j s).sectors_done < s.sectorcount) ∧
        (runStream env k s).imaging = true ∧
        (runStream env k s).sectors_done = s.sectorcount ∧
        (runStream env k s).sectorcount = s.sectorcount ∧
        (runStream env (k + 1) s).imaging = false) := by
  have hinv := inv_reachable s hr
  refine ⟨fun e hd => ?_, fun h0 hr0 env => ?_⟩
  · have := transfer_poll_progress e s hinv hi hd
    exact ⟨this.2.2.2.1, this.2.2.2.2⟩
  · apply session_completes_within _ s env hinv hi
    unfold progressMeasure
    rw [h0, hr0]
    push_cast
    simp

/-- Witness of C7: the session on `zipDrive` (2048 sectors, `maxRetryCount = 5`)
when every read fails: the measure decreases, and the session is completed
within `2048 * 6` transfer polls. -/
theorem forward_progress_witness :
    (zipSession0.imaging = true ∧ zipSession0.sectors_done = 0 ∧ zipSession0.retrycount = 0 ∧
      zipSession0.sectorcount = 2048 ∧ zipSession0.maxRetryCount = 5) ∧
    progressMeasure (scsiUsbBridgeMainLoop Answers.readFails zipSession0).1 <
      progressMeasure zipSession0 ∧
    ∃ k : Nat, k ≤ zipSession0.sectorcount * (zipSession0.maxRetryCount + 1) ∧
      (∀ j : Nat, j < k → (runStream (fun _ => Answers.readFails) j zipSession0).imaging = true ∧
        (runStream (fun _ => Answers.readFails) j zipSession0).sectors_done <
          zipSession0.sectorcount) ∧
      (runStream (fun _ => Answers.readFails) k zipSession0).imaging = true ∧
      (runStream (fun _ => Answers.readFails) k zipSession0).sectors_done =
        zipSession0.sectorcount ∧
      (runStream (fun _ => Answers.readFails) k zipSession0).sectorcount =
        zipSession0.sectorcount ∧
      (runStream (fun _ => Answers.readFails) (k + 1) zipSession0).imaging = false :=
  have h := forward_progress zipSession0 (reachable_run _ _ reachable_initDefault) (by decide)
  ⟨by decide, (h.1 Answers.readFails (by decide)).1,
    h.2 (by decide) (by decide) (fun _ => Answers.readFails)⟩

/-! ### C8, C9: the RAM disk -/

namespace USB

/-- C8: on the RAM disk, for every `lba >= DISK_BLOCK_COUNT` and every offset,
buffer and length, `Read10` and `Write10` return the error sentinel `0xFFFFFFFF`
(`-1` as `uint32_t`) and transfer nothing: `Read10` leaves the caller's buffer
unchanged and `Write10` leaves the disk, and so its backing store, unchanged. -/
theorem read_write_reject_lba_out_of_range (d : MscRamDisk) (lba offset : Nat)
    (buffer : List Nat) (buffersize : Nat) (h : lba ≥ DISK_BLOCK_COUNT) :
    d.Read10 lba offset buffer buffersize = some (0xFFFFFFFF, buffer) ∧
    d.Write10 lba offset buffer buffersize = some (0xFFFFFFFF, d) ∧
    ∀ r : Nat × MscRamDisk, d.Write10 lba offset buffer buffersize = some r →
      r.2.ram_disk_ = d.ram_disk_ := by
  have hs : ERROR_SENTINEL = 0xFFFFFFFF := by decide
  have hw : d.Write10 lba offset buffer buffersize = some (0xFFFFFFFF, d) := by
    unfold MscRamDisk.Write10
    rw [if_pos h, hs]
  refine ⟨?_, hw, ?_⟩
  · unfold MscRamDisk.Read10
    rw [if_pos h, hs]
  · intro r hr
    rw [hw] at hr
    cases hr
    rfl

/-- Witness of C8: block 16 of the 16-block disk. -/
theorem read_write_reject_lba_out_of_range_witness :
    (16 ≥ DISK_BLOCK_COUNT) ∧
    (MscRamDisk.new true).Read10 16 0 [1, 2, 3] 3 = some (0xFFFFFFFF, [1, 2, 3]) ∧
    (MscRamDisk.new true).Write10 16 0 [1, 2, 3] 3 = some (0xFFFFFFFF, MscRamDisk.new true) :=
  have h := read_write_reject_lba_out_of_range (MscRamDisk.new true) 16 0 [1, 2, 3] 3
    (by decide)
  ⟨by decide, h.1, h.2.1⟩

theorem bootSector_length : bootSector.length = 512 := by decide

theorem blockInit_length (bytes : List Nat) (h : bytes.length ≤ DISK_BLOCK_SIZE) :
    (blockInit bytes).length = DISK_BLOCK_SIZE := by
  unfold blockInit
  rw [List.length_append, List.length_replicate]
  omega

theorem readme_disk_length : readme_disk_.length = DISK_BLOCK_COUNT * DISK_BLOCK_SIZE := by
  unfold readme_disk_
  simp only [List.length_append, List.length_replicate]
  rw [blockInit_length _ (by rw [bootSector_length]; decide),
    blockInit_length _ (by decide), blockInit_length _ (by decide),
    blockInit_length _ (by decide)]
  decide

theorem blockInit_bootSector : blockInit bootSector = bootSector := by
  unfold blockInit
  rw [bootSector_length]
  simp [DISK_BLOCK_SIZE]

theorem readme_disk_block0 : (readme_disk_.drop 0).take 512 = bootSector := by
  unfold readme_disk_
  rw [blockInit_bootSector, List.drop_zero]
  simp only [List.append_assoc]
  exact List.take_left' bootSector_length

/-- C9: on a freshly constructed RAM disk, with either write policy,
`Read10(lba = 0, offset = 0, length = 512)` returns 512 and fills the first 512
bytes of the buffer with block 0 of the pre-seeded image, the boot sector, whose
bytes 510 and 511 are `0x55` and `0xAA`. -/
theorem read_boot_sector (is_writable : Bool) (buffer : List Nat)
    (hb : 512 ≤ buffer.length) :
    (MscRamDisk.new is_writable).Read10 0 0 buffer 512 =
      some (512, bootSector ++ buffer.drop 512) ∧
    bootSector.length = 512 ∧ bootSector.getD 510 0 = 0x55 ∧ bootSector.getD 511 0 = 0xAA := by
  refine ⟨?_, bootSector_length, by decide, by decide⟩
  unfold MscRamDisk.Read10 memcpyFrom
  have h0 : ¬ (0 ≥ DISK_BLOCK_COUNT) := by decide
  have hl : 0 * DISK_BLOCK_SIZE + 0 + 512 ≤ (MscRamDisk.new is_writable).ram_disk_.length := by
    show _ ≤ readme_disk_.length
    rw [readme_disk_length]
    decide
  rw [if_neg h0, if_pos ⟨hl, hb⟩]
  show some (u32 512, (readme_disk_.drop (0 * DISK_BLOCK_SIZE + 0)).take 512 ++ buffer.drop 512) = _
  have : 0 * DISK_BLOCK_SIZE + 0 = 0 := by decide
  rw [this, readme_disk_block0]
  rfl

/-- Witness of C9: a read-only RAM disk and a buffer of 512 bytes. -/
theorem read_boot_sector_witness :
    512 ≤ (List.replicate 512 0xEE).length ∧
    ((MscRamDisk.new false).Read10 0 0 (List.replicate 512 0xEE) 512 =
      some (512, bootSector ++ (List.replicate 512 0xEE).drop 512) ∧
    bootSector.length = 512 ∧ bootSector.getD 510 0 = 0x55 ∧ bootSector.getD 511 0 = 0xAA) :=
  ⟨by decide, read_boot_sector false (List.replicate 512 0xEE) (by decide)⟩

end USB

/-! ### C10: `ejectWhenDone` after a probe -/

theorem strncmpEq_cons (d : List Nat) (off c : Nat) (cs : List Nat) (n : Nat) (hc : c ≠ 0) :
    strncmpEq d off (c :: cs) (n + 1) =
      (decide (inquiryByte d off = c) && strncmpEq d (off + 1) cs n) := by
  rw [strncmpEq]
  by_cases h : inquiryByte d off = c
  · simp [h, hc]
  · simp [h]

theorem strncmpEq_zero (d : List Nat) (off : Nat) (lit : List Nat) :
    strncmpEq d off lit 0 = true := by
  rw [strncmpEq]

theorem strncmp_iomega (d : List Nat) :
    strncmpEq d 8 (cstr "IOMEGA") 6 = true ↔ inquiryBytes d 8 6 = cstr "IOMEGA" := by
  have hs : cstr "IOMEGA" = [73, 79, 77, 69, 71, 65] := by decide
  rw [hs]
  rw [strncmpEq_cons _ _ _ _ _ (by norm_num), strncmpEq_cons _ _ _ _ _ (by norm_num),
    strncmpEq_cons _ _ _ _ _ (by norm_num), strncmpEq_cons _ _ _ _ _ (by norm_num),
    strncmpEq_cons _ _ _ _ _ (by norm_num), strncmpEq_cons _ _ _ _ _ (by norm_num),
    strncmpEq_zero]
  simp [inquiryBytes, List.range_succ]

theorem strncmp_zip (d : List Nat) :
    strncmpEq d 16 (cstr "ZIP") 3 = true ↔ inquiryBytes d 16 3 = cstr "ZIP" := by
  have hs : cstr "ZIP" = [90, 73, 80] := by decide
  rw [hs]
  rw [strncmpEq_cons _ _ _ _ _ (by norm_num), strncmpEq_cons _ _ _ _ _ (by norm_num),
    strncmpEq_cons _ _ _ _ _ (by norm_num), strncmpEq_zero]
  simp [inquiryBytes, List.range_succ]

/-- C10: after a poll that probes a target, `ejectWhenDone` is true exactly when
READ CAPACITY succeeded and inquiry bytes 8..13 are `IOMEGA` and bytes 16..18 are
`ZIP`, or INQUIRY succeeded and inquiry byte 0 masked with `0x1F` is the CD-ROM
device type; otherwise it is false. -/
theorem ejectWhenDone_after_probe (s : InitiatorState) (e : Answers)
    (hi : s.imaging = false) (hp : ¬ alreadyImaged s) :
    (scsiUsbBridgeMainLoop e s).1.ejectWhenDone =
      decide ((readcapok e = true ∧ inquiryBytes e.inquiry_data 8 6 = cstr "IOMEGA" ∧
          inquiryBytes e.inquiry_data 16 3 = cstr "ZIP") ∨
        (inquiryok e = true ∧ inquiryByte e.inquiry_data 0 &&& 0x1F = DEVICE_TYPE_CD)) := by
  have hpoll : (scsiUsbBridgeMainLoop e s).1 = (scanStep e s).1 := poll_scan e s hi
  rw [hpoll, scanStep_probe e s hp]
  simp only [andThen_fst, startImaging_state, applyInquiry_state, classify_state, probe_state,
    scanReset]
  by_cases hss : startstopok e = true
  · have hd : inquiryData e = e.inquiry_data := by unfold inquiryData; rw [if_pos hss]
    rw [hd]
    by_cases hq : inquiryok e = true ∧ inquiryByte e.inquiry_data 0 &&& 0x1F = DEVICE_TYPE_CD
    · rw [if_pos hq]
      exact (decide_eq_true (Or.inr hq)).symm
    · rw [if_neg hq]
      by_cases hrc : readcapok e = true
      · rw [if_pos hrc]
        by_cases hz : (strncmpEq e.inquiry_data 8 (cstr "IOMEGA") 6 &&
            strncmpEq e.inquiry_data 16 (cstr "ZIP") 3) = true
        · rw [if_pos hz]
          rw [Bool.and_eq_true, strncmp_iomega, strncmp_zip] at hz
          exact (decide_eq_true (Or.inl ⟨hrc, hz.1, hz.2⟩)).symm
        · rw [if_neg hz]
          rw [Bool.and_eq_true, strncmp_iomega, strncmp_zip] at hz
          exact (decide_eq_false (fun h => h.elim (fun h1 => hz h1.2) hq)).symm
      · rw [if_neg hrc]
        exact (decide_eq_false (fun h => h.elim (fun h1 => hrc h1.1) hq)).symm
  · have hrc : ¬ readcapok e = true := by
      unfold readcapok; intro h; rw [Bool.and_eq_true] at h; exact hss h.1
    have hq : ¬ inquiryok e = true := by
      unfold inquiryok; intro h; rw [Bool.and_eq_true] at h; exact hss h.1
    rw [if_neg (fun h => hq h.1), if_neg hrc]
    exact (decide_eq_false (fun h => h.elim (fun h1 => hrc h1.1) (fun h2 => hq h2.1))).symm

/-- Witness of C10: at target 0, vendor `IOMEGA  ` with product `ZIP100          `
gives true, a CD-ROM drive gives true, and a drive that is neither gives false. -/
theorem ejectWhenDone_after_probe_witness :
    (initDefault.imaging = false ∧ ¬ alreadyImaged initDefault) ∧
    (scsiUsbBridgeMainLoop zipDrive initDefault).1.ejectWhenDone = true ∧
    (scsiUsbBridgeMainLoop (Answers.drive 1000 2048 cdInquiry) initDefault).1.ejectWhenDone =
      true ∧
    (scsiUsbBridgeMainLoop drive164 initDefault).1.ejectWhenDone = false :=
  ⟨by decide,
    (ejectWhenDone_after_probe initDefault zipDrive (by decide) (by decide)).trans (by decide),
    (ejectWhenDone_after_probe initDefault (Answers.drive 1000 2048 cdInquiry) (by decide)
      (by decide)).trans (by decide),
    (ejectWhenDone_after_probe initDefault drive164 (by decide) (by decide)).trans (by decide)⟩

/-! ### C11: the search for an unused file name -/

theorem digitChar_toNat (d : Nat) : (digitChar d).toNat - 48 = d % 10 := by
  have h : ∀ k : Nat, k < 10 → (Char.ofNat (48 + k)).toNat - 48 = k := by decide
  exact h (d % 10) (Nat.mod_lt d (by norm_num))

theorem decimalValue_snoc (cs : List Char) (c : Char) :
    decimalValue (cs ++ [c]) = decimalValue cs * 10 + (c.toNat - 48) := by
  unfold decimalValue
  rw [List.foldl_append]
  rfl

theorem decimalValue_decimal (fuel n : Nat) (h : n < fuel) :
    decimalValue (decimal fuel n) = n := by
  induction fuel generalizing n with
  | zero => exact absurd h (Nat.not_lt_zero n)
  | succ fuel ih =>
    rw [decimal]
    by_cases hn : n < 10
    · rw [if_pos hn]
      show 0 * 10 + ((digitChar n).toNat - 48) = n
      rw [digitChar_toNat, Nat.mod_eq_of_lt hn]
      omega
    · rw [if_neg hn, decimalValue_snoc, ih (n / 10) (by omega), digitChar_toNat]
      omega

theorem decimalValue_zeros (k : Nat) (cs : List Char) :
    decimalValue (List.replicate k '0' ++ cs) = decimalValue cs := by
  unfold decimalValue
  rw [List.foldl_append]
  congr 1
  induction k with
  | zero => rfl
  | succ k ih =>
    rw [List.replicate_succ, List.foldl_cons]
    exact ih

theorem decimalValue_fmt_03d (n : Nat) : decimalValue (fmt_03d n) = n := by
  unfold fmt_03d
  simp only [decimalValue_zeros]
  exact decimalValue_decimal (n + 1) n (Nat.lt_succ_self n)

theorem fmt_03d_injective (n m : Nat) (h : fmt_03d n = fmt_03d m) : n = m := by
  rw [← decimalValue_fmt_03d n, h, decimalValue_fmt_03d]

/-- Different sequence numbers give different file names. -/
theorem imageFilename_injective (deviceType : Nat) (target_id : Int) (n m : Nat)
    (h : imageFilename deviceType target_id n = imageFilename deviceType target_id m) :
    n = m := by
  unfold imageFilename at h
  have h1 : _ = _ := congrArg String.data h
  simp only [List.append_assoc] at h1
  have h2 := List.append_cancel_left (List.append_cancel_left (List.append_cancel_left h1))
  rw [← List.append_assoc, ← List.append_assoc (fmt_03d m)] at h2
  exact fmt_03d_injective n m (List.append_cancel_right (List.append_cancel_right h2))

/-- The loop ends at the first unused name at or after its start, when there is
one within the fuel. -/
theorem searchImageNum_spec (files : List String) (deviceType : Nat) (target_id : Int)
    (fuel start : Nat)
    (h : ∃ m, start ≤ m ∧ m < start + fuel ∧
      imageFilename deviceType target_id m ∉ files) :
    start ≤ searchImageNum files deviceType target_id fuel start ∧
    searchImageNum files deviceType target_id fuel start < start + fuel ∧
    imageFilename deviceType target_id
      (searchImageNum files deviceType target_id fuel start) ∉ files ∧
    ∀ m, start ≤ m → m < searchImageNum files deviceType target_id fuel start →
      imageFilename deviceType target_id m ∈ files := by
  induction fuel generalizing start with
  | zero =>
    obtain ⟨m, h1, h2, _⟩ := h
    omega
  | succ fuel ih =>
    rw [searchImageNum]
    by_cases hc : files.contains (imageFilename deviceType target_id start) = true
    · rw [if_pos hc]
      have hmem : imageFilename deviceType target_id start ∈ files := by
        simpa using hc
      obtain ⟨m, h1, h2, h3⟩ := h
      have hne : m ≠ start := fun he => h3 (he ▸ hmem)
      obtain ⟨r1, r2, r3, r4⟩ := ih (start + 1) ⟨m, by omega, by omega, h3⟩
      refine ⟨by omega, by omega, r3, fun k hk1 hk2 => ?_⟩
      by_cases hk : k = start
      · rw [hk]; exact hmem
      · exact r4 k (by omega) hk2
    · rw [if_neg hc]
      have hnot : imageFilename deviceType target_id start ∉ files := by
        simpa using hc
      exact ⟨le_refl _, by omega, hnot, fun k hk1 hk2 => absurd hk2 (by omega)⟩

/-- Among the sequence numbers `1 .. files.length + 1` one is unused. -/
theorem unused_name_exists (files : List String) (deviceType : Nat) (target_id : Int) :
    ∃ m, 1 ≤ m ∧ m < 1 + (files.length + 1) ∧
      imageFilename deviceType target_id m ∉ files := by
  by_contra hcon
  have hall : ∀ m, 1 ≤ m → m < 1 + (files.length + 1) →
      imageFilename deviceType target_id m ∈ files := by
    intro m h1 h2
    by_contra hm
    exact hcon ⟨m, h1, h2, hm⟩
  have hnodup : ((List.range (files.length + 1)).map
      (fun i => imageFilename deviceType target_id (i + 1))).Nodup := by
    refine List.Nodup.map ?_ (List.nodup_range _)
    intro a b hab
    have := imageFilename_injective deviceType target_id (a + 1) (b + 1) hab
    omega
  have hsub : (List.range (files.length + 1)).map
      (fun i => imageFilename deviceType target_id (i + 1)) ⊆ files := by
    intro x hx
    obtain ⟨i, hi, rfl⟩ := List.mem_map.mp hx
    have := List.mem_range.mp hi
    exact hall (i + 1) (by omega) (by omega)
  have := (List.subperm_of_subset hnodup hsub).length_le
  rw [List.length_map, List.length_range] at this
  omega

/-- With more fuel than the search needs the result is the same. -/
theorem searchImageNum_fuel (files : List String) (deviceType : Nat) (target_id : Int)
    (fuel extra start : Nat)
    (h : ∃ m, start ≤ m ∧ m < start + fuel ∧
      imageFilename deviceType target_id m ∉ files) :
    searchImageNum files deviceType target_id (fuel + extra) start =
      searchImageNum files deviceType target_id fuel start := by
  induction fuel generalizing start with
  | zero =>
    obtain ⟨m, h1, h2, _⟩ := h
    omega
  | succ fuel ih =>
    rw [show fuel + 1 + extra = (fuel + extra) + 1 by omega, searchImageNum, searchImageNum]
    by_cases hc : files.contains (imageFilename deviceType target_id start) = true
    · rw [if_pos hc, if_pos hc]
      have hmem : imageFilename deviceType target_id start ∈ files := by
        simpa using hc
      obtain ⟨m, h1, h2, h3⟩ := h
      have hne : m ≠ start := fun he => h3 (he ▸ hmem)
      exact ih (start + 1) ⟨m, by omega, by omega, h3⟩
    · rw [if_neg hc, if_neg hc]

/-- The search on the formatted characters alone (`searchImageNum`, every name
stored whole): for every list `files` it ends after at most `files.length + 1`
iterations, and a larger bound on the iterations gives the same result; the name
it ends with is not in the list, and its sequence number is the smallest `n >= 1`
whose formatted name is not in the list. The array `filename` is left out here;
see `searchImageNumBuf`. -/
theorem search_on_characters_smallest_unused (files : List String) (deviceType : Nat)
    (target_id : Int) :
    1 ≤ chosenImageNum files deviceType target_id ∧
    chosenImageNum files deviceType target_id ≤ files.length + 1 ∧
    (∀ extra : Nat,
      searchImageNum files deviceType target_id (files.length + 1 + extra) 1 =
        chosenImageNum files deviceType target_id) ∧
    imageFilename deviceType target_id (chosenImageNum files deviceType target_id) ∉ files ∧
    (∀ m : Nat, 1 ≤ m → imageFilename deviceType target_id m ∉ files →
      chosenImageNum files deviceType target_id ≤ m) ∧
    ∀ (e : Answers) (total : Nat) (s : InitiatorState), e.files = files →
      s.deviceType = deviceType → s.target_id = target_id → s.imaging = false →
      (startImaging e total s).1.imaging = true →
      (startImaging e total s).1.target_file =
        some (imageFilename deviceType target_id (chosenImageNum files deviceType target_id)) := by
  have hex := unused_name_exists files deviceType target_id
  obtain ⟨r1, r2, r3, r4⟩ := searchImageNum_spec files deviceType target_id _ 1 hex
  refine ⟨r1, by unfold chosenImageNum; omega,
    fun extra => searchImageNum_fuel files deviceType target_id _ extra 1 hex, r3, ?_, ?_⟩
  · intro m hm hfree
    by_contra hlt
    exact hfree (r4 m hm (by unfold chosenImageNum at hlt; omega))
  · intro e total s hf hdt htid hi him
    rw [startImaging_state] at him ⊢
    simp only at him ⊢
    subst hf hdt htid
    by_cases h1 : s.sectorcount > 0
    · rw [if_pos h1] at him ⊢
      by_cases h2 : u64 (e.freeClusterCount * e.bytesPerCluster) < total
      · rw [if_pos h2] at him
        exact absurd him (by simp)
      · rw [if_neg h2] at him ⊢
        by_cases h3 : e.openOk = true
        · rw [if_pos h3]
          rfl
        · rw [if_neg h3, hi] at him
          exact absurd him (by simp)
    · rw [if_neg h1, hi] at him
      exact absurd him (by simp)

/-! ### C12: the format of the file name -/

/-- The search on the characters alone, on a card holding the names with sequence
numbers 1 and 3: number 2 is chosen. -/
theorem search_on_characters_example :
    chosenImageNum ["HD0_imaged-001.hda", "HD0_imaged-003.hda"] DEVICE_TYPE_DIRECT_ACCESS 0 = 2 ∧
    imageFilename DEVICE_TYPE_DIRECT_ACCESS 0 2 = "HD0_imaged-002.hda" ∧
    imageFilename DEVICE_TYPE_DIRECT_ACCESS 0
        (chosenImageNum ["HD0_imaged-001.hda", "HD0_imaged-003.hda"] DEVICE_TYPE_DIRECT_ACCESS 0) ∉
      ["HD0_imaged-001.hda", "HD0_imaged-003.hda"] :=
  ⟨by decide, by decide,
    (search_on_characters_smallest_unused ["HD0_imaged-001.hda", "HD0_imaged-003.hda"]
      DEVICE_TYPE_DIRECT_ACCESS 0).2.2.2.1⟩

theorem fmt_03d_three_digits :
    ∀ n : Nat, n < 1000 → (fmt_03d n).length = 3 ∧ (fmt_03d n).all isDecDigit = true := by
  decide

theorem fmt_d_target :
    ∀ t : Nat, t < 8 → (fmt_d (t : Int)).length = 1 ∧ (fmt_d (t : Int)).all isDecDigit = true := by
  decide

theorem list_of_length_three {α : Type} (l : List α) (h : l.length = 3) :
    ∃ a b c, l = [a, b, c] := by
  match l, h with
  | [a, b, c], _ => exact ⟨a, b, c, rfl⟩

theorem list_of_length_one {α : Type} (l : List α) (h : l.length = 1) : ∃ a, l = [a] := by
  match l, h with
  | [a], _ => exact ⟨a, rfl⟩

/-- While the sequence number is below 1000 the name follows the grammar, with
`CD` and `iso` for the CD-ROM device type and `HD` and `hda` for every other
type. -/
theorem imageFilename_matches (deviceType t n : Nat) (ht : t < 8) (hn : n < 1000) :
    matchesImageName (t : Int) (imageFilename deviceType (t : Int) n) = true ∧
    (imageFilename deviceType (t : Int) n).toList.take 2 =
      (if deviceType = DEVICE_TYPE_CD then "CD" else "HD").toList ∧
    (imageFilename deviceType (t : Int) n).toList.drop 15 =
      (if deviceType = DEVICE_TYPE_CD then "iso" else "hda").toList := by
  obtain ⟨a, b, c, h3⟩ := list_of_length_three _ (fmt_03d_three_digits n hn).1
  obtain ⟨d, h1⟩ := list_of_length_one _ (fmt_d_target t ht).1
  have hd := (fmt_03d_three_digits n hn).2
  rw [h3] at hd
  unfold matchesImageName imageFilename
  rw [h3, h1]
  by_cases hcd : deviceType = DEVICE_TYPE_CD
  · simp only [if_pos hcd]
    simp only [List.all_cons, List.all_nil, Bool.and_true, Bool.and_eq_true] at hd
    simp [hd.1, hd.2.1, hd.2.2]
  · simp only [if_neg hcd]
    simp only [List.all_cons, List.all_nil, Bool.and_true, Bool.and_eq_true] at hd
    simp [hd.1, hd.2.1, hd.2.2]

theorem files999_mem (m : Nat) (h1 : 1 ≤ m) (h2 : m ≤ 999) :
    imageFilename DEVICE_TYPE_DIRECT_ACCESS 0 m ∈ files999 := by
  unfold files999
  refine List.mem_map.mpr ⟨m - 1, List.mem_range.mpr (by omega), ?_⟩
  rw [Nat.sub_add_cancel h1]

theorem files999_not_mem : imageFilename DEVICE_TYPE_DIRECT_ACCESS 0 1000 ∉ files999 := by
  unfold files999
  intro h
  obtain ⟨i, hi, he⟩ := List.mem_map.mp h
  have := List.mem_range.mp hi
  have := imageFilename_injective _ _ _ _ he
  omega

theorem files999_chosen : chosenImageNum files999 DEVICE_TYPE_DIRECT_ACCESS 0 = 1000 := by
  have hex := unused_name_exists files999 DEVICE_TYPE_DIRECT_ACCESS 0
  obtain ⟨r1, _, r3, r4⟩ := searchImageNum_spec files999 DEVICE_TYPE_DIRECT_ACCESS 0 _ 1 hex
  have hge : ¬ chosenImageNum files999 DEVICE_TYPE_DIRECT_ACCESS 0 ≤ 999 :=
    fun hle => r3 (files999_mem _ r1 hle)
  have hle : ¬ 1000 < chosenImageNum files999 DEVICE_TYPE_DIRECT_ACCESS 0 :=
    fun hlt => files999_not_mem (r4 1000 (by norm_num) hlt)
  omega

/-- C12 at the failing input: on a card that already holds the images with the
sequence numbers 001 .. 999 of target 0, the loop of lines 257-263 ends with
`image_num = 1000`, and the controller opens `HD0_imaged-1000.hda`, a name with
four digits that the grammar does not accept. -/
theorem four_digit_name_on_full_card :
    chosenImageNum files999 DEVICE_TYPE_DIRECT_ACCESS 0 = 1000 ∧
    imageFilename DEVICE_TYPE_DIRECT_ACCESS 0 1000 = "HD0_imaged-1000.hda" ∧
    matchesImageName 0 "HD0_imaged-1000.hda" = false ∧
    (scsiUsbBridgeMainLoop driveOnFullCard initDefault).1.imaging = true ∧
    (scsiUsbBridgeMainLoop driveOnFullCard initDefault).1.target_file =
      some "HD0_imaged-1000.hda" := by
  have hname : imageFilename DEVICE_TYPE_DIRECT_ACCESS 0 1000 = "HD0_imaged-1000.hda" := by
    decide
  have hp : (scsiUsbBridgeMainLoop driveOnFullCard initDefault).1 =
      (scanStep driveOnFullCard initDefault).1 := poll_scan _ _ (by decide)
  have hna : ¬ alreadyImaged initDefault := by decide
  refine ⟨files999_chosen, hname, by decide, ?_, ?_⟩
  · rw [hp, scanStep_probe _ _ hna]
    simp only [andThen_fst, startImaging_state]
    rw [if_pos (by decide), if_neg (by decide), if_pos (by decide)]
  · rw [hp, scanStep_probe _ _ hna]
    simp only [andThen_fst, startImaging_state]
    rw [if_pos (by decide), if_neg (by decide), if_pos (by decide)]
    have hdt : (applyInquiry driveOnFullCard (classify driveOnFullCard
        (probe driveOnFullCard (scanReset initDefault)).1).1).1.deviceType =
        DEVICE_TYPE_DIRECT_ACCESS := by decide
    have htid : (applyInquiry driveOnFullCard (classify driveOnFullCard
        (probe driveOnFullCard (scanReset initDefault)).1).1).1.target_id = 0 := by decide
    rw [hdt, htid]
    have hfiles : driveOnFullCard.files = files999 := rfl
    rw [hfiles]
    have := files999_chosen
    unfold chosenImageNum at this
    rw [this, hname]

/-! ### C13: the free-space test -/

theorem opensFile_append (as bs : List Action) :
    opensFile (as ++ bs) = (opensFile as || opensFile bs) := by
  induction as with
  | nil => rfl
  | cons a as ih => cases a <;> simp [opensFile, ih]

theorem opensFile_probe (e : Answers) (s : InitiatorState) : opensFile (probe e s).2 = false := by
  unfold probe
  simp only [opensFile_append]
  split_ifs <;> simp [opensFile]

theorem opensFile_classify (e : Answers) (s : InitiatorState) :
    opensFile (classify e s).2 = false := by
  unfold classify checkFat32Limit
  simp only [apply_ite Prod.snd, opensFile_append]
  split_ifs <;> simp [opensFile]

theorem opensFile_applyInquiry (e : Answers) (s : InitiatorState) :
    opensFile (applyInquiry e s).2 = false := by
  unfold applyInquiry
  simp only [apply_ite Prod.snd]
  split_ifs <;> simp [opensFile]

theorem opensFile_reset (b : Bool) :
    opensFile (if b = true then [Action.log LogMsg.busReset, Action.scsiHostPhyReset]
      else []) = false := by
  cases b <;> rfl

/-- The calls of a probing poll include `SD.open` exactly when the last stage
makes it. -/
theorem opensFile_probing_poll (e : Answers) (s : InitiatorState) (hi : s.imaging = false)
    (hp : ¬ alreadyImaged s) :
    opensFile (scsiUsbBridgeMainLoop e s).2 =
      opensFile (startImaging e (total_bytes e (probe e (scanReset s)).1)
        (applyInquiry e (classify e (probe e (scanReset s)).1).1).1).2 := by
  unfold scsiUsbBridgeMainLoop
  simp only [hi, Bool.not_false, if_true, opensFile_append, opensFile_reset, Bool.false_or]
  rw [scanStep_probe e s hp]
  simp only [andThen_snd, andThen_fst, opensFile_append, opensFile_probe, opensFile_classify,
    opensFile_applyInquiry, Bool.false_or]

/-- The state a probing poll leaves, stage by stage. -/
theorem probing_poll_state (e : Answers) (s : InitiatorState) (hi : s.imaging = false)
    (hp : ¬ alreadyImaged s) :
    (scsiUsbBridgeMainLoop e s).1 =
      (startImaging e (total_bytes e (probe e (scanReset s)).1)
        (applyInquiry e (classify e (probe e (scanReset s)).1).1).1).1 := by
  have h : (scsiUsbBridgeMainLoop e s).1 = (scanStep e s).1 := poll_scan e s hi
  rw [h, scanStep_probe e s hp]
  rfl

theorem u64_mul_u32 (a b : Nat) : u64 (u32 a * u32 b) = u32 a * u32 b := by
  unfold u64
  apply Nat.mod_eq_of_lt
  have ha := u32_lt a
  have hb := u32_lt b
  calc u32 a * u32 b < 2 ^ 32 * 2 ^ 32 := Nat.mul_lt_mul'' ha hb
    _ = 2 ^ 64 := by norm_num

/-- When READ CAPACITY answered and the card has fewer free bytes than
`sectorcount * sectorsize`, no file is opened and `imaging` stays false. -/
theorem free_space_checked_when_capacity_read (e : Answers) (s : InitiatorState)
    (hi : s.imaging = false) (hp : ¬ alreadyImaged s) (hrc : readcapok e = true)
    (hpos : 0 < (scsiUsbBridgeMainLoop e s).1.sectorcount)
    (hfree : u64 (e.freeClusterCount * e.bytesPerCluster) <
      (scsiUsbBridgeMainLoop e s).1.sectorcount * (scsiUsbBridgeMainLoop e s).1.sectorsize) :
    (scsiUsbBridgeMainLoop e s).1.imaging = false ∧
    opensFile (scsiUsbBridgeMainLoop e s).2 = false ∧
    (scsiUsbBridgeMainLoop e s).1.target_file = s.target_file := by
  have hss : startstopok e = true := by
    unfold readcapok at hrc; rw [Bool.and_eq_true] at hrc; exact hrc.1
  rw [opensFile_probing_poll e s hi hp]
  rw [probing_poll_state e s hi hp] at hpos hfree ⊢
  have hsc : (applyInquiry e (classify e (probe e (scanReset s)).1).1).1.sectorcount =
      if decide (u32 e.readCapacityCount * u32 e.readCapacitySize ≥ 0xFFFFFFFF) && !e.exfat
      then 0 else u32 e.readCapacityCount := by
    simp only [applyInquiry_state, classify_state, probe_state, total_bytes, if_pos hrc,
      if_pos hss, u64_mul_u32]
  have hsz : (applyInquiry e (classify e (probe e (scanReset s)).1).1).1.sectorsize =
      if decide (u32 e.readCapacityCount * u32 e.readCapacitySize ≥ 0xFFFFFFFF) && !e.exfat
      then 0 else u32 e.readCapacitySize := by
    simp only [applyInquiry_state, classify_state, probe_state, total_bytes, if_pos hrc,
      if_pos hss, u64_mul_u32]
  have htot : total_bytes e (probe e (scanReset s)).1 =
      u32 e.readCapacityCount * u32 e.readCapacitySize := by
    simp only [probe_state, total_bytes, if_pos hrc, if_pos hss, u64_mul_u32]
  have hfl : (startImaging e (total_bytes e (probe e (scanReset s)).1)
      (applyInquiry e (classify e (probe e (scanReset s)).1).1).1).1.sectorcount =
      (applyInquiry e (classify e (probe e (scanReset s)).1).1).1.sectorcount := by
    rw [startImaging_state]
  have hfz : (startImaging e (total_bytes e (probe e (scanReset s)).1)
      (applyInquiry e (classify e (probe e (scanReset s)).1).1).1).1.sectorsize =
      (applyInquiry e (classify e (probe e (scanReset s)).1).1).1.sectorsize := by
    rw [startImaging_state]
  rw [hfl] at hpos
  rw [hfl, hfz] at hfree
  have hnb : ¬ ((decide (u32 e.readCapacityCount * u32 e.readCapacitySize ≥ 0xFFFFFFFF) &&
      !e.exfat) = true) := by
    intro hb
    rw [hsc, if_pos hb] at hpos
    exact absurd hpos (Nat.lt_irrefl 0)
  rw [hsc, hsz, if_neg hnb, if_neg hnb] at hfree
  have hlt : u64 (e.freeClusterCount * e.bytesPerCluster) <
      total_bytes e (probe e (scanReset s)).1 := by rw [htot]; exact hfree
  have htf : (applyInquiry e (classify e (probe e (scanReset s)).1).1).1.target_file =
      s.target_file := by
    simp only [applyInquiry_state, classify_state, probe_state, scanReset]
  refine ⟨?_, ?_, ?_⟩
  · rw [startImaging_state]
    simp only
    rw [if_pos hpos, if_pos hlt]
  · unfold startImaging
    rw [if_pos hpos]
    simp only [if_pos hlt]
    rfl
  · rw [startImaging_state]
    simp only
    rw [if_pos hpos, if_pos hlt, htf]

/-- C13 at the failing input: the drive does not answer READ CAPACITY, so the
probe assumes 2097152 sectors of 512 bytes; the card has no free byte; yet the
image file is opened and `imaging` becomes true, because `total_bytes` is still 0
when line 250 compares it with the free bytes. -/
theorem free_space_not_checked_on_fallback :
    ¬ alreadyImaged initDefault ∧ initDefault.imaging = false ∧
    readcapok oldDriveFullCard = false ∧ startstopok oldDriveFullCard = true ∧
    (scsiUsbBridgeMainLoop oldDriveFullCard initDefault).1.sectorcount = 2097152 ∧
    (scsiUsbBridgeMainLoop oldDriveFullCard initDefault).1.sectorsize = 512 ∧
    u64 (oldDriveFullCard.freeClusterCount * oldDriveFullCard.bytesPerCluster) = 0 ∧
    total_bytes oldDriveFullCard (probe oldDriveFullCard (scanReset initDefault)).1 = 0 ∧
    opensFile (scsiUsbBridgeMainLoop oldDriveFullCard initDefault).2 = true ∧
    (scsiUsbBridgeMainLoop oldDriveFullCard initDefault).1.target_file =
      some "HD0_imaged-001.hda" ∧
    (scsiUsbBridgeMainLoop oldDriveFullCard initDefault).1.imaging = true := by
  decide

/-! ### C14: the FAT32 limit -/

/-- The capacity fields a probing poll leaves when READ CAPACITY answered. -/
theorem capacity_after_read (e : Answers) (s : InitiatorState) (hi : s.imaging = false)
    (hp : ¬ alreadyImaged s) (hrc : readcapok e = true) :
    (scsiUsbBridgeMainLoop e s).1.sectorcount =
      (if decide (u32 e.readCapacityCount * u32 e.readCapacitySize ≥ 0xFFFFFFFF) && !e.exfat
        then 0 else u32 e.readCapacityCount) ∧
    (scsiUsbBridgeMainLoop e s).1.sectorcount_all =
      (if decide (u32 e.readCapacityCount * u32 e.readCapacitySize ≥ 0xFFFFFFFF) && !e.exfat
        then 0 else u32 e.readCapacityCount) ∧
    (scsiUsbBridgeMainLoop e s).1.sectorsize =
      (if decide (u32 e.readCapacityCount * u32 e.readCapacitySize ≥ 0xFFFFFFFF) && !e.exfat
        then 0 else u32 e.readCapacitySize) := by
  have hss : startstopok e = true := by
    unfold readcapok at hrc; rw [Bool.and_eq_true] at hrc; exact hrc.1
  rw [probing_poll_state e s hi hp]
  simp only [startImaging_state, applyInquiry_state, classify_state, probe_state, total_bytes,
    if_pos hrc, if_pos hss, u64_mul_u32, and_self]

theorem imaging_needs_capacity (e : Answers) (s : InitiatorState) (hi : s.imaging = false)
    (hz : (scsiUsbBridgeMainLoop e s).1.sectorcount = 0) :
    (scsiUsbBridgeMainLoop e s).1.imaging = false := by
  by_contra hcon
  simp only [Bool.not_eq_false] at hcon
  have hpoll : (scsiUsbBridgeMainLoop e s).1 = (scanStep e s).1 := poll_scan e s hi
  rw [hpoll] at hcon hz
  have := (scanStep_imaging e s hi hcon).2
  omega

/-- What the guard of line 201 does: after a probe whose READ CAPACITY succeeded
with the values `(c, s)`, when the exact product `c * s` is at least `0xFFFFFFFF`
(4 GiB - 1 byte) and the card is not exFAT, the capacity is zeroed (`sectorcount`,
`sectorcount_all` and `sectorsize` are 0) and no session starts; in every other
case, a drive of less than `0xFFFFFFFF` bytes or a card with exFAT, `sectorcount =
sectorcount_all = c` and `sectorsize = s`. -/
theorem capacity_zeroed_at_fat32_limit (e : Answers) (s : InitiatorState)
    (hi : s.imaging = false) (hp : ¬ alreadyImaged s) (hrc : readcapok e = true) :
    (u32 e.readCapacityCount * u32 e.readCapacitySize ≥ 0xFFFFFFFF ∧ e.exfat = false →
      (scsiUsbBridgeMainLoop e s).1.sectorcount = 0 ∧
      (scsiUsbBridgeMainLoop e s).1.sectorcount_all = 0 ∧
      (scsiUsbBridgeMainLoop e s).1.sectorsize = 0 ∧
      (scsiUsbBridgeMainLoop e s).1.imaging = false) ∧
    (¬ (u32 e.readCapacityCount * u32 e.readCapacitySize ≥ 0xFFFFFFFF ∧ e.exfat = false) →
      (scsiUsbBridgeMainLoop e s).1.sectorcount = u32 e.readCapacityCount ∧
      (scsiUsbBridgeMainLoop e s).1.sectorcount_all = u32 e.readCapacityCount ∧
      (scsiUsbBridgeMainLoop e s).1.sectorsize = u32 e.readCapacitySize) := by
  obtain ⟨h1, h2, h3⟩ := capacity_after_read e s hi hp hrc
  constructor
  · intro hc
    have hb : (decide (u32 e.readCapacityCount * u32 e.readCapacitySize ≥ 0xFFFFFFFF) &&
        !e.exfat) = true := by
      rw [Bool.and_eq_true]
      exact ⟨decide_eq_true hc.1, by rw [hc.2]; rfl⟩
    rw [if_pos hb] at h1 h2 h3
    exact ⟨h1, h2, h3, imaging_needs_capacity e s hi h1⟩
  · intro hc
    have hb : ¬ (decide (u32 e.readCapacityCount * u32 e.readCapacitySize ≥ 0xFFFFFFFF) &&
        !e.exfat) = true := by
      intro hb
      rw [Bool.and_eq_true] at hb
      refine hc ⟨of_decide_eq_true hb.1, ?_⟩
      cases hx : e.exfat
      · rfl
      · rw [hx] at hb
        exact absurd hb.2 (by decide)
    rw [if_neg hb] at h1 h2 h3
    exact ⟨h1, h2, h3⟩

/-- The guard of line 201 at work: on a FAT32 card a drive of `2 ^ 23` sectors of
512 bytes (4 GiB) is zeroed, and `zipDrive` on the default exFAT card keeps its
capacity. -/
theorem capacity_zeroed_at_fat32_limit_example :
    (initDefault.imaging = false ∧ ¬ alreadyImaged initDefault) ∧
    ((scsiUsbBridgeMainLoop { Answers.drive (2 ^ 23) 512 [] with exfat := false }
        initDefault).1.sectorcount = 0 ∧
      (scsiUsbBridgeMainLoop { Answers.drive (2 ^ 23) 512 [] with exfat := false }
        initDefault).1.sectorcount_all = 0 ∧
      (scsiUsbBridgeMainLoop { Answers.drive (2 ^ 23) 512 [] with exfat := false }
        initDefault).1.sectorsize = 0 ∧
      (scsiUsbBridgeMainLoop { Answers.drive (2 ^ 23) 512 [] with exfat := false }
        initDefault).1.imaging = false) ∧
    ((scsiUsbBridgeMainLoop zipDrive initDefault).1.sectorcount = u32 2048 ∧
      (scsiUsbBridgeMainLoop zipDrive initDefault).1.sectorcount_all = u32 2048 ∧
      (scsiUsbBridgeMainLoop zipDrive initDefault).1.sectorsize = u32 512) :=
  ⟨by decide,
    (capacity_zeroed_at_fat32_limit { Answers.drive (2 ^ 23) 512 [] with exfat := false }
      initDefault (by decide) (by decide) (by decide)).1 (by decide),
    (capacity_zeroed_at_fat32_limit zipDrive initDefault (by decide) (by decide)
      (by decide)).2 (by decide)⟩

/-- Away from the one total `0xFFFFFFFF` the guard of line 201 does what a test
against 4 GiB (`2 ^ 32` bytes) does: the capacity is zeroed exactly when the
product is at least `2 ^ 32` and the card is not exFAT. -/
theorem capacity_as_claimed_off_limit (e : Answers) (s : InitiatorState)
    (hi : s.imaging = false) (hp : ¬ alreadyImaged s) (hrc : readcapok e = true)
    (hne : u32 e.readCapacityCount * u32 e.readCapacitySize ≠ 0xFFFFFFFF) :
    (u32 e.readCapacityCount * u32 e.readCapacitySize ≥ 2 ^ 32 ∧ e.exfat = false →
      (scsiUsbBridgeMainLoop e s).1.sectorcount = 0 ∧
      (scsiUsbBridgeMainLoop e s).1.sectorcount_all = 0 ∧
      (scsiUsbBridgeMainLoop e s).1.sectorsize = 0 ∧
      (scsiUsbBridgeMainLoop e s).1.imaging = false) ∧
    (¬ (u32 e.readCapacityCount * u32 e.readCapacitySize ≥ 2 ^ 32 ∧ e.exfat = false) →
      (scsiUsbBridgeMainLoop e s).1.sectorcount = u32 e.readCapacityCount ∧
      (scsiUsbBridgeMainLoop e s).1.sectorcount_all = u32 e.readCapacityCount ∧
      (scsiUsbBridgeMainLoop e s).1.sectorsize = u32 e.readCapacitySize) := by
  obtain ⟨h1, h2⟩ := capacity_zeroed_at_fat32_limit e s hi hp hrc
  constructor
  · intro hc
    exact h1 ⟨by omega, hc.2⟩
  · intro hc
    exact h2 (fun hx => hc ⟨by omega, hx.2⟩)

/-- C14: the capacity is zeroed for a drive smaller than 4 GiB. A drive of
`0xFFFFFFFF` sectors of one byte has `2 ^ 32 - 1` bytes, the largest file FAT32
holds; READ CAPACITY succeeds, the card is FAT32, and the probe leaves
`sectorcount = sectorcount_all = 0` and `sectorsize = 0` and starts no session,
where the claim says the drive keeps `sectorcount = c` and `sectorsize = s`. -/
theorem capacity_zeroed_below_4GiB :
    initDefault.imaging = false ∧ ¬ alreadyImaged initDefault ∧
    readcapok driveAtFat32Limit = true ∧ driveAtFat32Limit.exfat = false ∧
    u32 driveAtFat32Limit.readCapacityCount = 0xFFFFFFFF ∧
    u32 driveAtFat32Limit.readCapacitySize = 1 ∧
    u32 driveAtFat32Limit.readCapacityCount * u32 driveAtFat32Limit.readCapacitySize < 2 ^ 32 ∧
    (scsiUsbBridgeMainLoop driveAtFat32Limit initDefault).1.sectorcount = 0 ∧
    (scsiUsbBridgeMainLoop driveAtFat32Limit initDefault).1.sectorcount ≠
      u32 driveAtFat32Limit.readCapacityCount ∧
    (scsiUsbBridgeMainLoop driveAtFat32Limit initDefault).1.sectorsize = 0 ∧
    (scsiUsbBridgeMainLoop driveAtFat32Limit initDefault).1.sectorcount_all = 0 ∧
    (scsiUsbBridgeMainLoop driveAtFat32Limit initDefault).1.imaging = false ∧
    Action.log LogMsg.exfatNeeded ∈ (scsiUsbBridgeMainLoop driveAtFat32Limit initDefault).2 := by
  decide

/-! ### C15: the drive that does not answer READ CAPACITY -/

/-- C15: if TEST UNIT READY and START STOP UNIT succeed but READ CAPACITY fails,
then after the probe `sectorsize = 512`, `sectorcount = sectorcount_all =
2097152` and `max_sector_per_transfer = 128`, whatever values the failed READ
CAPACITY left behind; the assumed capacity is exactly `2 ^ 30` bytes. -/
theorem fallback_capacity (e : Answers) (s : InitiatorState) (hi : s.imaging = false)
    (hp : ¬ alreadyImaged s) (ht : e.testUnitReady = true) (hs : e.startStopUnit = true)
    (hrc : e.readCapacity = false) :
    (scsiUsbBridgeMainLoop e s).1.sectorsize = 512 ∧
    (scsiUsbBridgeMainLoop e s).1.sectorcount = 2097152 ∧
    (scsiUsbBridgeMainLoop e s).1.sectorcount_all = 2097152 ∧
    (scsiUsbBridgeMainLoop e s).1.max_sector_per_transfer = 128 ∧
    (scsiUsbBridgeMainLoop e s).1.sectorcount * (scsiUsbBridgeMainLoop e s).1.sectorsize =
      2 ^ 30 := by
  have hss : startstopok e = true := by unfold startstopok; rw [ht, hs]; rfl
  have hnr : ¬ readcapok e = true := by unfold readcapok; rw [hrc]; simp
  rw [probing_poll_state e s hi hp]
  simp only [startImaging_state, applyInquiry_state, classify_state, probe_state,
    if_neg hnr, if_pos hss]
  norm_num

/-- Witness of C15: a failed READ CAPACITY that left 12345 and 77 behind. -/
theorem fallback_capacity_witness :
    (initDefault.imaging = false ∧ ¬ alreadyImaged initDefault) ∧
    (scsiUsbBridgeMainLoop
      { oldDriveFullCard with readCapacityCount := 12345, readCapacitySize := 77 }
      initDefault).1.sectorsize = 512 ∧
    (scsiUsbBridgeMainLoop
      { oldDriveFullCard with readCapacityCount := 12345, readCapacitySize := 77 }
      initDefault).1.sectorcount = 2097152 ∧
    (scsiUsbBridgeMainLoop
      { oldDriveFullCard with readCapacityCount := 12345, readCapacitySize := 77 }
      initDefault).1.sectorcount_all = 2097152 ∧
    (scsiUsbBridgeMainLoop
      { oldDriveFullCard with readCapacityCount := 12345, readCapacitySize := 77 }
      initDefault).1.max_sector_per_transfer = 128 ∧
    (scsiUsbBridgeMainLoop
      { oldDriveFullCard with readCapacityCount := 12345, readCapacitySize := 77 }
      initDefault).1.sectorcount *
    (scsiUsbBridgeMainLoop
      { oldDriveFullCard with readCapacityCount := 12345, readCapacitySize := 77 }
      initDefault).1.sectorsize = 2 ^ 30 :=
  ⟨by decide,
    fallback_capacity { oldDriveFullCard with readCapacityCount := 12345, readCapacitySize := 77 }
      initDefault (by decide) (by decide) rfl rfl rfl⟩

/-! ### C16: no response -/

theorem mem_reset_actions (a : Action) (b : Bool)
    (h : a ∈ (if b = true then [Action.log LogMsg.busReset, Action.scsiHostPhyReset] else [])) :
    a = Action.log LogMsg.busReset ∨ a = Action.scsiHostPhyReset := by
  cases b
  · simp at h
  · simpa using h

/-- C16: if TEST UNIT READY fails, or it succeeds and START STOP UNIT fails, then
READ CAPACITY and INQUIRY are not issued, and after the poll `sectorcount =
sectorcount_all = 0`, `sectorsize = 0`, `imaging` is false and `drives_imaged`
is unchanged. -/
theorem no_response_zeroes_capacity (e : Answers) (s : InitiatorState)
    (hi : s.imaging = false) (hp : ¬ alreadyImaged s)
    (hf : e.testUnitReady = false ∨ (e.testUnitReady = true ∧ e.startStopUnit = false)) :
    (∀ id : Int, Action.scsiInitiatorReadCapacity id ∉ (scsiUsbBridgeMainLoop e s).2 ∧
      Action.scsiInquiry id ∉ (scsiUsbBridgeMainLoop e s).2) ∧
    (scsiUsbBridgeMainLoop e s).1.sectorcount = 0 ∧
    (scsiUsbBridgeMainLoop e s).1.sectorcount_all = 0 ∧
    (scsiUsbBridgeMainLoop e s).1.sectorsize = 0 ∧
    (scsiUsbBridgeMainLoop e s).1.imaging = false ∧
    (scsiUsbBridgeMainLoop e s).1.drives_imaged = s.drives_imaged := by
  have hss : ¬ startstopok e = true := by
    unfold startstopok
    rcases hf with h | ⟨_, h⟩ <;> rw [h] <;> simp
  have hnr : ¬ readcapok e = true := by
    unfold readcapok; intro h; rw [Bool.and_eq_true] at h; exact hss h.1
  have hnq : ¬ inquiryok e = true := by
    unfold inquiryok; intro h; rw [Bool.and_eq_true] at h; exact hss h.1
  have hst : (scsiUsbBridgeMainLoop e s).1 = _ := probing_poll_state e s hi hp
  have hzero : (scsiUsbBridgeMainLoop e s).1.sectorcount = 0 := by
    rw [hst]
    simp only [startImaging_state, applyInquiry_state, classify_state, probe_state,
      if_neg hnr, if_neg hss]
  refine ⟨?_, hzero, ?_, ?_, imaging_needs_capacity e s hi hzero, ?_⟩
  · have hacts : (scsiUsbBridgeMainLoop e s).2 =
        (if e.g_scsiHostPhyReset = true then
          [Action.log LogMsg.busReset, Action.scsiHostPhyReset] else []) ++
        ([Action.delay_with_poll 1000, Action.scsiTestUnitReady (scanReset s).target_id] ++
          (if e.testUnitReady = true then
            [Action.scsiStartStopUnit (scanReset s).target_id true] else []) ++
          [Action.log LogMsg.noResponse]) := by
      unfold scsiUsbBridgeMainLoop
      simp only [hi, Bool.not_false, if_true]
      rw [scanStep_probe e s hp]
      have h1 : (probe e (scanReset s)).2 =
          [Action.delay_with_poll 1000, Action.scsiTestUnitReady (scanReset s).target_id] ++
          (if e.testUnitReady = true then
            [Action.scsiStartStopUnit (scanReset s).target_id true] else []) := by
        unfold probe
        simp only [if_neg hss, List.append_nil]
      have h2 : ∀ t, (classify e t).2 = [Action.log LogMsg.noResponse] := by
        intro t; unfold classify; simp only [if_neg hnr, if_neg hss]
      have h3 : ∀ t, (applyInquiry e t).2 = [] := by
        intro t; unfold applyInquiry; simp only [if_neg hnq]
      have h4 : ∀ total t, t.sectorcount = 0 → (startImaging e total t).2 = [] := by
        intro total t ht; unfold startImaging; rw [ht]; simp
      have hz : (applyInquiry e (classify e (probe e (scanReset s)).1).1).1.sectorcount = 0 := by
        simp only [applyInquiry_state, classify_state, probe_state, if_neg hnr, if_neg hss]
      simp only [andThen_snd, andThen_fst, h1, h2, h3, h4 _ _ hz, List.append_nil]
    intro id
    rw [hacts]
    constructor
    · intro hm
      rcases List.mem_append.mp hm with h | h
      · rcases mem_reset_actions _ _ h with h | h <;> cases h
      · cases hb : e.testUnitReady <;> rw [hb] at h <;> simp at h
    · intro hm
      rcases List.mem_append.mp hm with h | h
      · rcases mem_reset_actions _ _ h with h | h <;> cases h
      · cases hb : e.testUnitReady <;> rw [hb] at h <;> simp at h
  · rw [hst]
    simp only [startImaging_state, applyInquiry_state, classify_state, probe_state,
      if_neg hnr, if_neg hss]
  · rw [hst]
    simp only [startImaging_state, applyInquiry_state, classify_state, probe_state,
      if_neg hnr, if_neg hss]
  · have hpoll : (scsiUsbBridgeMainLoop e s).1 = (scanStep e s).1 := poll_scan e s hi
    rw [hpoll]
    exact (scanStep_fields e s).1

/-- Witness of C16: an empty bus, and a target that answers TEST UNIT READY but
fails START STOP UNIT. -/
theorem no_response_zeroes_capacity_witness :
    (initDefault.imaging = false ∧ ¬ alreadyImaged initDefault) ∧
    (scsiUsbBridgeMainLoop Answers.silent initDefault).2 =
      [Action.delay_with_poll 1000, Action.scsiTestUnitReady 0,
       Action.log LogMsg.noResponse] ∧
    ((scsiUsbBridgeMainLoop Answers.silent initDefault).1.sectorcount = 0 ∧
      (scsiUsbBridgeMainLoop Answers.silent initDefault).1.imaging = false) ∧
    (scsiUsbBridgeMainLoop { Answers.silent with testUnitReady := true } initDefault).1.sectorcount
      = 0 ∧
    Action.scsiInquiry 0 ∉
      (scsiUsbBridgeMainLoop { Answers.silent with testUnitReady := true } initDefault).2 :=
  have h1 := no_response_zeroes_capacity Answers.silent initDefault (by decide) (by decide)
    (Or.inl rfl)
  have h2 := no_response_zeroes_capacity { Answers.silent with testUnitReady := true }
    initDefault (by decide) (by decide) (Or.inr ⟨rfl, rfl⟩)
  ⟨by decide, by decide, ⟨h1.2.1, h1.2.2.2.2.1⟩, h2.2.1, (h2.1 0).2⟩

/-! ### C17: the rotation through the target IDs -/

theorem scanning_poll_fields (e : Answers) (s : InitiatorState) (hinv : Inv s)
    (hi : s.imaging = false) :
    (scsiUsbBridgeMainLoop e s).1.target_id = (s.target_id + 1) % 8 ∧
    (scsiUsbBridgeMainLoop e s).1.sectors_done = 0 ∧
    (scsiUsbBridgeMainLoop e s).1.retrycount = 0 ∧
    (scsiUsbBridgeMainLoop e s).1.badSectorCount = 0 := by
  have hpoll : (scsiUsbBridgeMainLoop e s).1 = (scanStep e s).1 := poll_scan e s hi
  obtain ⟨_, _, _, _, f5, f6, f7, f8⟩ := scanStep_fields e s
  have h0 : 0 ≤ s.target_id + 1 := by have := hinv.target_lo; omega
  rw [hpoll]
  exact ⟨by rw [f5, Int.tmod_eq_emod h0 (by norm_num)], f6, f7, f8⟩

/-- The IDs that `n` consecutive scanning polls visit. -/
theorem targetsVisited_scanning (es : List Answers) (s : InitiatorState) (hinv : Inv s)
    (hs : scanningPolls es s) :
    targetsVisited es s =
      (List.range es.length).map (fun k : Nat => (s.target_id + 1 + (k : Int)) % 8) := by
  induction es generalizing s with
  | nil => rfl
  | cons e es ih =>
    obtain ⟨hi, hs'⟩ := hs
    have ht : (poll e s).target_id = (s.target_id + 1) % 8 :=
      (scanning_poll_fields e s hinv hi).1
    rw [targetsVisited, ih (poll e s) (inv_poll e s hinv) hs', ht, List.length_cons,
      List.range_succ_eq_map, List.map_cons, List.map_map]
    congr 1
    · simp
    · apply List.map_congr_left
      intro k _
      simp only [Function.comp_apply, Nat.succ_eq_add_one]
      push_cast
      omega

theorem eight_ids_perm (t : Int) (h1 : -1 ≤ t) (h2 : t ≤ 7) :
    List.Perm ((List.range 8).map (fun k : Nat => (t + 1 + (k : Int)) % 8)) [0, 1, 2, 3, 4, 5, 6, 7] := by
  have ht : t = -1 ∨ t = 0 ∨ t = 1 ∨ t = 2 ∨ t = 3 ∨ t = 4 ∨ t = 5 ∨ t = 6 ∨ t = 7 := by omega
  rcases ht with h | h | h | h | h | h | h | h | h <;> subst h <;> decide

/-- The calls of the first poll after `scsiUsbBridgeInit`. -/
theorem first_poll_probes_iff (a b : Int) (e : Answers) :
    Action.scsiTestUnitReady 0 ∈
        (scsiUsbBridgeMainLoop e (scsiUsbBridgeInit a b staticState)).2 ↔
      (scsiUsbBridgeInit a b staticState).initiator_id ≠ 0 := by
  have hid : (if longToU8 a > 7 then 7 else longToU8 a) ≤ 7 := by split_ifs <;> omega
  have hi : (scsiUsbBridgeInit a b staticState).imaging = false := rfl
  have hbit : alreadyImaged (scsiUsbBridgeInit a b staticState) ↔
      (scsiUsbBridgeInit a b staticState).initiator_id = 0 := by
    unfold alreadyImaged
    simp only [scsiUsbBridgeInit, staticState, scanReset]
    generalize (if longToU8 a > 7 then 7 else longToU8 a) = i at hid
    have hi8 : i = 0 ∨ i = 1 ∨ i = 2 ∨ i = 3 ∨ i = 4 ∨ i = 5 ∨ i = 6 ∨ i = 7 := by omega
    rcases hi8 with h | h | h | h | h | h | h | h <;> subst h <;> decide
  constructor
  · intro hm hz
    have hsk := scanStep_skip e _ (hbit.mpr hz)
    unfold scsiUsbBridgeMainLoop at hm
    simp only [hi, Bool.not_false, if_true, hsk, List.append_nil] at hm
    rcases mem_reset_actions _ _ hm with h | h <;> cases h
  · intro hnz
    have hp : ¬ alreadyImaged (scsiUsbBridgeInit a b staticState) := fun h => hnz (hbit.mp h)
    unfold scsiUsbBridgeMainLoop
    simp only [hi, Bool.not_false, if_true]
    rw [scanStep_probe e _ hp]
    simp only [andThen_snd]
    apply List.mem_append_right
    apply List.mem_append_left
    apply List.mem_append_left
    apply List.mem_append_left
    unfold probe
    simp only
    apply List.mem_append_left
    apply List.mem_append_left
    have : (scanReset (scsiUsbBridgeInit a b staticState)).target_id = 0 := by
      simp [scanReset, scsiUsbBridgeInit]
    rw [this]
    simp

/-- C17 (amended): every poll taken while not imaging sets `target_id` to
`(old target_id + 1) mod 8` and ends with `sectors_done = 0`, `retrycount = 0`
and `badSectorCount = 0`, whatever the outcome of the probe.  Starting from the
initial `target_id = -1` the first poll turns to ID 0, and it probes ID 0 (sends
TEST UNIT READY) exactly when 0 is not the initiator's own ID; eight consecutive
scanning polls visit every ID 0..7 once, in the order 0, 1, .., 7 after
`scsiUsbBridgeInit`. -/
theorem scan_rotates_targets (s : InitiatorState) (hr : Reachable s) :
    (∀ e : Answers, s.imaging = false →
      (scsiUsbBridgeMainLoop e s).1.target_id = (s.target_id + 1) % 8 ∧
      (scsiUsbBridgeMainLoop e s).1.sectors_done = 0 ∧
      (scsiUsbBridgeMainLoop e s).1.retrycount = 0 ∧
      (scsiUsbBridgeMainLoop e s).1.badSectorCount = 0) ∧
    (∀ (a b : Int) (e : Answers),
      (scsiUsbBridgeInit a b staticState).target_id = -1 ∧
      (scsiUsbBridgeMainLoop e (scsiUsbBridgeInit a b staticState)).1.target_id = 0 ∧
      (Action.scsiTestUnitReady 0 ∈
          (scsiUsbBridgeMainLoop e (scsiUsbBridgeInit a b staticState)).2 ↔
        (scsiUsbBridgeInit a b staticState).initiator_id ≠ 0)) ∧
    (∀ es : List Answers, es.length = 8 → scanningPolls es s →
      List.Perm (targetsVisited es s) [0, 1, 2, 3, 4, 5, 6, 7]) ∧
    (∀ (a b : Int) (es : List Answers), es.length = 8 →
      scanningPolls es (scsiUsbBridgeInit a b staticState) →
      targetsVisited es (scsiUsbBridgeInit a b staticState) = [0, 1, 2, 3, 4, 5, 6, 7]) := by
  have hinv := inv_reachable s hr
  refine ⟨fun e hi => scanning_poll_fields e s hinv hi, ?_, ?_, ?_⟩
  · intro a b e
    refine ⟨rfl, ?_, first_poll_probes_iff a b e⟩
    have := (scanning_poll_fields e _ (inv_init a b) rfl).1
    rw [this]
    rfl
  · intro es hl hs
    rw [targetsVisited_scanning es s hinv hs, hl]
    exact eight_ids_perm s.target_id hinv.target_lo hinv.target_hi
  · intro a b es hl hs
    rw [targetsVisited_scanning es _ (inv_init a b) hs, hl]
    rfl

/-- Witness of C17 (amended): eight polls of an empty bus after the default
initialisation. -/
theorem scan_rotates_targets_witness :
    (scsiUsbBridgeMainLoop Answers.silent initDefault).1.target_id = (initDefault.target_id + 1) % 8 ∧
    scanningPolls (List.replicate 8 Answers.silent) initDefault ∧
    targetsVisited (List.replicate 8 Answers.silent) initDefault = [0, 1, 2, 3, 4, 5, 6, 7] ∧
    List.Perm (targetsVisited (List.replicate 8 Answers.silent) (run [Answers.silent] initDefault))
      [0, 1, 2, 3, 4, 5, 6, 7] :=
  have h := scan_rotates_targets initDefault reachable_initDefault
  have h1 := scan_rotates_targets (run [Answers.silent] initDefault)
    (reachable_run _ _ reachable_initDefault)
  ⟨(h.1 Answers.silent (by decide)).1, by decide,
    h.2.2.2 7 5 (List.replicate 8 Answers.silent) (by decide) (by decide),
    h1.2.2.1 (List.replicate 8 Answers.silent) (by decide) (by decide)⟩

/-- Counterexample to C17 as stated: with `InitiatorID = 0` the first poll turns
to ID 0 but does not probe it; it issues no call at all. -/
theorem first_poll_skips_own_id :
    (scsiUsbBridgeInit 0 5 staticState).target_id = -1 ∧
    (scsiUsbBridgeInit 0 5 staticState).initiator_id = 0 ∧
    (scsiUsbBridgeMainLoop zipDrive (scsiUsbBridgeInit 0 5 staticState)).1.target_id = 0 ∧
    (scsiUsbBridgeMainLoop zipDrive (scsiUsbBridgeInit 0 5 staticState)).2 = [] ∧
    Action.scsiTestUnitReady 0 ∉
      (scsiUsbBridgeMainLoop zipDrive (scsiUsbBridgeInit 0 5 staticState)).2 := by
  decide

/-! ### C18: a target that is already imaged -/

/-- C18: if, at a scanning poll, the bit of the new `target_id` is set in
`drives_imaged` (the test of line 156), the target is not probed: no SCSI command
is issued, `imaging` stays false, and `sectorcount`, `sectorsize`,
`sectorcount_all`, `ansiVersion`, `deviceType` and `drives_imaged` are all
unchanged by the poll. -/
theorem imaged_target_not_probed (e : Answers) (s : InitiatorState) (hi : s.imaging = false)
    (hbit : s.drives_imaged &&& shl1 (Int.tmod (s.target_id + 1) 8) ≠ 0) :
    (∀ a ∈ (scsiUsbBridgeMainLoop e s).2, isScsiCommand a = false) ∧
    (scsiUsbBridgeMainLoop e s).1.target_id = Int.tmod (s.target_id + 1) 8 ∧
    (scsiUsbBridgeMainLoop e s).1.imaging = false ∧
    (scsiUsbBridgeMainLoop e s).1.sectorcount = s.sectorcount ∧
    (scsiUsbBridgeMainLoop e s).1.sectorsize = s.sectorsize ∧
    (scsiUsbBridgeMainLoop e s).1.sectorcount_all = s.sectorcount_all ∧
    (scsiUsbBridgeMainLoop e s).1.ansiVersion = s.ansiVersion ∧
    (scsiUsbBridgeMainLoop e s).1.deviceType = s.deviceType ∧
    (scsiUsbBridgeMainLoop e s).1.drives_imaged = s.drives_imaged := by
  have ha : alreadyImaged s := hbit
  have hsk := scanStep_skip e s ha
  have hst : (scsiUsbBridgeMainLoop e s).1 = scanReset s := by
    have hpoll : (scsiUsbBridgeMainLoop e s).1 = (scanStep e s).1 := poll_scan e s hi
    rw [hpoll, hsk]
  have hacts : (scsiUsbBridgeMainLoop e s).2 =
      (if e.g_scsiHostPhyReset = true then
        [Action.log LogMsg.busReset, Action.scsiHostPhyReset] else []) := by
    unfold scsiUsbBridgeMainLoop
    simp only [hi, Bool.not_false, if_true, hsk, List.append_nil]
  refine ⟨?_, ?_⟩
  · intro a hm
    rw [hacts] at hm
    rcases mem_reset_actions _ _ hm with h | h <;> rw [h] <;> rfl
  · rw [hst]
    exact ⟨rfl, hi, rfl, rfl, rfl, rfl, rfl, rfl⟩

/-- Witness of C18: after the default initialisation and seven polls of an empty
bus the next target is 7, the initiator's own ID. -/
theorem imaged_target_not_probed_witness :
    ((run (List.replicate 7 Answers.silent) initDefault).imaging = false ∧
      (run (List.replicate 7 Answers.silent) initDefault).target_id = 6 ∧
      (run (List.replicate 7 Answers.silent) initDefault).drives_imaged = 128) ∧
    (scsiUsbBridgeMainLoop zipDrive (run (List.replicate 7 Answers.silent) initDefault)).2 = [] ∧
    (scsiUsbBridgeMainLoop zipDrive
      (run (List.replicate 7 Answers.silent) initDefault)).1.target_id = 7 ∧
    (scsiUsbBridgeMainLoop zipDrive
      (run (List.replicate 7 Answers.silent) initDefault)).1.imaging = false ∧
    (scsiUsbBridgeMainLoop zipDrive
      (run (List.replicate 7 Answers.silent) initDefault)).1.drives_imaged = 128 :=
  have h := imaged_target_not_probed zipDrive (run (List.replicate 7 Answers.silent) initDefault)
    (by decide) (by decide)
  ⟨by decide, by decide, h.2.1.trans (by decide), h.2.2.1, h.2.2.2.2.2.2.2.2.trans (by decide)⟩

/-! ### C19: one batch of the transfer -/

/-- C19: for every poll taken while imaging with `sectors_done < sectorcount`,
exactly one read is issued, at start sector `sectors_done` for `b` sectors, where
`b = 1` if `sectors_done < failposition` and
`b = min(sectorcount - sectors_done, max_sector_per_transfer)` otherwise; `b` is
between 1 and the remaining sector count; and when the read succeeds
`sectors_done` increases by exactly `b` and `retrycount` becomes 0, with
`failposition` and `badSectorCount` unchanged. -/
theorem transfer_batch (e : Answers) (s : InitiatorState) (hr : Reachable s)
    (hi : s.imaging = true) (hd : s.sectors_done < s.sectorcount) :
    numtoread s =
      (if s.sectors_done < s.failposition then 1
        else min (s.sectorcount - s.sectors_done) s.max_sector_per_transfer) ∧
    readsIssued (scsiUsbBridgeMainLoop e s).2 = [(s.sectors_done, numtoread s)] ∧
    Action.scsiInitiatorReadDataToFile s.target_id s.sectors_done (numtoread s) s.sectorsize ∈
      (scsiUsbBridgeMainLoop e s).2 ∧
    1 ≤ numtoread s ∧ numtoread s ≤ s.sectorcount - s.sectors_done ∧
    (e.readOk = true →
      (scsiUsbBridgeMainLoop e s).1.sectors_done = s.sectors_done + numtoread s ∧
      (scsiUsbBridgeMainLoop e s).1.retrycount = 0 ∧
      (scsiUsbBridgeMainLoop e s).1.failposition = s.failposition ∧
      (scsiUsbBridgeMainLoop e s).1.badSectorCount = s.badSectorCount) := by
  have hinv := inv_reachable s hr
  have hc := hinv.count_lt
  have hle := numtoread_le s hc hd
  have hpos := numtoread_pos s hc hd hinv.batch_pos
  refine ⟨?_, transfer_reads e s hi hd, ?_, hpos, hle, ?_⟩
  · by_cases hf : s.sectors_done < s.failposition
    · rw [if_pos hf, numtoread_degraded s hf]
    · rw [if_neg hf, numtoread_normal s hc (Nat.le_of_lt hd) hf]
  · unfold scsiUsbBridgeMainLoop
    simp only [hi, Bool.not_true, Bool.false_eq_true, if_false, if_neg (Nat.not_le.mpr hd)]
    apply List.mem_append_right
    unfold transferStep
    simp only
    split_ifs <;> simp
  · intro hok
    have hp : (scsiUsbBridgeMainLoop e s).1 = (transferStep e s).1 := poll_transfer e s hi hd
    rw [hp, transferStep_success e s hok]
    refine ⟨?_, rfl, rfl, rfl⟩
    show u32 (s.sectors_done + numtoread s) = s.sectors_done + numtoread s
    exact u32_of_lt (by omega)

/-- Witness of C19: the first batch of the session on `zipDrive` reads 512
sectors from sector 0. -/
theorem transfer_batch_witness :
    (zipSession0.imaging = true ∧ zipSession0.sectors_done < zipSession0.sectorcount) ∧
    numtoread zipSession0 = 512 ∧
    readsIssued (scsiUsbBridgeMainLoop Answers.silent zipSession0).2 =
      [(zipSession0.sectors_done, numtoread zipSession0)] ∧
    (scsiUsbBridgeMainLoop Answers.silent zipSession0).1.sectors_done =
      zipSession0.sectors_done + numtoread zipSession0 ∧
    (scsiUsbBridgeMainLoop Answers.silent zipSession0).1.retrycount = 0 :=
  have h := transfer_batch Answers.silent zipSession0 (reachable_run _ _ reachable_initDefault)
    (by decide) (by decide)
  ⟨by decide, by decide, h.2.1, (h.2.2.2.2.2 rfl).1, (h.2.2.2.2.2 rfl).2.1⟩

/-! ### C20: the configured initiator ID -/

/-- What `scsiUsbBridgeInit` makes of the configured `InitiatorID`: the value is
first reduced modulo 256 by the store into the `uint8_t` field, and only then
compared with 7. -/
theorem initiator_id_after_init (a b : Int) :
    (scsiUsbBridgeInit a b staticState).initiator_id =
      (if (a % 256).toNat > 7 then 7 else (a % 256).toNat) ∧
    (0 ≤ a → a ≤ 7 → ((scsiUsbBridgeInit a b staticState).initiator_id : Int) = a) ∧
    (8 ≤ a → a ≤ 255 → (scsiUsbBridgeInit a b staticState).initiator_id = 7) ∧
    (-248 ≤ a → a < 0 → (scsiUsbBridgeInit a b staticState).initiator_id = 7) := by
  have h : (scsiUsbBridgeInit a b staticState).initiator_id =
      (if (a % 256).toNat > 7 then 7 else (a % 256).toNat) := rfl
  refine ⟨h, ?_, ?_, ?_⟩
  · intro h0 h7
    rw [h]
    split_ifs <;> omega
  · intro h8 h255
    rw [h]
    split_ifs <;> omega
  · intro hlo hneg
    rw [h]
    split_ifs <;> omega

/-- C20 at the failing input: `InitiatorID = 256` lies outside 0..7, but the
store into the `uint8_t` field turns it into 0 before the test `> 7`, so
`initiator_id` becomes 0, not 7, and bit 0 is the one marked in `drives_imaged`;
likewise 257 gives 1 and -256 gives 0. -/
theorem initiator_id_wraps_before_clamp :
    (scsiUsbBridgeInit 256 5 staticState).initiator_id = 0 ∧
    (scsiUsbBridgeInit 256 5 staticState).initiator_id ≠ 7 ∧
    (scsiUsbBridgeInit 256 5 staticState).drives_imaged = 1 ∧
    (scsiUsbBridgeInit 257 5 staticState).initiator_id = 1 ∧
    (scsiUsbBridgeInit (-256) 5 staticState).initiator_id = 0 ∧
    (scsiUsbBridgeInit 8 5 staticState).initiator_id = 7 ∧
    (scsiUsbBridgeInit (-1) 5 staticState).initiator_id = 7 := by
  decide

/-! ### C21: the state after `scsiUsbBridgeInit` -/

theorem init_id_le (a : Int) : (if longToU8 a > 7 then 7 else longToU8 a) ≤ 7 := by
  split_ifs <;> omega

theorem u32_shl1_small (i : Nat) (h : i ≤ 7) : u32 (shl1 (i : Int)) = 2 ^ i := by
  unfold shl1
  rw [Int.toNat_ofNat, Nat.one_shiftLeft]
  apply u32_of_lt
  exact Nat.pow_lt_pow_right (by norm_num) (by omega)

/-- C21: after `scsiUsbBridgeInit`, whatever the configuration and the state
before, the controller is scanning (`imaging = false`) with `target_id = -1`;
`drives_imaged` is `1 << initiator_id`, so exactly one bit is set, the bit of the
initiator's own ID; `sectorcount`, `sectorsize`, `sectors_done`, `retrycount`,
`failposition` and `badSectorCount` are 0, `max_sector_per_transfer = 512` and
`ejectWhenDone = false`. -/
theorem state_after_init (a b : Int) (s : InitiatorState) :
    (scsiUsbBridgeInit a b s).imaging = false ∧
    (scsiUsbBridgeInit a b s).target_id = -1 ∧
    (scsiUsbBridgeInit a b s).initiator_id ≤ 7 ∧
    (scsiUsbBridgeInit a b s).drives_imaged = 2 ^ (scsiUsbBridgeInit a b s).initiator_id ∧
    (∀ i : Nat, (scsiUsbBridgeInit a b s).drives_imaged.testBit i =
      decide (i = (scsiUsbBridgeInit a b s).initiator_id)) ∧
    (scsiUsbBridgeInit a b s).sectorcount = 0 ∧
    (scsiUsbBridgeInit a b s).sectorsize = 0 ∧
    (scsiUsbBridgeInit a b s).sectors_done = 0 ∧
    (scsiUsbBridgeInit a b s).retrycount = 0 ∧
    (scsiUsbBridgeInit a b s).failposition = 0 ∧
    (scsiUsbBridgeInit a b s).badSectorCount = 0 ∧
    (scsiUsbBridgeInit a b s).max_sector_per_transfer = 512 ∧
    (scsiUsbBridgeInit a b s).ejectWhenDone = false := by
  have hid := init_id_le a
  have hd : (scsiUsbBridgeInit a b s).drives_imaged =
      2 ^ (scsiUsbBridgeInit a b s).initiator_id := u32_shl1_small _ hid
  refine ⟨rfl, rfl, hid, hd, ?_, rfl, rfl, rfl, rfl, rfl, rfl, rfl, rfl⟩
  intro i
  rw [hd, Nat.testBit_two_pow]
  exact decide_eq_decide.mpr ⟨fun h => h.symm, fun h => h.symm⟩

/-- Witness of C21: the defaults `InitiatorID = 7` and `InitiatorMaxRetry = 5`. -/
theorem state_after_init_witness :
    initDefault.imaging = false ∧ initDefault.target_id = -1 ∧ initDefault.initiator_id = 7 ∧
    initDefault.drives_imaged = 2 ^ initDefault.initiator_id ∧ initDefault.drives_imaged = 128 :=
  have h := state_after_init 7 5 staticState
  ⟨h.1, h.2.1, by decide, h.2.2.2.1, by decide⟩

/-! ### C22: the bus reset at the top of a poll -/

/-- C22: for every state and every set of answers, the state after a poll is the
same whether or not `g_scsiHostPhyReset` was set at the top of the poll; the flag
only adds the log line and the call of `scsiHostPhyReset` in front of the calls
of the poll.  So the bus reset changes neither `drives_imaged` nor any field of
the session in progress. -/
theorem bus_reset_keeps_state (e : Answers) (s : InitiatorState) :
    (scsiUsbBridgeMainLoop (e.withReset true) s).1 =
      (scsiUsbBridgeMainLoop (e.withReset false) s).1 ∧
    (scsiUsbBridgeMainLoop (e.withReset true) s).2 =
      [Action.log LogMsg.busReset, Action.scsiHostPhyReset] ++
        (scsiUsbBridgeMainLoop (e.withReset false) s).2 ∧
    (scsiUsbBridgeMainLoop (e.withReset true) s).1.drives_imaged =
      (scsiUsbBridgeMainLoop (e.withReset false) s).1.drives_imaged ∧
    (scsiUsbBridgeMainLoop (e.withReset true) s).1.imaging =
      (scsiUsbBridgeMainLoop (e.withReset false) s).1.imaging ∧
    (scsiUsbBridgeMainLoop (e.withReset true) s).1.target_id =
      (scsiUsbBridgeMainLoop (e.withReset false) s).1.target_id ∧
    (scsiUsbBridgeMainLoop (e.withReset true) s).1.sectors_done =
      (scsiUsbBridgeMainLoop (e.withReset false) s).1.sectors_done ∧
    (scsiUsbBridgeMainLoop (e.withReset true) s).1.retrycount =
      (scsiUsbBridgeMainLoop (e.withReset false) s).1.retrycount ∧
    (scsiUsbBridgeMainLoop (e.withReset true) s).1.failposition =
      (scsiUsbBridgeMainLoop (e.withReset false) s).1.failposition ∧
    (scsiUsbBridgeMainLoop (e.withReset true) s).1.badSectorCount =
      (scsiUsbBridgeMainLoop (e.withReset false) s).1.badSectorCount := by
  have hs : (scsiUsbBridgeMainLoop (e.withReset true) s).1 =
      (scsiUsbBridgeMainLoop (e.withReset false) s).1 := rfl
  refine ⟨hs, rfl, ?_, ?_, ?_, ?_, ?_, ?_, ?_⟩ <;> rw [hs]

/-- Witness of C22: the session on `zipDrive`, polled with and without the flag. -/
theorem bus_reset_keeps_state_witness :
    (scsiUsbBridgeMainLoop (Answers.silent.withReset true) zipSession0).1 =
      (scsiUsbBridgeMainLoop (Answers.silent.withReset false) zipSession0).1 ∧
    (scsiUsbBridgeMainLoop (Answers.silent.withReset true) zipSession0).1.sectors_done = 512 :=
  ⟨(bus_reset_keeps_state Answers.silent zipSession0).1, by decide⟩

/-! ### C23: the status queries of the RAM disk -/

namespace USB

/-- C23: on the RAM disk, `TestUnitReady`, `RequestSense` and `StartStopUnit`
(for every `power_condition`, `start` and `load_eject`) return `eGood` and store
`eNoSense` through a sense pointer that is not null; `ReadCapacity` returns
`eGood` with sector count `DISK_BLOCK_COUNT`, sector size `DISK_BLOCK_SIZE` and
sense `eNoSense`; none of these calls changes the disk, and with a null sense
pointer nothing is stored. -/
theorem status_queries_report_no_sense (d : MscRamDisk) (sense_key : Option sense_key_type)
    (power_condition : Nat) (start load_eject : Bool) :
    ((d.TestUnitReady sense_key).status = status_byte_t.eGood ∧
      (d.RequestSense sense_key).status = status_byte_t.eGood ∧
      (d.StartStopUnit power_condition start load_eject sense_key).status =
        status_byte_t.eGood ∧
      (d.ReadCapacity sense_key).status = status_byte_t.eGood) ∧
    ((d.ReadCapacity sense_key).sectorcount = DISK_BLOCK_COUNT ∧
      (d.ReadCapacity sense_key).sectorsize = DISK_BLOCK_SIZE) ∧
    (∀ old : sense_key_type, sense_key = some old →
      (d.TestUnitReady sense_key).sense_key = some sense_key_type.eNoSense ∧
      (d.RequestSense sense_key).sense_key = some sense_key_type.eNoSense ∧
      (d.StartStopUnit power_condition start load_eject sense_key).sense_key =
        some sense_key_type.eNoSense ∧
      (d.ReadCapacity sense_key).sense_key = some sense_key_type.eNoSense) ∧
    (sense_key = none →
      (d.TestUnitReady sense_key).sense_key = none ∧
      (d.RequestSense sense_key).sense_key = none ∧
      (d.StartStopUnit power_condition start load_eject sense_key).sense_key = none ∧
      (d.ReadCapacity sense_key).sense_key = none) ∧
    ((d.TestUnitReady sense_key).disk = d ∧ (d.RequestSense sense_key).disk = d ∧
      (d.StartStopUnit power_condition start load_eject sense_key).disk = d ∧
      (d.ReadCapacity sense_key).disk = d) := by
  refine ⟨⟨rfl, rfl, rfl, rfl⟩, ⟨rfl, rfl⟩, ?_, ?_, ⟨rfl, rfl, rfl, rfl⟩⟩
  · intro old h
    subst h
    exact ⟨rfl, rfl, rfl, rfl⟩
  · intro h
    subst h
    exact ⟨rfl, rfl, rfl, rfl⟩

/-- Witness of C23: a read-only RAM disk, asked with a sense variable that holds
`eMediumError` and with a null pointer. -/
theorem status_queries_report_no_sense_witness :
    ((MscRamDisk.new false).StartStopUnit 3 false true
      (some sense_key_type.eMediumError)).sense_key = some sense_key_type.eNoSense ∧
    ((MscRamDisk.new false).ReadCapacity (some sense_key_type.eMediumError)).sense_key =
      some sense_key_type.eNoSense ∧
    ((MscRamDisk.new false).ReadCapacity none).sectorcount = 16 ∧
    ((MscRamDisk.new false).ReadCapacity none).sectorsize = 512 ∧
    ((MscRamDisk.new false).TestUnitReady none).sense_key = none :=
  have h := status_queries_report_no_sense (MscRamDisk.new false)
    (some sense_key_type.eMediumError) 3 false true
  have h0 := status_queries_report_no_sense (MscRamDisk.new false) none 3 false true
  ⟨(h.2.2.1 _ rfl).2.2.1, (h.2.2.1 _ rfl).2.2.2, h0.2.1.1, h0.2.1.2, (h0.2.2.2.1 rfl).1⟩

end USB

/-! ### C24: switching to the next CD image -/

/-- C24: for a CD-ROM image set with more than one configured image and a valid
`current_index`, `cdromSwitchNextImage` moves `current_index` to
`(current_index + 1) mod (number of images)`; the new index is within bounds,
whatever the old one was; and the images and the ejected flag are kept. -/
theorem switch_next_image_wraps (img : CDImageSet) (hn : 1 < img.images.length) :
    (cdromSwitchNextImage img).1 = true ∧
    (cdromSwitchNextImage img).2.current_index < img.images.length ∧
    (img.current_index < img.images.length →
      (cdromSwitchNextImage img).2.current_index =
        (img.current_index + 1) % img.images.length) ∧
    (cdromSwitchNextImage img).2.images = img.images ∧
    (cdromSwitchNextImage img).2.ejected = img.ejected := by
  unfold cdromSwitchNextImage
  rw [if_pos hn]
  refine ⟨rfl, ?_, ?_, rfl, rfl⟩
  · show (if img.current_index + 1 < img.images.length then img.current_index + 1 else 0) < _
    split_ifs <;> omega
  · intro hlt
    show (if img.current_index + 1 < img.images.length then img.current_index + 1 else 0) = _
    split_ifs with h
    · exact (Nat.mod_eq_of_lt h).symm
    · have : img.current_index + 1 = img.images.length := by omega
      rw [this, Nat.mod_self]

/-- Witness of C24: three images and `current_index = 2` wrap to 0. -/
theorem switch_next_image_wraps_witness :
    1 < (CDImageSet.mk ["a.iso", "b.iso", "c.iso"] 2 false).images.length ∧
    (cdromSwitchNextImage (CDImageSet.mk ["a.iso", "b.iso", "c.iso"] 2 false)).2.current_index =
      0 :=
  ⟨by decide,
    ((switch_next_image_wraps (CDImageSet.mk ["a.iso", "b.iso", "c.iso"] 2 false)
      (by decide)).2.2.1 (by decide)).trans (by decide)⟩

/-! ### C25: `retrycount` -/

/-- C25: in every state reachable from `scsiUsbBridgeInit`,
`0 <= retrycount <= maxRetryCount`. -/
theorem retrycount_in_range (s : InitiatorState) (h : Reachable s) :
    0 ≤ s.retrycount ∧ s.retrycount ≤ (s.maxRetryCount : Int) :=
  ⟨(inv_reachable s h).retry_lo, (inv_reachable s h).retry_hi⟩

/-- Witness of C25: the session on `zipDrive` after five failed reads, at the
retry limit. -/
theorem retrycount_in_range_witness :
    (run (List.replicate 5 Answers.readFails) zipSession0).retrycount = 5 ∧
    (run (List.replicate 5 Answers.readFails) zipSession0).maxRetryCount = 5 ∧
    0 ≤ (run (List.replicate 5 Answers.readFails) zipSession0).retrycount ∧
    (run (List.replicate 5 Answers.readFails) zipSession0).retrycount ≤
      ((run (List.replicate 5 Answers.readFails) zipSession0).maxRetryCount : Int) :=
  have h := retrycount_in_range (run (List.replicate 5 Answers.readFails) zipSession0)
    (reachable_run _ _ (reachable_run _ _ reachable_initDefault))
  ⟨by decide, by decide, h.1, h.2⟩

/-! ### C26: `failposition` -/

/-- What one poll does to `failposition`: it is left unchanged, or it is set to
the end of the batch that just failed, which lies beyond `sectors_done`. -/
theorem failposition_step (e : Answers) (s : InitiatorState) (hinv : Inv s) :
    (poll e s).failposition = s.failposition ∨
    (s.imaging = true ∧ e.readOk = false ∧ 1 < numtoread s ∧
      (poll e s).failposition = s.sectors_done + numtoread s ∧
      (poll e s).sectors_done = s.sectors_done ∧
      (poll e s).sectors_done < (poll e s).failposition) := by
  by_cases hi : s.imaging = true
  · by_cases hd : s.sectors_done < s.sectorcount
    · rw [poll_transfer e s hi hd]
      by_cases hr : e.readOk = true
      · rw [transferStep_success e s hr]
        exact Or.inl rfl
      · simp only [Bool.not_eq_true] at hr
        by_cases hlt : s.retrycount < (s.maxRetryCount : Int)
        · rw [transferStep_retry e s hr hlt]
          by_cases hm : s.retrycount + 1 > 1 ∧ numtoread s > 1
          · right
            have hn := numtoread_le s hinv.count_lt hd
            have hc := hinv.count_lt
            simp only [if_pos hm]
            rw [u32_of_lt (by omega)]
            exact ⟨hi, hr, hm.2, rfl, trivial, by omega⟩
          · left
            simp only [if_neg hm]
        · rw [transferStep_skip e s hr hlt]
          exact Or.inl rfl
    · rw [poll_finish e s hi (Nat.le_of_not_lt hd), finishStep_state]
      exact Or.inl rfl
  · simp only [Bool.not_eq_true] at hi
    rw [poll_scan e s hi]
    exact Or.inl (scanStep_fields e s).2.2.2.1

/-- What a poll of a session does to `failposition`: it is changed exactly by a
read that fails with `1 <= retrycount < maxRetryCount` on a batch of more than one
sector. -/
theorem failposition_session_poll (e : Answers) (s : InitiatorState) (hinv : Inv s)
    (hi : s.imaging = true) :
    (s.sectors_done < s.sectorcount ∧ e.readOk = false ∧ 1 ≤ s.retrycount ∧
        s.retrycount < (s.maxRetryCount : Int) ∧ 1 < numtoread s →
      (poll e s).failposition = s.sectors_done + numtoread s ∧
      (poll e s).sectors_done = s.sectors_done ∧
      (poll e s).sectors_done < (poll e s).failposition ∧
      s.failposition ≤ s.sectors_done) ∧
    (¬ (s.sectors_done < s.sectorcount ∧ e.readOk = false ∧ 1 ≤ s.retrycount ∧
        s.retrycount < (s.maxRetryCount : Int) ∧ 1 < numtoread s) →
      (poll e s).failposition = s.failposition) := by
  constructor
  · rintro ⟨hd, hr, h1, hlt, hn1⟩
    have hn := numtoread_le s hinv.count_lt hd
    have hc := hinv.count_lt
    have hdeg : s.failposition ≤ s.sectors_done := by
      by_contra hcon
      have := numtoread_degraded s (by omega)
      omega
    rw [poll_transfer e s hi hd, transferStep_retry e s hr hlt]
    have hm : s.retrycount + 1 > 1 ∧ numtoread s > 1 := ⟨by omega, hn1⟩
    simp only [if_pos hm]
    rw [u32_of_lt (by omega)]
    exact ⟨rfl, trivial, by omega, hdeg⟩
  · intro hnot
    by_cases hd : s.sectors_done < s.sectorcount
    · rw [poll_transfer e s hi hd]
      by_cases hr : e.readOk = true
      · rw [transferStep_success e s hr]
      · simp only [Bool.not_eq_true] at hr
        by_cases hlt : s.retrycount < (s.maxRetryCount : Int)
        · rw [transferStep_retry e s hr hlt]
          have hm : ¬ (s.retrycount + 1 > 1 ∧ numtoread s > 1) := by
            intro hm
            exact hnot ⟨hd, hr, by omega, hlt, hm.2⟩
          simp only [if_neg hm]
        · rw [transferStep_skip e s hr hlt]
    · rw [poll_finish e s hi (Nat.le_of_not_lt hd), finishStep_state]

/-- C26 (amended): `failposition` is 0 after `scsiUsbBridgeInit`. In every
reachable state with a session open, a poll changes `failposition` exactly when
the read of a batch of more than one sector fails with
`1 <= retrycount < maxRetryCount` (the second or a later consecutive failure,
with a retry left): it was at most `sectors_done`, and it is set to
`sectors_done + batch`, strictly greater than `sectors_done`, which the poll
leaves as it is. Every other poll of the session leaves `failposition` unchanged;
it is not set back to 0 when `sectors_done` reaches it. -/
theorem failposition_set_on_repeated_failure (s : InitiatorState) (hr : Reachable s)
    (hi : s.imaging = true) :
    (∀ a b : Int, (scsiUsbBridgeInit a b staticState).failposition = 0) ∧
    ∀ e : Answers,
      (s.sectors_done < s.sectorcount ∧ e.readOk = false ∧ 1 ≤ s.retrycount ∧
          s.retrycount < (s.maxRetryCount : Int) ∧ 1 < numtoread s →
        (scsiUsbBridgeMainLoop e s).1.failposition = s.sectors_done + numtoread s ∧
        (scsiUsbBridgeMainLoop e s).1.sectors_done = s.sectors_done ∧
        (scsiUsbBridgeMainLoop e s).1.sectors_done <
          (scsiUsbBridgeMainLoop e s).1.failposition ∧
        s.failposition ≤ s.sectors_done) ∧
      (¬ (s.sectors_done < s.sectorcount ∧ e.readOk = false ∧ 1 ≤ s.retrycount ∧
          s.retrycount < (s.maxRetryCount : Int) ∧ 1 < numtoread s) →
        (scsiUsbBridgeMainLoop e s).1.failposition = s.failposition) :=
  ⟨fun _ _ => rfl, fun e => failposition_session_poll e s (inv_reachable s hr) hi⟩

/-- Witness of C26 (amended): in the session on `zipDrive` the first failure of
the first batch leaves `failposition = 0`, the second failure sets it to 512, and
a successful read after that leaves it at 512. -/
theorem failposition_set_on_repeated_failure_witness :
    (run [Answers.readFails] zipSession0).imaging = true ∧
    (run [Answers.readFails] zipSession0).retrycount = 1 ∧
    (run [Answers.readFails] zipSession0).failposition = 0 ∧
    zipSession0.retrycount = 0 ∧
    (scsiUsbBridgeMainLoop Answers.readFails zipSession0).1.failposition =
      zipSession0.failposition ∧
    (scsiUsbBridgeMainLoop Answers.readFails
        (run [Answers.readFails] zipSession0)).1.failposition =
      (run [Answers.readFails] zipSession0).sectors_done +
        numtoread (run [Answers.readFails] zipSession0) ∧
    (run [Answers.readFails] zipSession0).sectors_done +
      numtoread (run [Answers.readFails] zipSession0) = 512 ∧
    (scsiUsbBridgeMainLoop Answers.silent
        (run [Answers.readFails, Answers.readFails] zipSession0)).1.failposition = 512 :=
  have h := failposition_set_on_repeated_failure (run [Answers.readFails] zipSession0)
    (reachable_run _ _ (reachable_run _ _ reachable_initDefault)) (by decide)
  have h0 := failposition_set_on_repeated_failure zipSession0
    (reachable_run _ _ reachable_initDefault) (by decide)
  ⟨by decide, by decide, by decide, by decide,
    (h0.2 Answers.readFails).2 (by decide),
    ((h.2 Answers.readFails).1 (by decide)).1, by decide, by decide⟩

/-- Counterexample to C26 as stated: once the two sectors of `drive2` have been
read one by one after a double failure, the session is still open and
`failposition = 2` is neither 0 nor greater than `sectors_done = 2`. -/
theorem failposition_passed_counterexample :
    Reachable passedFailposition ∧ passedFailposition.imaging = true ∧
    passedFailposition.failposition = 2 ∧ passedFailposition.sectors_done = 2 ∧
    ¬ (passedFailposition.failposition = 0 ∨
      passedFailposition.sectors_done < passedFailposition.failposition) :=
  ⟨reachable_run _ _ reachable_initDefault, by decide, by decide, by decide, by decide⟩

/-! ### C27: a poll with the bus-reset flag set -/

/-- C27 (amended): if the bus-reset flag is observed at the top of a poll taken
while a session is imaging with sectors left, the poll executes the bus reset and
then the transfer step as usual: the calls are the reset followed by those of the
transfer step, one read of the usual batch is issued, `imaging` stays true, and a
successful read advances `sectors_done`. -/
theorem bus_reset_then_transfer (e : Answers) (s : InitiatorState) (hr : Reachable s)
    (hi : s.imaging = true) (hd : s.sectors_done < s.sectorcount)
    (hf : e.g_scsiHostPhyReset = true) :
    (scsiUsbBridgeMainLoop e s).2 =
      [Action.log LogMsg.busReset, Action.scsiHostPhyReset] ++ (transferStep e s).2 ∧
    readsIssued (scsiUsbBridgeMainLoop e s).2 = [(s.sectors_done, numtoread s)] ∧
    (scsiUsbBridgeMainLoop e s).1 = (transferStep e s).1 ∧
    (scsiUsbBridgeMainLoop e s).1.imaging = true ∧
    (e.readOk = true →
      (scsiUsbBridgeMainLoop e s).1.sectors_done = s.sectors_done + numtoread s ∧
      s.sectors_done < (scsiUsbBridgeMainLoop e s).1.sectors_done) := by
  have hinv := inv_reachable s hr
  have hp : (scsiUsbBridgeMainLoop e s).1 = (transferStep e s).1 := poll_transfer e s hi hd
  have hprog := transfer_poll_progress e s hinv hi hd
  refine ⟨?_, transfer_reads e s hi hd, hp, hprog.1, ?_⟩
  · unfold scsiUsbBridgeMainLoop
    simp only [hf, if_true, hi, Bool.not_true, Bool.false_eq_true, if_false,
      if_neg (Nat.not_le.mpr hd)]
  · intro hok
    have hn := numtoread_le s hinv.count_lt hd
    have hnp := numtoread_pos s hinv.count_lt hd hinv.batch_pos
    have hc := hinv.count_lt
    rw [hp, transferStep_success e s hok]
    show u32 (s.sectors_done + numtoread s) = s.sectors_done + numtoread s ∧
      s.sectors_done < u32 (s.sectors_done + numtoread s)
    rw [u32_of_lt (by omega)]
    exact ⟨rfl, by omega⟩

/-- Witness of C27 (amended): the session on `zipDrive`, polled with the flag
set: 512 sectors are read and the session goes on. -/
theorem bus_reset_then_transfer_witness :
    (zipSession0.imaging = true ∧ zipSession0.sectors_done < zipSession0.sectorcount ∧
      (Answers.silent.withReset true).g_scsiHostPhyReset = true) ∧
    readsIssued (scsiUsbBridgeMainLoop (Answers.silent.withReset true) zipSession0).2 =
      [(zipSession0.sectors_done, numtoread zipSession0)] ∧
    (scsiUsbBridgeMainLoop (Answers.silent.withReset true) zipSession0).1.imaging = true :=
  have h := bus_reset_then_transfer (Answers.silent.withReset true) zipSession0
    (reachable_run _ _ reachable_initDefault) (by decide) (by decide) rfl
  ⟨by decide, h.2.1, h.2.2.2.1⟩

/-- Counterexample to C27 as stated: with the flag set, the poll of the session
on `zipDrive` issues the read of 512 sectors, advances `sectors_done` from 0 to
512 and leaves `imaging` true. -/
theorem bus_reset_does_not_abort :
    Reachable zipSession0 ∧ zipSession0.imaging = true ∧ zipSession0.sectors_done = 0 ∧
    (Answers.silent.withReset true).g_scsiHostPhyReset = true ∧
    readsIssued (scsiUsbBridgeMainLoop (Answers.silent.withReset true) zipSession0).2 =
      [(0, 512)] ∧
    (scsiUsbBridgeMainLoop (Answers.silent.withReset true) zipSession0).1.sectors_done = 512 ∧
    (scsiUsbBridgeMainLoop (Answers.silent.withReset true) zipSession0).1.imaging = true :=
  ⟨reachable_run _ _ reachable_initDefault, by decide, by decide, by decide, by decide,
    by decide, by decide⟩

/-! ### More invariants -/

theorem and_two_pow_ne_zero (x k : Nat) : x &&& 2 ^ k ≠ 0 ↔ x.testBit k = true := by
  constructor
  · intro h
    by_contra hb
    apply h
    apply Nat.eq_of_testBit_eq
    intro i
    rw [Nat.testBit_and, Nat.testBit_two_pow, Nat.zero_testBit]
    by_cases hki : k = i
    · subst hki
      simp only [Bool.not_eq_true] at hb
      rw [hb]
      rfl
    · simp [hki]
  · intro hb h
    have : (x &&& 2 ^ k).testBit k = true := by
      rw [Nat.testBit_and, Nat.testBit_two_pow, hb]
      simp
    rw [h, Nat.zero_testBit] at this
    exact absurd this (by simp)

/-- The test of line 156, in terms of the bit of the next target. -/
theorem alreadyImaged_iff (s : InitiatorState) (h : -1 ≤ s.target_id) :
    alreadyImaged s ↔ s.drives_imaged.testBit ((s.target_id + 1) % 8).toNat = true := by
  unfold alreadyImaged
  have h0 : 0 ≤ s.target_id + 1 := by omega
  have ht : (scanReset s).target_id = (s.target_id + 1) % 8 := by
    show Int.tmod (s.target_id + 1) 8 = _
    exact Int.tmod_eq_emod h0 (by norm_num)
  have hd : (scanReset s).drives_imaged = s.drives_imaged := rfl
  rw [ht, hd]
  unfold shl1
  rw [Nat.one_shiftLeft]
  exact and_two_pow_ne_zero _ _

theorem inv2_init (a b : Int) : Inv2 (scsiUsbBridgeInit a b staticState) := by
  have hid := init_id_le a
  have hd : (scsiUsbBridgeInit a b staticState).drives_imaged =
      2 ^ (scsiUsbBridgeInit a b staticState).initiator_id := u32_shl1_small _ hid
  refine ⟨hid, ?_, fun h => absurd h (by simp [scsiUsbBridgeInit]),
    fun h => absurd h (by simp [scsiUsbBridgeInit]), rfl, Or.inr (Or.inr rfl)⟩
  rw [hd]
  exact Nat.testBit_two_pow_self

theorem scanStep_count_all (e : Answers) (s : InitiatorState)
    (h : s.sectorcount_all = s.sectorcount) :
    (scanStep e s).1.sectorcount_all = (scanStep e s).1.sectorcount := by
  by_cases ha : alreadyImaged s
  · rw [scanStep_skip e s ha]
    exact h
  · rw [scanStep_probe e s ha]
    simp only [andThen_fst, startImaging_state, applyInquiry_state, classify_state, probe_state,
      scanReset]

theorem inv2_poll (e : Answers) (s : InitiatorState) (hinv : Inv s) (h : Inv2 s) :
    Inv2 (poll e s) := by
  by_cases hi : s.imaging = true
  · by_cases hd : s.sectors_done < s.sectorcount
    · rw [poll_transfer e s hi hd]
      by_cases hr : e.readOk = true
      · rw [transferStep_success e s hr]
        exact ⟨h.id_le, h.own_bit, h.imaging_not_own, h.imaging_count_pos, h.count_all_eq,
          h.batch_values⟩
      · simp only [Bool.not_eq_true] at hr
        by_cases hlt : s.retrycount < (s.maxRetryCount : Int)
        · rw [transferStep_retry e s hr hlt]
          exact ⟨h.id_le, h.own_bit, h.imaging_not_own, h.imaging_count_pos, h.count_all_eq,
            h.batch_values⟩
        · rw [transferStep_skip e s hr hlt]
          exact ⟨h.id_le, h.own_bit, h.imaging_not_own, h.imaging_count_pos, h.count_all_eq,
            h.batch_values⟩
    · rw [poll_finish e s hi (Nat.le_of_not_lt hd), finishStep_state]
      refine ⟨h.id_le, ?_, fun hf => absurd hf (by simp), fun hf => absurd hf (by simp),
        h.count_all_eq, h.batch_values⟩
      show (if s.ejectWhenDone = true then s.drives_imaged
        else u32 (s.drives_imaged ||| shl1 s.target_id)).testBit s.initiator_id = true
      split_ifs
      · exact h.own_bit
      · rw [u32_of_lt (lor_bit_lt _ _ hinv.drives_lt hinv.target_hi), Nat.testBit_or, h.own_bit]
        rfl
  · simp only [Bool.not_eq_true] at hi
    rw [poll_scan e s hi]
    obtain ⟨f1, f2, _, _, f5, _, _, _⟩ := scanStep_fields e s
    have ht := tmod8_range s.target_id hinv.target_lo
    have h0 : 0 ≤ s.target_id + 1 := by have := hinv.target_lo; omega
    refine ⟨by rw [f2]; exact h.id_le, by rw [f1, f2]; exact h.own_bit, ?_, ?_,
      scanStep_count_all e s h.count_all_eq, scanStep_batch e s⟩
    · intro him heq
      have hna := (scanStep_imaging e s hi him).1
      rw [alreadyImaged_iff s hinv.target_lo] at hna
      rw [f5, f2, Int.tmod_eq_emod h0 (by norm_num)] at heq
      rw [heq, Int.toNat_ofNat] at hna
      exact hna h.own_bit
    · intro him
      exact (scanStep_imaging e s hi him).2

theorem inv2_reachable (s : InitiatorState) (h : Reachable s) : Inv2 s := by
  induction h with
  | init a b => exact inv2_init a b
  | step e s hs ih => exact inv2_poll e s (inv_reachable s hs) ih

/-! ### C28: `drives_imaged` and the initiator's own ID -/

theorem addressedOnlyTo_append (id : Int) (as bs : List Action) :
    addressedOnlyTo id (as ++ bs) = (addressedOnlyTo id as && addressedOnlyTo id bs) := by
  unfold addressedOnlyTo
  exact List.all_append

theorem addressedOnlyTo_reset (id : Int) (b : Bool) :
    addressedOnlyTo id (if b = true then [Action.log LogMsg.busReset, Action.scsiHostPhyReset]
      else []) = true := by
  cases b <;> simp [addressedOnlyTo, actionTarget]

theorem addressedOnlyTo_probe (e : Answers) (s : InitiatorState) :
    addressedOnlyTo s.target_id (probe e s).2 = true := by
  unfold probe
  simp only [addressedOnlyTo_append]
  split_ifs <;> simp [addressedOnlyTo, actionTarget]

theorem addressedOnlyTo_classify (id : Int) (e : Answers) (s : InitiatorState) :
    addressedOnlyTo id (classify e s).2 = true := by
  unfold classify checkFat32Limit
  simp only [apply_ite Prod.snd, addressedOnlyTo_append]
  split_ifs <;> simp [addressedOnlyTo, actionTarget]

theorem addressedOnlyTo_applyInquiry (id : Int) (e : Answers) (s : InitiatorState) :
    addressedOnlyTo id (applyInquiry e s).2 = true := by
  unfold applyInquiry
  simp only [apply_ite Prod.snd]
  split_ifs <;> simp [addressedOnlyTo, actionTarget]

theorem addressedOnlyTo_startImaging (id : Int) (e : Answers) (total : Nat)
    (s : InitiatorState) : addressedOnlyTo id (startImaging e total s).2 = true := by
  unfold startImaging
  simp only [apply_ite Prod.snd, addressedOnlyTo_append]
  split_ifs <;> simp [addressedOnlyTo, actionTarget]

theorem addressedOnlyTo_finishStep (s : InitiatorState) :
    addressedOnlyTo s.target_id (finishStep s).2 = true := by
  unfold finishStep
  simp only [addressedOnlyTo_append]
  split_ifs <;> simp [addressedOnlyTo, actionTarget]

theorem addressedOnlyTo_transferStep (e : Answers) (s : InitiatorState) :
    addressedOnlyTo s.target_id (transferStep e s).2 = true := by
  unfold transferStep
  simp only [apply_ite Prod.snd, addressedOnlyTo_append]
  split_ifs <;> simp [addressedOnlyTo, actionTarget]

/-- The fields a transfer step does not write. -/
theorem transferStep_frame (e : Answers) (s : InitiatorState) :
    (transferStep e s).1.target_id = s.target_id ∧
    (transferStep e s).1.drives_imaged = s.drives_imaged ∧
    (transferStep e s).1.initiator_id = s.initiator_id ∧
    (transferStep e s).1.imaging = s.imaging ∧
    (transferStep e s).1.sectorcount = s.sectorcount ∧
    (transferStep e s).1.deviceType = s.deviceType ∧
    (transferStep e s).1.ansiVersion = s.ansiVersion ∧
    (transferStep e s).1.max_sector_per_transfer = s.max_sector_per_transfer := by
  by_cases hr : e.readOk = true
  · rw [transferStep_success e s hr]
    exact ⟨rfl, rfl, rfl, rfl, rfl, rfl, rfl, rfl⟩
  · simp only [Bool.not_eq_true] at hr
    by_cases hlt : s.retrycount < (s.maxRetryCount : Int)
    · rw [transferStep_retry e s hr hlt]
      exact ⟨rfl, rfl, rfl, rfl, rfl, rfl, rfl, rfl⟩
    · rw [transferStep_skip e s hr hlt]
      exact ⟨rfl, rfl, rfl, rfl, rfl, rfl, rfl, rfl⟩

/-- Every SCSI command of a poll is sent to the `target_id` the poll ends with. -/
theorem addressedOnlyTo_poll (e : Answers) (s : InitiatorState) :
    addressedOnlyTo (scsiUsbBridgeMainLoop e s).1.target_id (scsiUsbBridgeMainLoop e s).2 =
      true := by
  by_cases hi : s.imaging = true
  · by_cases hd : s.sectors_done < s.sectorcount
    · have ht : (scsiUsbBridgeMainLoop e s).1.target_id = s.target_id := by
        have hp : (scsiUsbBridgeMainLoop e s).1 = (transferStep e s).1 := poll_transfer e s hi hd
        rw [hp]
        exact (transferStep_frame e s).1
      rw [ht]
      unfold scsiUsbBridgeMainLoop
      simp only [hi, Bool.not_true, Bool.false_eq_true, if_false, if_neg (Nat.not_le.mpr hd),
        addressedOnlyTo_append, addressedOnlyTo_reset, addressedOnlyTo_transferStep, Bool.and_self]
    · have ht : (scsiUsbBridgeMainLoop e s).1.target_id = s.target_id := by
        have hp : (scsiUsbBridgeMainLoop e s).1 = (finishStep s).1 :=
          poll_finish e s hi (Nat.le_of_not_lt hd)
        rw [hp, finishStep_state]
      rw [ht]
      unfold scsiUsbBridgeMainLoop
      simp only [hi, Bool.not_true, Bool.false_eq_true, if_false, if_pos (Nat.le_of_not_lt hd),
        addressedOnlyTo_append, addressedOnlyTo_reset, addressedOnlyTo_finishStep, Bool.and_self]
  · simp only [Bool.not_eq_true] at hi
    have ht : (scsiUsbBridgeMainLoop e s).1.target_id = (scanReset s).target_id := by
      have hp : (scsiUsbBridgeMainLoop e s).1 = (scanStep e s).1 := poll_scan e s hi
      rw [hp, (scanStep_fields e s).2.2.2.2.1]
      rfl
    rw [ht]
    unfold scsiUsbBridgeMainLoop
    simp only [hi, Bool.not_false, if_true, addressedOnlyTo_append, addressedOnlyTo_reset,
      Bool.true_and]
    by_cases ha : alreadyImaged s
    · rw [scanStep_skip e s ha]
      rfl
    · rw [scanStep_probe e s ha]
      simp only [andThen_snd, addressedOnlyTo_append, addressedOnlyTo_probe,
        addressedOnlyTo_classify, addressedOnlyTo_applyInquiry, addressedOnlyTo_startImaging,
        Bool.and_self]

/-- A poll that sends a SCSI command is a probing poll or a poll of a session. -/
theorem command_needs_probe_or_session (e : Answers) (s : InitiatorState) (a : Action)
    (ha : a ∈ (scsiUsbBridgeMainLoop e s).2) (hc : actionTarget a ≠ none) :
    s.imaging = true ∨ (s.imaging = false ∧ ¬ alreadyImaged s) := by
  by_cases hi : s.imaging = true
  · exact Or.inl hi
  · simp only [Bool.not_eq_true] at hi
    refine Or.inr ⟨hi, fun hal => ?_⟩
    unfold scsiUsbBridgeMainLoop at ha
    simp only [hi, Bool.not_false, if_true, scanStep_skip e s hal, List.append_nil] at ha
    rcases mem_reset_actions _ _ ha with h | h <;> rw [h] at hc <;> exact hc rfl

/-- C28: in every reachable state, a poll keeps every bit of `drives_imaged` and
leaves the bitmap unchanged unless it is the poll that completes a session (taken
while imaging with `sectors_done >= sectorcount`); the bit of the initiator's own
ID is set; a session never has `target_id = initiator_id`; and no SCSI command is
ever sent to the initiator's own ID. -/
theorem drives_imaged_only_gains_bits (s : InitiatorState) (hr : Reachable s) :
    (∀ (e : Answers) (i : Nat), s.drives_imaged.testBit i = true →
      (scsiUsbBridgeMainLoop e s).1.drives_imaged.testBit i = true) ∧
    (∀ e : Answers, ¬ (s.imaging = true ∧ s.sectorcount ≤ s.sectors_done) →
      (scsiUsbBridgeMainLoop e s).1.drives_imaged = s.drives_imaged) ∧
    s.drives_imaged.testBit s.initiator_id = true ∧
    (s.imaging = true → s.target_id ≠ (s.initiator_id : Int)) ∧
    (∀ (e : Answers) (a : Action), a ∈ (scsiUsbBridgeMainLoop e s).2 →
      actionTarget a ≠ some (s.initiator_id : Int)) := by
  have hinv := inv_reachable s hr
  have hinv2 := inv2_reachable s hr
  have hunch : ∀ e : Answers, ¬ (s.imaging = true ∧ s.sectorcount ≤ s.sectors_done) →
      (scsiUsbBridgeMainLoop e s).1.drives_imaged = s.drives_imaged := by
    intro e hn
    by_cases hi : s.imaging = true
    · have hd : s.sectors_done < s.sectorcount := by
        by_contra hd
        exact hn ⟨hi, Nat.le_of_not_lt hd⟩
      have hp : (scsiUsbBridgeMainLoop e s).1 = (transferStep e s).1 := poll_transfer e s hi hd
      rw [hp]
      exact (transferStep_frame e s).2.1
    · simp only [Bool.not_eq_true] at hi
      have hp : (scsiUsbBridgeMainLoop e s).1 = (scanStep e s).1 := poll_scan e s hi
      rw [hp]
      exact (scanStep_fields e s).1
  refine ⟨?_, hunch, hinv2.own_bit, hinv2.imaging_not_own, ?_⟩
  · intro e i hb
    by_cases hc : s.imaging = true ∧ s.sectorcount ≤ s.sectors_done
    · have hp : (scsiUsbBridgeMainLoop e s).1 = (finishStep s).1 := poll_finish e s hc.1 hc.2
      rw [hp, finishStep_state]
      show (if s.ejectWhenDone = true then s.drives_imaged
        else u32 (s.drives_imaged ||| shl1 s.target_id)).testBit i = true
      split_ifs
      · exact hb
      · rw [u32_of_lt (lor_bit_lt _ _ hinv.drives_lt hinv.target_hi), Nat.testBit_or, hb]
        rfl
    · rw [hunch e hc]
      exact hb
  · intro e a ha heq
    have hall := addressedOnlyTo_poll e s
    unfold addressedOnlyTo at hall
    rw [List.all_eq_true] at hall
    have hthis := of_decide_eq_true (hall a ha)
    have hown : (scsiUsbBridgeMainLoop e s).1.target_id = (s.initiator_id : Int) := by
      rcases hthis with h | h
      · rw [heq] at h
        exact absurd h (by simp)
      · rw [heq] at h
        exact (Option.some.inj h).symm
    have hinv2' : Inv2 (poll e s) := inv2_poll e s hinv hinv2
    have hid : (poll e s).initiator_id = s.initiator_id := by
      by_cases hi : s.imaging = true
      · by_cases hd : s.sectors_done < s.sectorcount
        · rw [poll_transfer e s hi hd]
          exact (transferStep_frame e s).2.2.1
        · rw [poll_finish e s hi (Nat.le_of_not_lt hd), finishStep_state]
      · simp only [Bool.not_eq_true] at hi
        rw [poll_scan e s hi]
        exact (scanStep_fields e s).2.1
    rcases command_needs_probe_or_session e s a ha (by rw [heq]; simp) with hi | ⟨hi, hna⟩
    · have ht : (scsiUsbBridgeMainLoop e s).1.target_id = s.target_id := by
        by_cases hd : s.sectors_done < s.sectorcount
        · have hp : (scsiUsbBridgeMainLoop e s).1 = (transferStep e s).1 :=
            poll_transfer e s hi hd
          rw [hp]
          exact (transferStep_frame e s).1
        · have hp : (scsiUsbBridgeMainLoop e s).1 = (finishStep s).1 :=
            poll_finish e s hi (Nat.le_of_not_lt hd)
          rw [hp, finishStep_state]
      rw [ht] at hown
      exact hinv2.imaging_not_own hi hown
    · rw [alreadyImaged_iff s hinv.target_lo] at hna
      have hp : (scsiUsbBridgeMainLoop e s).1 = (scanStep e s).1 := poll_scan e s hi
      have h0 : 0 ≤ s.target_id + 1 := by have := hinv.target_lo; omega
      rw [hp, (scanStep_fields e s).2.2.2.2.1, Int.tmod_eq_emod h0 (by norm_num)] at hown
      rw [hown, Int.toNat_ofNat] at hna
      exact hna hinv2.own_bit

/-- Witness of C28: the completed session of a direct-access drive at target 0;
the completing poll adds bit 0 and keeps bit 7, the initiator's own. -/
theorem drives_imaged_only_gains_bits_witness :
    plainDone0.drives_imaged = 128 ∧ plainDone0.initiator_id = 7 ∧
    plainDone0.drives_imaged.testBit 7 = true ∧
    (scsiUsbBridgeMainLoop Answers.silent plainDone0).1.drives_imaged = 129 ∧
    (scsiUsbBridgeMainLoop Answers.silent plainDone0).1.drives_imaged.testBit 7 = true ∧
    plainDone0.drives_imaged.testBit plainDone0.initiator_id = true :=
  have h := drives_imaged_only_gains_bits plainDone0 (reachable_run _ _ reachable_initDefault)
  ⟨by decide, by decide, by decide, by decide, h.1 Answers.silent 7 (by decide), h.2.2.1⟩

/-! ### C29: `ansiVersion` and `max_sector_per_transfer` -/

/-- C29: after a probe whose READ CAPACITY succeeded, `ansiVersion` equals inquiry
byte 2 masked with `0x7`, and `max_sector_per_transfer` is 256 when that version
is below 2 and 512 otherwise; and in every reachable state
`max_sector_per_transfer` is one of 128, 256, 512. -/
theorem ansi_version_sets_batch (s : InitiatorState) (hr : Reachable s) :
    (s.max_sector_per_transfer = 128 ∨ s.max_sector_per_transfer = 256 ∨
      s.max_sector_per_transfer = 512) ∧
    ∀ e : Answers, s.imaging = false → ¬ alreadyImaged s → readcapok e = true →
      (scsiUsbBridgeMainLoop e s).1.ansiVersion = inquiryByte e.inquiry_data 2 &&& 0x7 ∧
      (scsiUsbBridgeMainLoop e s).1.max_sector_per_transfer =
        (if inquiryByte e.inquiry_data 2 &&& 0x7 < 2 then 256 else 512) := by
  refine ⟨(inv2_reachable s hr).batch_values, ?_⟩
  intro e hi hp hrc
  have hss : startstopok e = true := by
    unfold readcapok at hrc; rw [Bool.and_eq_true] at hrc; exact hrc.1
  have hd : inquiryData e = e.inquiry_data := by unfold inquiryData; rw [if_pos hss]
  rw [probing_poll_state e s hi hp]
  simp only [startImaging_state, applyInquiry_state, classify_state, probe_state, scanReset,
    if_pos hrc, hd, and_self]

/-- Witness of C29: a SCSI-2 drive (version 2) gets 512, a drive whose inquiry
data are all zero (version 0) gets 256. -/
theorem ansi_version_sets_batch_witness :
    (initDefault.imaging = false ∧ ¬ alreadyImaged initDefault) ∧
    ((scsiUsbBridgeMainLoop zipDrive initDefault).1.ansiVersion = 2 ∧
      (scsiUsbBridgeMainLoop zipDrive initDefault).1.max_sector_per_transfer = 512) ∧
    ((scsiUsbBridgeMainLoop driveNoInquiry initDefault).1.ansiVersion = 0 ∧
      (scsiUsbBridgeMainLoop driveNoInquiry initDefault).1.max_sector_per_transfer = 256) :=
  have h := (ansi_version_sets_batch initDefault reachable_initDefault).2
  ⟨by decide,
    ⟨(h zipDrive (by decide) (by decide) (by decide)).1.trans (by decide),
      (h zipDrive (by decide) (by decide) (by decide)).2.trans (by decide)⟩,
    ⟨(h driveNoInquiry (by decide) (by decide) (by decide)).1.trans (by decide),
      (h driveNoInquiry (by decide) (by decide) (by decide)).2.trans (by decide)⟩⟩

/-! ### C30: `deviceType` -/

/-- C30: after a probing poll, `deviceType` equals inquiry byte 0 masked with
`0x1F` when INQUIRY succeeded, and is otherwise unchanged from its value before
the poll; the reset at the start of a scan step (lines 149-154) does not touch
it; and the file a starting session opens is named after that `deviceType`, so a
target whose INQUIRY fails gets the CD/iso or HD/hda naming of the last target
whose INQUIRY succeeded. -/
theorem deviceType_after_probe (e : Answers) (s : InitiatorState) (hi : s.imaging = false)
    (hp : ¬ alreadyImaged s) :
    (scanReset s).deviceType = s.deviceType ∧
    (inquiryok e = true →
      (scsiUsbBridgeMainLoop e s).1.deviceType = inquiryByte e.inquiry_data 0 &&& 0x1F) ∧
    (inquiryok e = false → (scsiUsbBridgeMainLoop e s).1.deviceType = s.deviceType) ∧
    ((scsiUsbBridgeMainLoop e s).1.imaging = true →
      (scsiUsbBridgeMainLoop e s).1.target_file =
        some (imageFilename (scsiUsbBridgeMainLoop e s).1.deviceType
          (scsiUsbBridgeMainLoop e s).1.target_id
          (chosenImageNum e.files (scsiUsbBridgeMainLoop e s).1.deviceType
            (scsiUsbBridgeMainLoop e s).1.target_id))) := by
  have hst := probing_poll_state e s hi hp
  refine ⟨rfl, ?_, ?_, ?_⟩
  · intro hq
    have hss : startstopok e = true := by
      unfold inquiryok at hq; rw [Bool.and_eq_true] at hq; exact hq.1
    have hd : inquiryData e = e.inquiry_data := by unfold inquiryData; rw [if_pos hss]
    rw [hst]
    simp only [startImaging_state, applyInquiry_state, if_pos hq, hd]
  · intro hq
    have hnq : ¬ inquiryok e = true := by rw [hq]; simp
    rw [hst]
    simp only [startImaging_state, applyInquiry_state, classify_state, probe_state, scanReset,
      if_neg hnq]
  · intro him
    rw [hst] at him ⊢
    have hpre : (applyInquiry e (classify e (probe e (scanReset s)).1).1).1.imaging = false := by
      simp only [applyInquiry_state, classify_state, probe_state, scanReset]
      exact hi
    rw [startImaging_state] at him ⊢
    simp only at him ⊢
    by_cases h1 : (applyInquiry e (classify e (probe e (scanReset s)).1).1).1.sectorcount > 0
    · rw [if_pos h1] at him ⊢
      by_cases h2 : u64 (e.freeClusterCount * e.bytesPerCluster) <
          total_bytes e (probe e (scanReset s)).1
      · rw [if_pos h2] at him
        exact absurd him (by simp)
      · rw [if_neg h2] at him ⊢
        by_cases h3 : e.openOk = true
        · rw [if_pos h3]
          rfl
        · rw [if_neg h3, hpre] at him
          exact absurd him (by simp)
    · rw [if_neg h1, hpre] at him
      exact absurd him (by simp)

/-- Witness of C30: after the CD-ROM drive at ID 0, a drive at ID 1 that does not
answer INQUIRY keeps `deviceType = 5`, and its image is named `CD1_imaged-001.iso`. -/
theorem deviceType_after_probe_witness :
    (afterCd.imaging = false ∧ ¬ alreadyImaged afterCd ∧ afterCd.deviceType = DEVICE_TYPE_CD ∧
      inquiryok driveNoInquiry = false) ∧
    (scsiUsbBridgeMainLoop driveNoInquiry afterCd).1.deviceType = DEVICE_TYPE_CD ∧
    (scsiUsbBridgeMainLoop driveNoInquiry afterCd).1.target_id = 1 ∧
    (scsiUsbBridgeMainLoop driveNoInquiry afterCd).1.target_file = some "CD1_imaged-001.iso" ∧
    (scsiUsbBridgeMainLoop zipDrive afterCd).1.deviceType = 0 :=
  have h := deviceType_after_probe driveNoInquiry afterCd (by decide) (by decide)
  have hz := deviceType_after_probe zipDrive afterCd (by decide) (by decide)
  ⟨by decide, (h.2.2.1 (by decide)).trans (by decide), by decide,
    (h.2.2.2 (by decide)).trans (by decide), (hz.2.1 (by decide)).trans (by decide)⟩

/-! ## A session and the bit of its target (C31) -/

/-- No session is open after the completion branch. -/
theorem finishStep_imaging (s : InitiatorState) : (finishStep s).1.imaging = false := by
  rw [finishStep_state]

/-- While a session is open the bit of its target is clear in `drives_imaged`:
the test of line 156 found it clear, and neither field changes before the
completion branch. -/
theorem imaging_bit_clear (s : InitiatorState) (h : Reachable s) :
    s.imaging = true → s.drives_imaged &&& shl1 s.target_id = 0 := by
  induction h with
  | init a b => intro h; exact absurd h (by simp [scsiUsbBridgeInit])
  | step e s hs ih =>
    intro hi
    by_cases him : s.imaging = true
    · by_cases hd : s.sectors_done < s.sectorcount
      · rw [poll_transfer e s him hd]
        obtain ⟨ht, hdi, -⟩ := transferStep_frame e s
        rw [ht, hdi]
        exact ih him
      · rw [poll_finish e s him (not_lt.mp hd), finishStep_imaging] at hi
        exact absurd hi (by decide)
    · have him2 : s.imaging = false := by simpa using him
      rw [poll_scan e s him2] at hi ⊢
      obtain ⟨hna, -⟩ := scanStep_imaging e s him2 hi
      obtain ⟨hdi, -, -, -, ht, -⟩ := scanStep_fields e s
      rw [hdi, ht]
      exact not_not.mp hna

/-- A poll that leaves a session open after a poll that found it open is a
transfer poll: the target and the set of imaged drives are the ones of the
session start. -/
theorem session_keeps_target (e : Answers) (s : InitiatorState) (hi : s.imaging = true)
    (hp : (poll e s).imaging = true) :
    (poll e s).target_id = s.target_id ∧ (poll e s).drives_imaged = s.drives_imaged ∧
    (poll e s).sectorcount = s.sectorcount := by
  by_cases hd : s.sectors_done < s.sectorcount
  · rw [poll_transfer e s hi hd]
    obtain ⟨ht, hdi, -, -, hc, -⟩ := transferStep_frame e s
    exact ⟨ht, hdi, hc⟩
  · rw [poll_finish e s hi (not_lt.mp hd), finishStep_imaging] at hp
    exact absurd hp (by decide)

/-- The percentage of line 380 is defined when the divisor is positive. -/
theorem percentDone_defined (d c : Nat) (h : 0 < c) :
    percentDone d c = some (100 * d / c) := by
  unfold percentDone
  rw [if_neg (by omega)]

/-- C31: in every reachable state with `imaging = true`: `sectorcount > 0`,
`0 <= target_id <= 7`, and the bit of `target_id` is clear in `drives_imaged`, as
it was when the session started (a poll that keeps the session open changes
neither field). So the shift `1 << target_id` has a shift count below the width
of `int`, and the percentage of the success branch has a non-zero divisor. -/
theorem session_target_probed_and_counted (s : InitiatorState) (h : Reachable s)
    (hi : s.imaging = true) :
    0 < s.sectorcount ∧ 0 ≤ s.target_id ∧ s.target_id ≤ 7 ∧
    s.drives_imaged &&& shl1 s.target_id = 0 ∧
    (∀ e : Answers, (poll e s).imaging = true →
      (poll e s).target_id = s.target_id ∧ (poll e s).drives_imaged = s.drives_imaged ∧
      (poll e s).sectorcount = s.sectorcount) ∧
    s.target_id.toNat < 32 ∧ shl1 s.target_id = 2 ^ s.target_id.toNat ∧
    (∀ e : Answers, percentDone (transferStep e s).1.sectors_done
        (transferStep e s).1.sectorcount =
      some (100 * (transferStep e s).1.sectors_done / s.sectorcount)) := by
  have hinv := inv_reachable s h
  have hpos := (inv2_reachable s h).imaging_count_pos hi
  have hlo := hinv.target_imaging hi
  have hhi := hinv.target_hi
  refine ⟨hpos, hlo, hhi, imaging_bit_clear s h hi, fun e hp => session_keeps_target e s hi hp,
    by omega, ?_, ?_⟩
  · unfold shl1
    rw [Nat.shiftLeft_eq, one_mul]
  · intro e
    obtain ⟨-, -, -, -, hc, -⟩ := transferStep_frame e s
    rw [hc]
    exact percentDone_defined _ _ hpos

/-- Witness of C31: the session on `zipDrive` at target 0, right after the
probe. -/
theorem session_target_probed_and_counted_witness :
    zipSession0.imaging = true ∧ zipSession0.sectorcount = 2048 ∧
    zipSession0.target_id = 0 ∧ zipSession0.drives_imaged = 128 ∧
    zipSession0.drives_imaged &&& shl1 zipSession0.target_id = 0 :=
  have h := session_target_probed_and_counted zipSession0
    (reachable_run _ _ reachable_initDefault) (by decide)
  ⟨by decide, by decide, by decide, by decide, h.2.2.2.1⟩

/-! ## The note about the first 4 GiB (C39) -/

theorem limited_not_in_probe (e : Answers) (s : InitiatorState) :
    Action.log LogMsg.limited4GiB ∉ (probe e s).2 := by
  unfold probe
  simp only [List.mem_append, List.mem_cons, List.mem_singleton, not_or]
  split_ifs <;> simp

theorem limited_not_in_classify (e : Answers) (s : InitiatorState) :
    Action.log LogMsg.limited4GiB ∉ (classify e s).2 := by
  unfold classify checkFat32Limit
  simp only [apply_ite Prod.snd, apply_ite Prod.fst]
  split_ifs <;> simp

theorem limited_not_in_applyInquiry (e : Answers) (s : InitiatorState) :
    Action.log LogMsg.limited4GiB ∉ (applyInquiry e s).2 := by
  unfold applyInquiry
  simp only [apply_ite Prod.snd]
  split_ifs <;> simp

theorem limited_not_in_startImaging (e : Answers) (total : Nat) (s : InitiatorState) :
    Action.log LogMsg.limited4GiB ∉ (startImaging e total s).2 := by
  unfold startImaging
  simp only [apply_ite Prod.snd]
  split_ifs <;> simp

theorem limited_not_in_scanStep (e : Answers) (s : InitiatorState) :
    Action.log LogMsg.limited4GiB ∉ (scanStep e s).2 := by
  by_cases h : alreadyImaged s
  · rw [scanStep_skip e s h]
    simp
  · rw [scanStep_probe e s h]
    simp only [andThen_snd, List.mem_append, not_or]
    exact ⟨⟨⟨limited_not_in_probe _ _, limited_not_in_classify _ _⟩,
      limited_not_in_applyInquiry _ _⟩, limited_not_in_startImaging _ _ _⟩

theorem limited_not_in_transferStep (e : Answers) (s : InitiatorState) :
    Action.log LogMsg.limited4GiB ∉ (transferStep e s).2 := by
  unfold transferStep
  simp only [apply_ite Prod.snd]
  split_ifs <;> simp

theorem limited_in_finishStep (s : InitiatorState) :
    Action.log LogMsg.limited4GiB ∈ (finishStep s).2 ↔ s.sectorcount ≠ s.sectorcount_all := by
  unfold finishStep
  simp only [List.mem_append, List.mem_cons, List.mem_singleton]
  split_ifs <;> simp_all

/-- The note of lines 297-298 is logged exactly by a completion poll that finds
`sectorcount` different from `sectorcount_all`. -/
theorem limited_logged_iff (e : Answers) (s : InitiatorState) :
    Action.log LogMsg.limited4GiB ∈ (scsiUsbBridgeMainLoop e s).2 ↔
      s.imaging = true ∧ s.sectorcount ≤ s.sectors_done ∧ s.sectorcount ≠ s.sectorcount_all := by
  unfold scsiUsbBridgeMainLoop
  simp only [List.mem_append]
  have h0 : Action.log LogMsg.limited4GiB ∉
      (if e.g_scsiHostPhyReset = true then [Action.log LogMsg.busReset, Action.scsiHostPhyReset]
        else []) := by
    split_ifs <;> simp
  by_cases hi : s.imaging = true
  · by_cases hd : s.sectors_done < s.sectorcount
    · simp only [hi, Bool.not_true, Bool.false_eq_true, if_false, if_neg (Nat.not_le.mpr hd)]
      constructor
      · rintro (h | h)
        · exact absurd h h0
        · exact absurd h (limited_not_in_transferStep e s)
      · rintro ⟨-, h, -⟩
        omega
    · simp only [hi, Bool.not_true, Bool.false_eq_true, if_false, if_pos (Nat.le_of_not_lt hd)]
      constructor
      · rintro (h | h)
        · exact absurd h h0
        · exact ⟨trivial, Nat.le_of_not_lt hd, (limited_in_finishStep s).mp h⟩
      · rintro ⟨-, -, h⟩
        exact Or.inr ((limited_in_finishStep s).mpr h)
  · simp only [Bool.not_eq_true] at hi
    simp only [hi, Bool.not_false, if_true]
    constructor
    · rintro (h | h)
      · exact absurd h h0
      · exact absurd h (limited_not_in_scanStep e s)
    · rintro ⟨h, -⟩
      exact absurd h (by decide)

/-- C39: in every state reachable from `scsiUsbBridgeInit`,
`sectorcount_all = sectorcount`, and no poll from such a state logs the note that
the image was limited to the first 4 GiB. -/
theorem sectorcount_all_equals_sectorcount (s : InitiatorState) (h : Reachable s) :
    s.sectorcount_all = s.sectorcount ∧
    ∀ e : Answers, Action.log LogMsg.limited4GiB ∉ (scsiUsbBridgeMainLoop e s).2 := by
  have hc := (inv2_reachable s h).count_all_eq
  refine ⟨hc, fun e hm => ?_⟩
  exact ((limited_logged_iff e s).mp hm).2.2 hc.symm

/-- Witness of C39: the completion poll of the session on `drive2`, whose
capacity was read as 2 sectors. -/
theorem sectorcount_all_equals_sectorcount_witness :
    passedFailposition.imaging = true ∧
    passedFailposition.sectors_done = passedFailposition.sectorcount ∧
    passedFailposition.sectorcount_all = passedFailposition.sectorcount ∧
    Action.log LogMsg.limited4GiB ∉
      (scsiUsbBridgeMainLoop Answers.silent passedFailposition).2 ∧
    Action.log LogMsg.finished ∈
      (scsiUsbBridgeMainLoop Answers.silent passedFailposition).2 :=
  have h := sectorcount_all_equals_sectorcount passedFailposition
    (reachable_run _ _ reachable_initDefault)
  ⟨by decide, by decide, h.1, h.2 Answers.silent, by decide⟩

/-! ## The first batch of a session (C36) -/

/-- The batch of the first transfer poll of a session: one sector when a
`failposition` left by an earlier session is still set, the regular batch
otherwise. -/
theorem first_batch (s : InitiatorState) (h : Reachable s) (hd : s.sectors_done = 0) :
    numtoread s =
      if 0 < s.failposition then 1 else min s.sectorcount s.max_sector_per_transfer := by
  have hinv := inv_reachable s h
  by_cases hf : 0 < s.failposition
  · rw [if_pos hf]
    exact numtoread_degraded s (by omega)
  · rw [if_neg hf, numtoread_normal s hinv.count_lt hinv.done_le (by omega), hd, Nat.sub_zero]

/-- The scan step keeps `failposition`: the reset of lines 149-154 does not list
it, other than `scsiUsbBridgeInit`. -/
theorem scan_keeps_failposition (e : Answers) (s : InitiatorState) (hi : s.imaging = false) :
    (poll e s).failposition = s.failposition ∧ (poll e s).sectors_done = 0 ∧
    (poll e s).retrycount = 0 ∧ (poll e s).badSectorCount = 0 := by
  rw [poll_scan e s hi]
  obtain ⟨-, -, -, hf, -, hd, hr, hb⟩ := scanStep_fields e s
  exact ⟨hf, hd, hr, hb⟩

/-- C36: a session can start in degraded mode. The session on `drive2` at ID 0
fails twice on its first batch, which sets `failposition = 2`; it is completed;
`drive164` is then found at ID 1. At the first transfer poll of that session
(`sectors_done = 0`, `retrycount = 0`) the batch is one sector, not
`min(sectorcount, max_sector_per_transfer) = 164`, because `failposition` is
still 2. -/
theorem session_starts_degraded_after_failure :
    Reachable staleSession ∧ staleSession.imaging = true ∧ staleSession.target_id = 1 ∧
    staleSession.sectors_done = 0 ∧ staleSession.retrycount = 0 ∧
    staleSession.badSectorCount = 0 ∧ staleSession.sectorcount = 164 ∧
    staleSession.max_sector_per_transfer = 512 ∧ staleSession.failposition = 2 ∧
    min staleSession.sectorcount staleSession.max_sector_per_transfer = 164 ∧
    numtoread staleSession = 1 ∧
    readsIssued (scsiUsbBridgeMainLoop Answers.silent staleSession).2 = [(0, 1)] ∧
    (run [Answers.silent] passedFailposition).imaging = false ∧
    (run [Answers.silent] passedFailposition).failposition = 2 ∧
    zipSession0.failposition = 0 ∧ numtoread zipSession0 = 512 :=
  ⟨reachable_run _ _ (reachable_run _ _ reachable_initDefault), by decide, by decide, by decide,
    by decide, by decide, by decide, by decide, by decide, by decide, by decide, by decide,
    by decide, by decide, by decide, by decide⟩

/-! ## The throughput of a batch (C35) -/

/-- The throughput is computed exactly when the two readings of `millis()`
differ, the product fits 32 bits and the quotient fits an `int`. -/
theorem speed_kbps_exact (n size t0 t1 : Nat) (ht : u32 t0 ≠ u32 t1)
    (hp : n * size < 2 ^ 32)
    (hq : n * size / u32 (u32 t1 + 2 ^ 32 - u32 t0) < 2 ^ 31) :
    speed_kbps n size t0 t1 =
      some ((n * size / u32 (u32 t1 + 2 ^ 32 - u32 t0) : Nat) : Int) := by
  have h0 := u32_lt t0
  have h1 := u32_lt t1
  have hne : u32 (u32 t1 + 2 ^ 32 - u32 t0) ≠ 0 := by
    unfold u32 at *
    omega
  have hq2 : u32 (n * size / u32 (u32 t1 + 2 ^ 32 - u32 t0)) =
      n * size / u32 (u32 t1 + 2 ^ 32 - u32 t0) := u32_of_lt (by omega)
  unfold speed_kbps u32ToInt
  simp only [if_neg hne, u32_of_lt hp, hq2, if_pos hq]

/-- A quotient from `2 ^ 31` on is logged as a negative number: 512 sectors of
`2 ^ 22` bytes read in one millisecond. -/
theorem speed_kbps_negative : speed_kbps 512 (2 ^ 22) 0 1 = some (-(2 ^ 31)) := by
  decide

/-- The divisor is zero when the two readings of `millis()` are equal. -/
theorem speed_kbps_same_millis (n size t : Nat) : speed_kbps n size t t = none := by
  have h0 := u32_lt t
  have hz : u32 (u32 t + 2 ^ 32 - u32 t) = 0 := by
    unfold u32 at *
    omega
  unfold speed_kbps
  simp only [hz, if_true]

/-- In a reachable state a batch has at most 512 sectors, so the product of line
376 fits 32 bits for every sector size below `2 ^ 23`. -/
theorem batch_bytes_fit (s : InitiatorState) (h : Reachable s) (hs : s.sectorsize < 2 ^ 23) :
    numtoread s * s.sectorsize < 2 ^ 32 := by
  have hb := (inv2_reachable s h).batch_values
  have hn : numtoread s ≤ 512 := by
    unfold numtoread
    simp only []
    split_ifs <;> omega
  calc numtoread s * s.sectorsize ≤ 512 * s.sectorsize := Nat.mul_le_mul_right _ hn
    _ < 2 ^ 32 := by omega

/-- C35: the throughput of a successful batch is not always defined. A read of
the first batch of `zipSession0` that starts and ends in the same millisecond
succeeds (512 sectors done of 2048, 25 %), and the divisor
`millis() - time_start` of line 376 is zero. And for a drive that reports sectors
of `2 ^ 23` bytes the 32-bit product `numtoread * sectorsize` of a batch of 512
sectors is 0, not the `2 ^ 32` bytes transferred. -/
theorem speed_divisor_zero_and_product_wraps :
    Reachable zipSession0 ∧ zipSession0.imaging = true ∧ sameMillisecond.readOk = true ∧
    (poll sameMillisecond zipSession0).sectors_done = 512 ∧
    u32 (u32 sameMillisecond.millisEnd + 2 ^ 32 - u32 sameMillisecond.millisStart) = 0 ∧
    (scsiUsbBridgeMainLoop sameMillisecond zipSession0).2 =
      [Action.scsiInitiatorReadDataToFile 0 0 512 512, Action.flush,
       Action.log (LogMsg.readSucceeded none (some 25))] ∧
    Reachable bigSectorSession ∧ bigSectorSession.imaging = true ∧
    bigSectorSession.sectorsize = 2 ^ 23 ∧ numtoread bigSectorSession = 512 ∧
    u32 (numtoread bigSectorSession * bigSectorSession.sectorsize) = 0 ∧
    numtoread bigSectorSession * bigSectorSession.sectorsize = 2 ^ 32 ∧
    (scsiUsbBridgeMainLoop Answers.silent bigSectorSession).2 =
      [Action.scsiInitiatorReadDataToFile 0 0 512 (2 ^ 23), Action.flush,
       Action.log (LogMsg.readSucceeded (some 0) (some 100))] :=
  ⟨reachable_run _ _ reachable_initDefault, by decide, by decide, by decide, by decide,
    by decide, reachable_run _ _ reachable_initDefault, by decide, by decide, by decide,
    by decide, by decide, by decide⟩

/-! ## The image file name and its buffer (C34) -/

/-- The name `sprintf` produces for a target ID 0..7 and a sequence number below
1000 has 18 characters. -/
theorem imageFilename_length (deviceType t n : Nat) (ht : t < 8) (hn : n < 1000) :
    (imageFilename deviceType (t : Int) n).length = 18 := by
  have h3 := (fmt_03d_three_digits n hn).1
  have h1 := (fmt_d_target t ht).1
  unfold imageFilename
  rw [String.length]
  by_cases hcd : deviceType = DEVICE_TYPE_CD
  · simp only [if_pos hcd, List.length_append, h3, h1]
    rfl
  · simp only [if_neg hcd, List.length_append, h3, h1]
    rfl

/-- C34: for every target ID 0..7, every device type and every sequence number
1..999 the formatted name has 18 characters, so `sprintf` stores 19 bytes: one
more than the 18 bytes of `filename`. The name does not have at most 17
characters for any of these inputs. -/
theorem filename_needs_19_bytes (deviceType : Nat) (t : Fin 8) (n : Fin 999) :
    (imageFilename deviceType ((t : Nat) : Int) ((n : Nat) + 1)).length = 18 ∧
    sprintfBytes (imageFilename deviceType ((t : Nat) : Int) ((n : Nat) + 1)) = FILENAME_SIZE + 1 ∧
    ¬ sprintfBytes (imageFilename deviceType ((t : Nat) : Int) ((n : Nat) + 1)) ≤ FILENAME_SIZE ∧
    imageFilename DEVICE_TYPE_DIRECT_ACCESS 0 1 = "HD0_imaged-001.hda" ∧
    imageFilename DEVICE_TYPE_CD 7 999 = "CD7_imaged-999.iso" := by
  have hl := imageFilename_length deviceType t ((n : Nat) + 1) t.isLt (by omega)
  refine ⟨hl, ?_, ?_, by decide, by decide⟩
  · unfold sprintfBytes FILENAME_SIZE
    rw [hl]
  · unfold sprintfBytes FILENAME_SIZE
    rw [hl]
    decide

/-! ## The PLL wait of `ClockSetup` (C40) -/
namespace PSoC5

/-- The two bits of `pllLock` are the last two lock bits read. -/
theorem pllShift_eq (p r : Nat) (hp : p < 4) : pllShift p r = 2 * (p % 2) + r % 2 := by
  have hr : (u8 r &&& 0x01) >>> 0 = r % 2 := by
    rw [Nat.shiftRight_zero, Nat.and_one_is_mod]
    unfold u8
    omega
  unfold pllShift
  rw [hr]
  rcases Nat.mod_two_eq_zero_or_one r with h | h <;> rw [h] <;> interval_cases p <;> decide

theorem pllAfter_lt (sr : Nat → Nat) (n : Nat) : pllAfter sr n < 4 := by
  cases n with
  | zero => exact (by decide : (0 : Nat) < 4)
  | succ n =>
    have h : pllAfter sr (n + 1) = 0x03 &&& (u8 (u8 (pllAfter sr n) <<< 1) |||
        ((u8 (sr n) &&& 0x01) >>> 0)) := rfl
    rw [h]
    exact Nat.lt_succ_of_le (Nat.and_le_left)

/-- After `n + 2` reads `pllLock` is 0x03 exactly when the last two reads both
returned the lock bit. -/
theorem pllAfter_locked (sr : Nat → Nat) (n : Nat) :
    pllAfter sr (n + 2) = 3 ↔ lockedAt sr n = true := by
  have h1 : pllAfter sr (n + 1) = 2 * (pllAfter sr n % 2) + sr n % 2 :=
    pllShift_eq _ _ (pllAfter_lt sr n)
  have h2 : pllAfter sr (n + 2) = 2 * (pllAfter sr (n + 1) % 2) + sr (n + 1) % 2 :=
    pllShift_eq _ _ (pllAfter_lt sr (n + 1))
  unfold lockedAt
  simp only [Bool.and_eq_true, beq_iff_eq]
  omega

theorem pllAfter_one (sr : Nat → Nat) : pllAfter sr 1 ≠ 3 := by
  have h1 : pllAfter sr 1 = 2 * (pllAfter sr 0 % 2) + sr 0 % 2 :=
    pllShift_eq _ _ (pllAfter_lt sr 0)
  have h0 : pllAfter sr 0 = 0 := rfl
  omega

/-- The loop, entered after `n` reads with `timeout = t`: it makes one read per
round, and runs out of time exactly when `pllLock` is not 0x03 after any of
`n`, ..., `n + t - 1` reads. -/
theorem pllWaitLoop_spec (sr : Nat → Nat) (t : Nat) :
    ∀ n : Nat,
      (pllWaitLoop sr t (pllAfter sr n) n).reads + (pllWaitLoop sr t (pllAfter sr n) n).timeout =
        n + t ∧
      (pllWaitLoop sr t (pllAfter sr n) n).pllLock =
        pllAfter sr (pllWaitLoop sr t (pllAfter sr n) n).reads ∧
      ((pllWaitLoop sr t (pllAfter sr n) n).timeout = 0 ↔
        ∀ j, j < t → pllAfter sr (n + j) ≠ 3) := by
  induction t with
  | zero =>
    intro n
    refine ⟨rfl, rfl, ?_⟩
    constructor
    · intro _ j hj
      omega
    · intro _
      rfl
  | succ t ih =>
    intro n
    by_cases h3 : pllAfter sr n = 3
    · have hl : pllWaitLoop sr (t + 1) (pllAfter sr n) n =
          { timeout := t + 1, pllLock := pllAfter sr n, reads := n } := by
        rw [pllWaitLoop, if_neg (not_not.mpr h3)]
      rw [hl]
      refine ⟨rfl, rfl, ?_⟩
      constructor
      · intro h
        exact absurd h (Nat.succ_ne_zero t)
      · intro h
        exact absurd h3 (h 0 (Nat.succ_pos t))
    · have hl : pllWaitLoop sr (t + 1) (pllAfter sr n) n =
          pllWaitLoop sr t (pllAfter sr (n + 1)) (n + 1) := by
        rw [pllWaitLoop, if_pos h3]
        rfl
      rw [hl]
      obtain ⟨i1, i2, i3⟩ := ih (n + 1)
      refine ⟨by omega, i2, ?_⟩
      rw [i3]
      constructor
      · intro h j hj
        cases j with
        | zero => exact h3
        | succ j =>
          have := h j (by omega)
          rwa [show n + (j + 1) = n + 1 + j by omega]
      · intro h j hj
        have := h (j + 1) (by omega)
        rwa [show n + (j + 1) = n + 1 + j by omega] at this

/-- The lock is not reached after any of the first `m + 2` counts of reads
(0, ..., `m + 1`) exactly when no two consecutive locked readings occur among
the first `m + 1` reads. -/
theorem no_lock_iff (sr : Nat → Nat) (m : Nat) :
    (∀ j, j < m + 2 → pllAfter sr (0 + j) ≠ 3) ↔ lockedWithin sr (m + 1) = false := by
  unfold lockedWithin
  rw [List.any_eq_false]
  simp only [List.mem_range, Nat.add_sub_cancel, Nat.zero_add]
  constructor
  · intro h k hk hl
    exact h (k + 2) (by omega) ((pllAfter_locked sr k).mpr hl)
  · intro h j hj
    match j, hj with
    | 0, _ => exact (by decide : (0 : Nat) ≠ 3)
    | 1, _ => exact pllAfter_one sr
    | k + 2, hk =>
      intro hl
      exact h k (by omega) ((pllAfter_locked sr k).mp hl)

/-- What the wait of `ClockSetup` does for any readings: at most 25 reads, and
`CyClockStartupError` is called exactly when no two consecutive locked readings
occur among the first 24 reads. -/
theorem ClockSetup_spec (sr : Nat → Nat) :
    (ClockSetup sr).wait.reads ≤ 25 ∧
    (ClockSetup sr).wait.reads + (ClockSetup sr).wait.timeout = 25 ∧
    ((ClockSetup sr).error = some CYCLOCKSTART_PLL_ERROR ↔ lockedWithin sr 24 = false) ∧
    ((ClockSetup sr).error = none ↔ lockedWithin sr 24 = true) := by
  obtain ⟨h1, -, h3⟩ := pllWaitLoop_spec sr 25 0
  have h4 := no_lock_iff sr 23
  have hw : (ClockSetup sr).wait = pllWaitLoop sr 25 (pllAfter sr 0) 0 := rfl
  have he : (ClockSetup sr).error =
      if (pllWaitLoop sr 25 (pllAfter sr 0) 0).timeout = 0 then some CYCLOCKSTART_PLL_ERROR
      else none := rfl
  rw [hw, he]
  refine ⟨by omega, by omega, ?_, ?_⟩
  · rw [← h4, ← h3]
    split_ifs with h <;> simp [h]
  · have hb : lockedWithin sr 24 = true ↔ ¬ lockedWithin sr 24 = false := by
      cases lockedWithin sr 24 <;> simp
    rw [hb, ← h4, ← h3]
    split_ifs with h <;> simp [h]

/-- C40: for every sequence of readings the wait loop of `ClockSetup` reads the
lock status at most 25 times, and `CyClockStartupError(CYCLOCKSTART_PLL_ERROR)`
is entered exactly when no two consecutive locked readings occur among the
first 24 reads. A PLL whose readings 24 and 25 are the first locked ones
(`lateLock`) has reached the locked state within the 25 reads
(`pllLock = 0x03`), and the error function is entered all the same. -/
theorem pll_error_despite_lock_at_last_read (sr : Nat → Nat) :
    (ClockSetup sr).wait.reads ≤ 25 ∧
    ((ClockSetup sr).error = some CYCLOCKSTART_PLL_ERROR ↔ lockedWithin sr 24 = false) ∧
    lockedWithin lateLock 25 = true ∧ lockedWithin lateLock 24 = false ∧
    (ClockSetup lateLock).wait = { timeout := 0, pllLock := 3, reads := 25 } ∧
    (ClockSetup lateLock).error = some CYCLOCKSTART_PLL_ERROR ∧
    (ClockSetup promptLock).wait = { timeout := 23, pllLock := 3, reads := 2 } ∧
    (ClockSetup promptLock).error = none :=
  ⟨(ClockSetup_spec sr).1, (ClockSetup_spec sr).2.2.1, by decide, by decide, by decide,
    by decide, by decide, by decide⟩

end PSoC5
/-! ## Reads and writes of the RAM disk inside and outside the store (C32, C37, C38) -/
namespace USB

theorem store_size : DISK_BLOCK_COUNT * DISK_BLOCK_SIZE = 8192 := rfl

/-- A write whose byte range lies inside the store: the value returned and the
store it leaves. The flag `is_writable_` plays no part. -/
theorem Write10_in_range (d : MscRamDisk) (lba offset n : Nat) (data : List Nat)
    (hlen : d.ram_disk_.length = DISK_BLOCK_COUNT * DISK_BLOCK_SIZE)
    (hlba : lba < DISK_BLOCK_COUNT)
    (hrange : lba * DISK_BLOCK_SIZE + offset + n ≤ DISK_BLOCK_COUNT * DISK_BLOCK_SIZE)
    (hdata : n ≤ data.length) :
    d.Write10 lba offset data n =
      some (n, { d with
        ram_disk_ := d.ram_disk_.take (lba * DISK_BLOCK_SIZE + offset) ++ data.take n ++
          d.ram_disk_.drop (lba * DISK_BLOCK_SIZE + offset + n) }) := by
  have hn : u32 n = n := u32_of_lt (by rw [store_size] at hrange; omega)
  unfold MscRamDisk.Write10 memcpyTo
  rw [if_neg (not_le.mpr hlba), if_pos ⟨by omega, hdata⟩, hn]

/-- A read whose byte range lies inside the store: the value returned and the
caller's buffer after it. -/
theorem Read10_in_range (d : MscRamDisk) (lba offset n : Nat) (buf : List Nat)
    (hlen : d.ram_disk_.length = DISK_BLOCK_COUNT * DISK_BLOCK_SIZE)
    (hlba : lba < DISK_BLOCK_COUNT)
    (hrange : lba * DISK_BLOCK_SIZE + offset + n ≤ DISK_BLOCK_COUNT * DISK_BLOCK_SIZE)
    (hbuf : n ≤ buf.length) :
    d.Read10 lba offset buf n =
      some (n, (d.ram_disk_.drop (lba * DISK_BLOCK_SIZE + offset)).take n ++ buf.drop n) := by
  have hn : u32 n = n := u32_of_lt (by rw [store_size] at hrange; omega)
  unfold MscRamDisk.Read10 memcpyFrom
  rw [if_neg (not_le.mpr hlba), if_pos ⟨by omega, hbuf⟩, hn]

/-- A read or write whose byte range runs past the end of the store, from a sector
the guard accepts: `memcpy` leaves the array. -/
theorem past_store (d : MscRamDisk) (lba offset n : Nat) (buf : List Nat)
    (hlen : d.ram_disk_.length = DISK_BLOCK_COUNT * DISK_BLOCK_SIZE)
    (hlba : lba < DISK_BLOCK_COUNT)
    (hrange : DISK_BLOCK_COUNT * DISK_BLOCK_SIZE < lba * DISK_BLOCK_SIZE + offset + n) :
    d.Read10 lba offset buf n = none ∧ d.Write10 lba offset buf n = none := by
  unfold MscRamDisk.Read10 MscRamDisk.Write10 memcpyFrom memcpyTo
  rw [if_neg (not_le.mpr hlba), if_neg (fun h => by omega), if_neg (not_le.mpr hlba),
    if_neg (fun h => by omega)]
  exact ⟨rfl, rfl⟩

/-- The bytes written are the bytes found at the same place. -/
theorem spliced_read (l data : List Nat) (pos n : Nat) (hpos : pos + n ≤ l.length)
    (hdata : n ≤ data.length) :
    ((l.take pos ++ data.take n ++ l.drop (pos + n)).drop pos).take n = data.take n := by
  have h1 : (l.take pos).length = pos := by
    rw [List.length_take]
    omega
  have h2 : (data.take n).length = n := by
    rw [List.length_take]
    omega
  rw [List.append_assoc, List.drop_left' h1, List.take_left' h2]

theorem spliced_length (l data : List Nat) (pos n : Nat) (hpos : pos + n ≤ l.length)
    (hdata : n ≤ data.length) :
    (l.take pos ++ data.take n ++ l.drop (pos + n)).length = l.length := by
  simp only [List.length_append, List.length_take, List.length_drop]
  omega

/-- The bytes outside the range written are kept. -/
theorem spliced_outside (l data : List Nat) (pos n i : Nat) (hpos : pos + n ≤ l.length)
    (hdata : n ≤ data.length) (hi : i < pos ∨ pos + n ≤ i) :
    (l.take pos ++ data.take n ++ l.drop (pos + n))[i]? = l[i]? := by
  have h1 : (l.take pos).length = pos := by
    rw [List.length_take]
    omega
  have h2 : (data.take n).length = n := by
    rw [List.length_take]
    omega
  rcases hi with hi | hi
  · rw [List.append_assoc, List.getElem?_append_left (by omega), List.getElem?_take_of_lt hi]
  · rw [List.getElem?_append_right (by rw [List.length_append]; omega), List.getElem?_drop,
      List.length_append, h1, h2]
    congr 1
    omega

/-- The store of a new RAM disk has `DISK_BLOCK_COUNT * DISK_BLOCK_SIZE` bytes. -/
theorem new_length (w : Bool) :
    (MscRamDisk.new w).ram_disk_.length = DISK_BLOCK_COUNT * DISK_BLOCK_SIZE :=
  readme_disk_length

/-- The first byte of the store of a new RAM disk. -/
theorem new_first_byte (w : Bool) : (MscRamDisk.new w).ram_disk_.take 1 = [0xEB] := by
  show readme_disk_.take 1 = [0xEB]
  unfold readme_disk_
  rw [List.append_assoc, List.append_assoc, List.append_assoc]
  rfl

end USB
namespace USB

/-- No write changes the flag `is_writable_`. -/
theorem Write10_keeps_flag (d d2 : MscRamDisk) (lba offset n r : Nat) (data : List Nat)
    (h : d.Write10 lba offset data n = some (r, d2)) : d2.IsWritable = d.IsWritable := by
  unfold MscRamDisk.Write10 at h
  by_cases hl : lba ≥ DISK_BLOCK_COUNT
  · rw [if_pos hl] at h
    cases h
    rfl
  · rw [if_neg hl] at h
    cases hm : memcpyTo d.ram_disk_ (lba * DISK_BLOCK_SIZE + offset) data n with
    | none =>
      rw [hm] at h
      cases h
    | some r2 =>
      rw [hm] at h
      cases h
      rfl

/-- C38: the round trip of the RAM disk. For `lba < DISK_BLOCK_COUNT` and a byte
range inside the store, `Write10(lba, offset, data, n)` returns `n`; a following
`Read10(lba, offset, buf, n)` returns `n` and leaves the `n` bytes of `data` in
`buf`; the store keeps its size and every byte outside the range written. -/
theorem write_read_round_trip (d : MscRamDisk) (lba offset n : Nat) (data buf : List Nat)
    (hlen : d.ram_disk_.length = DISK_BLOCK_COUNT * DISK_BLOCK_SIZE)
    (hlba : lba < DISK_BLOCK_COUNT)
    (hrange : lba * DISK_BLOCK_SIZE + offset + n ≤ DISK_BLOCK_COUNT * DISK_BLOCK_SIZE)
    (hdata : n ≤ data.length) (hbuf : n ≤ buf.length) :
    ∃ d2 : MscRamDisk,
      d.Write10 lba offset data n = some (n, d2) ∧
      d2.Read10 lba offset buf n = some (n, data.take n ++ buf.drop n) ∧
      d2.ram_disk_.length = d.ram_disk_.length ∧
      ∀ i, i < lba * DISK_BLOCK_SIZE + offset ∨ lba * DISK_BLOCK_SIZE + offset + n ≤ i →
        d2.ram_disk_[i]? = d.ram_disk_[i]? := by
  have hpos : lba * DISK_BLOCK_SIZE + offset + n ≤ d.ram_disk_.length := by
    rw [hlen]
    exact hrange
  have hl2 := spliced_length d.ram_disk_ data (lba * DISK_BLOCK_SIZE + offset) n hpos hdata
  refine ⟨_, Write10_in_range d lba offset n data hlen hlba hrange hdata, ?_, hl2, ?_⟩
  · rw [Read10_in_range _ lba offset n buf (hl2.trans hlen) hlba hrange hbuf]
    show some (n, List.take n (List.drop (lba * DISK_BLOCK_SIZE + offset)
      (d.ram_disk_.take (lba * DISK_BLOCK_SIZE + offset) ++ data.take n ++
        d.ram_disk_.drop (lba * DISK_BLOCK_SIZE + offset + n))) ++ buf.drop n) = _
    rw [spliced_read d.ram_disk_ data _ n hpos hdata]
  · intro i hi
    exact spliced_outside d.ram_disk_ data _ n i hpos hdata hi

/-- Witness of C38: four bytes written across the boundary of sectors 0 and 1 of
a new RAM disk, and read back. -/
theorem write_read_round_trip_witness :
    ∃ d2 : MscRamDisk,
      (MscRamDisk.new true).Write10 0 510 [1, 2, 3, 4] 4 = some (4, d2) ∧
      d2.Read10 0 510 [9, 9, 9, 9] 4 = some (4, [1, 2, 3, 4]) ∧
      d2.ram_disk_.length = (MscRamDisk.new true).ram_disk_.length ∧
      ∀ i, i < 0 * DISK_BLOCK_SIZE + 510 ∨ 0 * DISK_BLOCK_SIZE + 510 + 4 ≤ i →
        d2.ram_disk_[i]? = (MscRamDisk.new true).ram_disk_[i]? :=
  write_read_round_trip (MscRamDisk.new true) 0 510 4 [1, 2, 3, 4] [9, 9, 9, 9]
    (new_length true) (by decide) (by decide) (by decide) (by decide)

/-- C37: a read or write can leave the store. Sector 15 passes the guard
`lba >= DISK_BLOCK_COUNT`, and a length of 513 bytes from its start, or an offset
of 8192 bytes from sector 0, gives `memcpy` a byte range that runs past the end
of the `DISK_BLOCK_COUNT x DISK_BLOCK_SIZE` array. -/
theorem read_write_run_past_store :
    15 < DISK_BLOCK_COUNT ∧
    DISK_BLOCK_COUNT * DISK_BLOCK_SIZE < 15 * DISK_BLOCK_SIZE + 0 + 513 ∧
    (MscRamDisk.new true).Read10 15 0 (List.replicate 513 0) 513 = none ∧
    (MscRamDisk.new true).Write10 15 0 (List.replicate 513 0) 513 = none ∧
    DISK_BLOCK_COUNT * DISK_BLOCK_SIZE < 0 * DISK_BLOCK_SIZE + 8192 + 1 ∧
    (MscRamDisk.new true).Read10 0 8192 [0] 1 = none ∧
    (MscRamDisk.new true).Write10 0 8192 [0] 1 = none :=
  ⟨by decide, by decide,
    (past_store (MscRamDisk.new true) 15 0 513 _ (new_length true) (by decide) (by decide)).1,
    (past_store (MscRamDisk.new true) 15 0 513 _ (new_length true) (by decide) (by decide)).2,
    by decide,
    (past_store (MscRamDisk.new true) 0 8192 1 _ (new_length true) (by decide) (by decide)).1,
    (past_store (MscRamDisk.new true) 0 8192 1 _ (new_length true) (by decide) (by decide)).2⟩

/-- Counterexample to C32: a RAM disk constructed read-only reports
`IsWritable() = false`, and its first byte reads 0xEB; `Write10` of the byte 0x55
to the same place returns 1 and changes the store, and the next `Read10` returns
0x55. -/
theorem read_only_disk_is_written :
    (MscRamDisk.new false).IsWritable = false ∧
    (MscRamDisk.new false).Read10 0 0 [0] 1 = some (1, [0xEB]) ∧
    ∃ d2 : MscRamDisk,
      (MscRamDisk.new false).Write10 0 0 [0x55] 1 = some (1, d2) ∧
      d2.IsWritable = false ∧
      d2.ram_disk_ ≠ (MscRamDisk.new false).ram_disk_ ∧
      d2.Read10 0 0 [0] 1 = some (1, [0x55]) := by
  have hr := Read10_in_range (MscRamDisk.new false) 0 0 1 [0] (new_length false) (by decide)
    (by decide) (by decide)
  have hw := Write10_in_range (MscRamDisk.new false) 0 0 1 [0x55] (new_length false) (by decide)
    (by decide) (by decide)
  have hpos : 0 + 1 ≤ (MscRamDisk.new false).ram_disk_.length := by
    rw [new_length]
    decide
  have hl2 := spliced_length (MscRamDisk.new false).ram_disk_ [0x55] 0 1 hpos (by decide)
  have hs := spliced_read (MscRamDisk.new false).ram_disk_ [0x55] 0 1 hpos (by decide)
  refine ⟨rfl, ?_, _, hw, rfl, ?_, ?_⟩
  · rw [hr]
    show some (1, List.take 1 (MscRamDisk.new false).ram_disk_ ++ []) = _
    rw [new_first_byte]
    rfl
  · intro h
    have h1 := congrArg (List.take 1) h
    rw [new_first_byte] at h1
    exact absurd h1 (by
      show ¬ List.take 1 (List.drop 0 (List.take 0 (MscRamDisk.new false).ram_disk_ ++
        List.take 1 [0x55] ++ List.drop (0 + 1) (MscRamDisk.new false).ram_disk_)) = [0xEB]
      rw [hs]
      decide)
  · rw [Read10_in_range _ 0 0 1 [0] (hl2.trans (new_length false)) (by decide) (by decide)
      (by decide)]
    show some (1, List.take 1 (List.drop 0 (List.take 0 (MscRamDisk.new false).ram_disk_ ++
        List.take 1 [0x55] ++ List.drop (0 + 1) (MscRamDisk.new false).ram_disk_)) ++ []) = _
    rw [hs]
    rfl

/-- C32 (amended): a RAM disk constructed read-only reports
`IsWritable() = false`, and no `Write10` changes the flag; but `Write10` does not
consult it: for `lba < DISK_BLOCK_COUNT` and a byte range inside the store it
returns `n` and stores the data on a read-only disk exactly as on a writable
one. -/
theorem write_ignores_write_policy (d : MscRamDisk) (lba offset n : Nat) (data : List Nat)
    (hro : d.IsWritable = false)
    (hlen : d.ram_disk_.length = DISK_BLOCK_COUNT * DISK_BLOCK_SIZE)
    (hlba : lba < DISK_BLOCK_COUNT)
    (hrange : lba * DISK_BLOCK_SIZE + offset + n ≤ DISK_BLOCK_COUNT * DISK_BLOCK_SIZE)
    (hdata : n ≤ data.length) :
    (MscRamDisk.new false).IsWritable = false ∧
    ∃ d2 : MscRamDisk,
      d.Write10 lba offset data n = some (n, d2) ∧
      d2.IsWritable = false ∧
      d2.ram_disk_ = d.ram_disk_.take (lba * DISK_BLOCK_SIZE + offset) ++ data.take n ++
        d.ram_disk_.drop (lba * DISK_BLOCK_SIZE + offset + n) ∧
      ({ d with is_writable_ := true } : MscRamDisk).Write10 lba offset data n =
        some (n, { d2 with is_writable_ := true }) :=
  ⟨rfl, _, Write10_in_range d lba offset n data hlen hlba hrange hdata, hro, rfl,
    Write10_in_range { d with is_writable_ := true } lba offset n data hlen hlba hrange hdata⟩

/-- Witness of C32 (amended): two bytes written at the start of sector 1
of a read-only RAM disk. -/
theorem write_ignores_write_policy_witness :
    (MscRamDisk.new false).IsWritable = false ∧
    ∃ d2 : MscRamDisk,
      (MscRamDisk.new false).Write10 1 0 [0xAA, 0xBB] 2 = some (2, d2) ∧
      d2.IsWritable = false ∧
      d2.ram_disk_ = (MscRamDisk.new false).ram_disk_.take (1 * DISK_BLOCK_SIZE + 0) ++
        [0xAA, 0xBB].take 2 ++
        (MscRamDisk.new false).ram_disk_.drop (1 * DISK_BLOCK_SIZE + 0 + 2) ∧
      ({ MscRamDisk.new false with is_writable_ := true } : MscRamDisk).Write10 1 0
        [0xAA, 0xBB] 2 = some (2, { d2 with is_writable_ := true }) :=
  write_ignores_write_policy (MscRamDisk.new false) 1 0 2 [0xAA, 0xBB] rfl (new_length false)
    (by decide) (by decide) (by decide)

end USB
/-! ## The image of the RAM disk as a FAT12 volume (C33) -/
namespace USB

theorem block_here (a r : List Nat) (h : a.length = DISK_BLOCK_SIZE) : block (a ++ r) 0 = a := by
  unfold block
  rw [Nat.zero_mul, List.drop_zero]
  exact List.take_left' h

theorem block_skip (a r : List Nat) (k : Nat) (h : a.length = DISK_BLOCK_SIZE) :
    block (a ++ r) (k + 1) = block r k := by
  unfold block
  rw [show (k + 1) * DISK_BLOCK_SIZE = DISK_BLOCK_SIZE + k * DISK_BLOCK_SIZE by ring,
    ← List.drop_drop, List.drop_left' h]

/-- The rows 0 to 3 of `readme_disk_` are the four initialisers, filled with
zeros. -/
theorem readme_disk_blocks :
    block readme_disk_ 0 = blockInit bootSector ∧ block readme_disk_ 1 = blockInit fatTable ∧
    block readme_disk_ 2 = blockInit rootDirectory ∧
    block readme_disk_ 3 = blockInit (cstr BLUESCSI_README_CONTENTS) := by
  have h0 : (blockInit bootSector).length = DISK_BLOCK_SIZE :=
    blockInit_length _ (by rw [bootSector_length]; decide)
  have h1 : (blockInit fatTable).length = DISK_BLOCK_SIZE := blockInit_length _ (by decide)
  have h2 : (blockInit rootDirectory).length = DISK_BLOCK_SIZE := blockInit_length _ (by decide)
  have h3 : (blockInit (cstr BLUESCSI_README_CONTENTS)).length = DISK_BLOCK_SIZE :=
    blockInit_length _ (by decide)
  unfold readme_disk_
  simp only [List.append_assoc]
  refine ⟨block_here _ _ h0, ?_, ?_, ?_⟩
  · rw [block_skip _ _ 0 h0, block_here _ _ h1]
  · rw [block_skip _ _ 1 h0, block_skip _ _ 0 h1, block_here _ _ h2]
  · rw [block_skip _ _ 2 h0, block_skip _ _ 1 h1, block_skip _ _ 0 h2, block_here _ _ h3]

theorem readme_length : BLUESCSI_README_CONTENTS.length = 198 := by decide

/-- C33: the image of the RAM disk is a self-consistent FAT12 volume. The boot
sector (block 0) declares 512 bytes per sector, 1 sector per cluster, 1 reserved
sector, 1 FAT of 1 sector, 16 root-directory entries and `DISK_BLOCK_COUNT`
sectors; so the FAT is block 1, the root directory block 2, and cluster 2 is
block 3. Entry 1 of the root directory is `READ_ME.TXT` with start cluster 2 and
a size of 198 bytes, the length of the readme text, which block 3 starts with;
198 is below 256 and below 512. Entry 2 of the FAT is 0xFFF. -/
theorem readme_disk_is_fat12_volume :
    byte_per_sector (block readme_disk_ 0) = 512 ∧ DISK_BLOCK_SIZE = 512 ∧
    sector_per_cluster (block readme_disk_ 0) = 1 ∧
    reserved_sectors (block readme_disk_ 0) = 1 ∧
    fat_num (block readme_disk_ 0) = 1 ∧
    sector_per_fat (block readme_disk_ 0) = 1 ∧
    fat12_root_entry_num (block readme_disk_ 0) = 16 ∧
    fat12_sector_num_16 (block readme_disk_ 0) = DISK_BLOCK_COUNT ∧
    fatStart (block readme_disk_ 0) = 1 ∧ rootDirStart (block readme_disk_ 0) = 2 ∧
    dataStart (block readme_disk_ 0) = 3 ∧ clusterBlock (block readme_disk_ 0) 2 = 3 ∧
    block readme_disk_ 1 = blockInit fatTable ∧
    block readme_disk_ 2 = blockInit rootDirectory ∧
    dirEntryName (dirEntry (block readme_disk_ 2) 1) = cstr "READ_ME TXT" ∧
    dirEntryCluster (dirEntry (block readme_disk_ 2) 1) = 2 ∧
    dirEntrySize (dirEntry (block readme_disk_ 2) 1) = BLUESCSI_README_CONTENTS.length ∧
    (block readme_disk_ 3).take BLUESCSI_README_CONTENTS.length =
      cstr BLUESCSI_README_CONTENTS ∧
    BLUESCSI_README_CONTENTS.length = 198 ∧ BLUESCSI_README_CONTENTS.length < 256 ∧
    BLUESCSI_README_CONTENTS.length < DISK_BLOCK_SIZE ∧
    fat12Entry (block readme_disk_ 1) 2 = FAT12_END_OF_CHAIN := by
  obtain ⟨b0, b1, b2, b3⟩ := readme_disk_blocks
  have hc : (cstr BLUESCSI_README_CONTENTS).length = BLUESCSI_README_CONTENTS.length := by
    unfold cstr
    rw [List.length_map]
    rfl
  rw [b0, b1, b2, b3, blockInit_bootSector]
  refine ⟨by decide, rfl, by decide, by decide, by decide, by decide, by decide, by decide,
    by decide, by decide, by decide, by decide, rfl, rfl, by decide, by decide, by decide, ?_,
    readme_length, by decide, by decide, by decide⟩
  unfold blockInit
  exact List.take_left' hc

end USB
/-! ## The search for a file name and the array `filename` (C11) -/

theorem decimal_length_pos (fuel n : Nat) : 1 ≤ (decimal (fuel + 1) n).length := by
  rw [decimal]
  split_ifs
  · exact le_refl _
  · rw [List.length_append]
    exact Nat.le_add_left _ _

theorem fmt_d_length_pos (x : Int) : 1 ≤ (fmt_d x).length := by
  unfold fmt_d
  split_ifs
  · rw [List.length_cons]
    exact Nat.le_add_left _ _
  · exact decimal_length_pos _ _

theorem fmt_03d_length_ge (n : Nat) : 3 ≤ (fmt_03d n).length := by
  unfold fmt_03d
  simp only [List.length_append, List.length_replicate]
  omega

/-- Every formatted name has at least 18 characters, whatever the device type,
the target ID and the sequence number. -/
theorem imageFilename_length_ge (deviceType : Nat) (target_id : Int) (image_num : Nat) :
    18 ≤ (imageFilename deviceType target_id image_num).length := by
  have h3 := fmt_03d_length_ge image_num
  have h1 := fmt_d_length_pos target_id
  have hcd : ("CD".toList).length = 2 := rfl
  have hhd : ("HD".toList).length = 2 := rfl
  have hiso : ("iso".toList).length = 3 := rfl
  have hhda : ("hda".toList).length = 3 := rfl
  have him : ("_imaged-".toList).length = 8 := rfl
  unfold imageFilename
  rw [String.length]
  by_cases h : deviceType = DEVICE_TYPE_CD
  · simp only [if_pos h, List.length_append, hcd, hiso, him, List.length_singleton]
    omega
  · simp only [if_neg h, List.length_append, hhd, hhda, him, List.length_singleton]
    omega

/-- No formatted name fits the array `filename` with its terminating NUL. -/
theorem sprintfFilename_overruns (deviceType : Nat) (target_id : Int) (image_num : Nat) :
    sprintfFilename deviceType target_id image_num = none := by
  have h := imageFilename_length_ge deviceType target_id image_num
  unfold sprintfFilename sprintfBytes FILENAME_SIZE
  rw [if_neg (by omega)]

/-- C11: the filename search does not get as far as choosing a name. For every
list of names on the card, every device type and every target ID, the first
`sprintf` of the loop of lines 257-263 (sequence number 1) has to store at least
19 bytes in the 18-byte array `filename`: it stores past the end of the array
before `SD.exists` is asked for the first time, and what the loop does from there
on is undefined. So it is for the probe of `zipDrive` at target 0 on an empty
card, whose name `HD0_imaged-001.hda` has 18 characters. -/
theorem filename_search_overruns_buffer (files : List String) (deviceType : Nat)
    (target_id : Int) :
    searchImageNumBuf files deviceType target_id (files.length + 1) 1 =
      SearchResult.overrun 1 ∧
    sprintfFilename deviceType target_id 1 = none ∧
    FILENAME_SIZE < sprintfBytes (imageFilename deviceType target_id 1) ∧
    Action.sdOpen "HD0_imaged-001.hda" ∈ (scsiUsbBridgeMainLoop zipDrive initDefault).2 ∧
    imageFilename DEVICE_TYPE_DIRECT_ACCESS 0 1 = "HD0_imaged-001.hda" ∧
    sprintfBytes "HD0_imaged-001.hda" = 19 ∧ FILENAME_SIZE = 18 ∧
    searchImageNumBuf [] DEVICE_TYPE_DIRECT_ACCESS 0 1 1 = SearchResult.overrun 1 := by
  have h := imageFilename_length_ge deviceType target_id 1
  refine ⟨?_, sprintfFilename_overruns _ _ _, ?_, by decide, by decide, by decide, rfl,
    by decide⟩
  · rw [searchImageNumBuf, sprintfFilename_overruns]
  · unfold sprintfBytes FILENAME_SIZE
    omega

end BlueSCSI
